import Mathlib

/-!
Shallow embedding of the rqlite storage engine (src/main.rs): a single-table
B+-tree over 4096-byte pages with a 64-slot pager, a cursor layer, ordered
insert with first-root-split, and a little-endian node codec.

Modelling conventions:
* Rust `i64`/`i32` become `Int`, `u32`/`usize` become `Nat`.  No arithmetic in
  the verified paths can overflow (indices stay below 64 / 340 / 4096 and key
  arithmetic is comparison-only); the codec applies the `% 2^w` wrap-arounds
  explicitly where the source converts to fixed-width bytes.
* Bytes are `Nat` (well-formedness predicates restrict them to `< 256`).
* The database file is a byte list.  The pager opens its file with
  `OpenOptions::append(true)`; on Linux, `FileExt::write_at` (`pwrite`) on an
  `O_APPEND` file appends regardless of the given offset, so `write_and_advance`
  is modelled as appending `buf` while advancing the bookkeeping offset by the
  declared size (the offsets only feed the padding computation, as in the
  source).  `FileExt::read_at` permits short reads and the source ignores the
  returned byte count, so `read_and_advance` is modelled by zero-padding the
  requested buffer: exactly the content of the zero-initialized Rust buffer
  after a short read.
* Fallible Rust paths return `Result`/`Option`; a returned `Err` is modelled as
  `err`, a `panic!`/`unwrap`/`expect` failure as `fatal` (a panic aborts the
  process, an `Err` value keeps the REPL session alive, so reachability only
  steps over `ok`/`err` results).  Both carry the table state at the moment of
  failure because Rust's in-place mutations survive an early `return Err`.
* The two unbounded recursions of the source (tree descent and the `select`
  loop) take an explicit fuel argument; the fuel is chosen so that it dominates
  the concrete iteration count of every execution the theorems below talk
  about, and exhausting it yields a `fatal` marked as a model artifact.
-/

namespace Rqlite

/-- Sentinel page index `NOT_EXIST` (Rust `const NOT_EXIST: i32 = -1`). -/
def NOT_EXIST : Int := -1

/-- Page size in bytes. -/
def PAGE_SIZE : Nat := 4096

/-- Size of the serialized row id (`mem::size_of::<i64>()`). -/
def ID_SIZE : Nat := 8

/-- Maximum name length in bytes. -/
def NAME_MAX_SIZE : Nat := 32

/-- Maximum description length in bytes. -/
def DESCRIPTION_MAX_SIZE : Nat := 256

/-- Capacity of the pager's page slot array. -/
def PAGE_MAX_NUM : Nat := 64

/-- Size of the node kind byte (`size_of::<NodeKind>()`, a `repr(u8)` enum). -/
def NODE_KIND_SIZE : Nat := 1

/-- Size of the is_root flag (`size_of::<bool>()`). -/
def NODE_IS_ROOT_SIZE : Nat := 1

/-- Size of the parent page index (`size_of::<i32>()`). -/
def NODE_PARENT_SIZE : Nat := 4

/-- Size of the cell count (`size_of::<u32>()`). -/
def NODE_N_CELLS_SIZE : Nat := 4

/-- Common node header size. -/
def NODE_HEADER_SIZE : Nat :=
  NODE_KIND_SIZE + NODE_IS_ROOT_SIZE + NODE_PARENT_SIZE + NODE_N_CELLS_SIZE

/-- Leaf node header size. -/
def LEAF_NODE_HEADER_SIZE : Nat := NODE_HEADER_SIZE

/-- Bytes available for leaf cells in a page. -/
def LEAF_NODE_SPACE_FOR_CELLS : Nat := PAGE_SIZE - LEAF_NODE_HEADER_SIZE

/-- Size of a leaf cell key (`size_of::<i64>()`). -/
def LEAF_NODE_CELL_KEY_SIZE : Nat := 8

/-- Serialized size of one leaf cell. -/
def LEAF_NODE_CELL_SIZE : Nat :=
  LEAF_NODE_CELL_KEY_SIZE + ID_SIZE + NAME_MAX_SIZE + DESCRIPTION_MAX_SIZE

/-- Leaf cell capacity per node. -/
def LEAF_NODE_CELL_MAX_NUM : Nat := LEAF_NODE_SPACE_FOR_CELLS / LEAF_NODE_CELL_SIZE

/-- Size of the internal node right-child pointer (`size_of::<i32>()`). -/
def INTERNAL_NODE_RIGHT_CHILD_SIZE : Nat := 4

/-- Internal node header size. -/
def INTERNAL_NODE_HEADER_SIZE : Nat := NODE_HEADER_SIZE + INTERNAL_NODE_RIGHT_CHILD_SIZE

/-- Bytes available for internal cells in a page. -/
def INTERNAL_NODE_SPACE_FOR_CELLS : Nat := PAGE_SIZE - INTERNAL_NODE_HEADER_SIZE

/-- Size of an internal cell key (`size_of::<i64>()`). -/
def INTERNAL_NODE_CELL_KEY_SIZE : Nat := 8

/-- Size of an internal cell child pointer (`size_of::<i32>()`). -/
def INTERNAL_NODE_CELL_CHILD_SIZE : Nat := 4

/-- Serialized size of one internal cell. -/
def INTERNAL_NODE_CELL_SIZE : Nat :=
  INTERNAL_NODE_CELL_KEY_SIZE + INTERNAL_NODE_CELL_CHILD_SIZE

/-- Internal cell capacity per node. -/
def INTERNAL_NODE_CELL_MAX_NUM : Nat :=
  INTERNAL_NODE_SPACE_FOR_CELLS / INTERNAL_NODE_CELL_SIZE

/-- Number of cells that go to the new right sibling during a leaf split. -/
def SPLIT_RIGHT_LEAF_NODE_NUM : Nat := (LEAF_NODE_CELL_MAX_NUM + 1) / 2

/-- Number of cells that stay in the old (left) leaf during a leaf split. -/
def SPLIT_LEFT_LEAF_NODE_NUM : Nat :=
  (LEAF_NODE_CELL_MAX_NUM + 1) - SPLIT_RIGHT_LEAF_NODE_NUM

/-- Error message for a non-positive id. -/
def ERR_NOT_POSITIVE_ID : String := "ERROR: id must be greater than 0."

/-- Error message for an over-long name. -/
def ERR_NAME_TOO_LONG : String := "ERROR: name too long."

/-- Error message for an over-long description. -/
def ERR_DESCRIPTION_TOO_LONG : String := "ERROR: description too long."

/-- Error message when the pager's 64-page cap is hit. -/
def ERR_TABLE_FULL : String := "ERROR: table reach max size."

/-- Error message for a file whose length is not page-aligned. -/
def ERR_INVALID_FILE : String := "ERROR: invalid database file, should be page-aligned."

/-- Duplicate-key message: the source formats `ERROR: key '<id>' already exist.`
(the quotes are rendered with an escape here). -/
def dupKeyMsg (id : Int) : String :=
  "ERROR: key \x27" ++ toString id ++ "\x27 already exist."

/-- Message of `NodeKind::from_u8` on an invalid kind byte; the Rust string is a
plain literal, so its braces are literal text (no interpolation happens). -/
def kindErrMsg : String :=
  "ERROR: unkown value \x7bv\x7d, can\x27t transform valid node kind."

/-- Marker used where the Rust code would `panic!`/`unwrap` on `None`. -/
def panicUnwrapMsg : String := "panic: called unwrap on a None value"

/-- Marker for `get_mut_leaf_cells` called on a node without a leaf buffer. -/
def panicMutLeafMsg : String := "panic: get_mut_leaf_cells must be called by leaf node"

/-- Marker for `get_mut_internal_cells` on a node without an internal buffer. -/
def panicMutInternalMsg : String :=
  "panic: get_mut_internal_cells must be called by internal node"

/-- Marker for the unimplemented non-root split path. -/
def panicUpdateParentMsg : String := "panic: update parent after split"

/-- Marker for `Cursor::from_leaf_node` reaching a node with too few cells. -/
def panicTodoSplitMsg : String := "panic: TODO: need to split page"

/-- Marker for usize underflow in `get_max_key` on an empty node. -/
def panicUnderflowMsg : String := "panic: attempt to subtract with overflow"

/-- Marker for `get_child_index` called on a leaf node. -/
def panicChildOnLeafMsg : String := "panic: get_child_index must be called by internal node"

/-- Marker for `get_child_index` with an out-of-bound slot. -/
def panicChildOobMsg : String := "panic: child_index out of bound"

/-- Fuel-exhaustion marker: a model artifact, see the module comment. -/
def fuelMsg : String := "model: fuel exhausted"

/-- Node kinds (Rust `enum NodeKind { Internal = 1, Leaf = 2 }`). -/
inductive NodeKind : Type where
  | internal : NodeKind
  | leaf : NodeKind
  deriving DecidableEq

/-- A row: id plus fixed-size name and description byte arrays. -/
structure Row : Type where
  id : Int
  name : List Nat
  description : List Nat
  deriving DecidableEq

/-- A leaf cell: key plus row payload. -/
structure LeafCell : Type where
  key : Int
  value : Row
  deriving DecidableEq

/-- An internal cell: child page index plus separator key. -/
structure InternalCell : Type where
  child : Int
  key : Int
  deriving DecidableEq

/-- A node, mirroring the Rust struct: a common header with optional per-kind
payloads (`leaf_cells` only for leaves, `right_child`/`internal_cells` only for
internal nodes). -/
structure Node : Type where
  kind : NodeKind
  is_root : Bool
  parent : Int
  n_cells : Nat
  leaf_cells : Option (List (Option LeafCell))
  right_child : Option Int
  internal_cells : Option (List (Option InternalCell))
  deriving DecidableEq

/-- The pager: the backing file's bytes, the number of known pages, and the
64-slot cache of `Option<Node>`. -/
structure Pager : Type where
  file : List Nat
  n_pages : Nat
  pages : List (Option Node)
  deriving DecidableEq

/-- The table: root page index plus pager. -/
structure Table : Type where
  root_node_index : Nat
  pager : Pager
  deriving DecidableEq

/-- A cursor position (the Rust struct additionally borrows the table; here the
table is threaded explicitly through the cursor operations). -/
structure Cursor : Type where
  page_index : Nat
  cell_index : Nat
  end_of_table : Bool
  deriving DecidableEq

/-- Outcome of a stateful operation: `ok`/`err` mirror Rust's `Ok`/`Err`, and
`fatal` marks a `panic!` (which aborts the process).  All three carry the table
state at that moment, since in-place mutations survive an early return. -/
inductive Res (α : Type) : Type where
  | ok : α → Table → Res α
  | err : String → Table → Res α
  | fatal : String → Table → Res α
  deriving DecidableEq

/-- Sequencing on `Res`: `err` (Rust `?`) and `fatal` both cut the rest short. -/
def Res.bind {α β : Type} : Res α → (α → Table → Res β) → Res β
  | .ok a t, f => f a t
  | .err e t, _ => .err e t
  | .fatal e t, _ => .fatal e t

/-- Turn an `err` into a `fatal`: models `.unwrap()` applied to a `Result`. -/
def Res.toFatal {α : Type} : Res α → Res α
  | .ok a t => .ok a t
  | .err e t => .fatal e t
  | .fatal e t => .fatal e t

/-- State carried by a result, regardless of outcome. -/
def Res.state {α : Type} : Res α → Table
  | .ok _ t => t
  | .err _ t => t
  | .fatal _ t => t

/-- Whether a result is `ok`. -/
def Res.isOk {α : Type} : Res α → Bool
  | .ok _ _ => true
  | _ => false

/-- Value carried by an `ok` result. -/
def Res.valOf {α : Type} : Res α → Option α
  | .ok a _ => some a
  | _ => none

/-- Little-endian value of a byte list. -/
def leToNat : List Nat → Nat
  | [] => 0
  | b :: bs => b + 256 * leToNat bs

/-- The `w` little-endian bytes of `n` (used below only with `n < 256^w`). -/
def natToLE : Nat → Nat → List Nat
  | 0, _ => []
  | w + 1, n => n % 256 :: natToLE w (n / 256)

/-- Encode an `i64` as 8 little-endian two's-complement bytes. -/
def encI64 (x : Int) : List Nat := natToLE 8 (x % (2 ^ 64 : Int)).toNat

/-- Encode an `i32` as 4 little-endian two's-complement bytes. -/
def encI32 (x : Int) : List Nat := natToLE 4 (x % (2 ^ 32 : Int)).toNat

/-- Encode a `u32` as 4 little-endian bytes. -/
def encU32 (n : Nat) : List Nat := natToLE 4 (n % 2 ^ 32)

/-- Decode 8 little-endian bytes as an `i64` (`i64::from_le_bytes`). -/
def decI64 (bs : List Nat) : Int :=
  if leToNat bs < 2 ^ 63 then (leToNat bs : Int) else (leToNat bs : Int) - 2 ^ 64

/-- Decode 4 little-endian bytes as an `i32` (`i32::from_le_bytes`). -/
def decI32 (bs : List Nat) : Int :=
  if leToNat bs < 2 ^ 31 then (leToNat bs : Int) else (leToNat bs : Int) - 2 ^ 32

/-- Decode 4 little-endian bytes as a `u32` (`u32::from_le_bytes`). -/
def decU32 (bs : List Nat) : Nat := leToNat bs

/-- The Rust `as usize` cast of an `i32` value: sign-extend into 64 bits. -/
def i32AsUsize (x : Int) : Nat := (x % (2 ^ 64 : Int)).toNat

/-- Content of a `size`-byte zero-initialized buffer after `read_at` from
`file` at `offset`: the available bytes followed by the untouched zeros
(`FileExt::read_at` permits short reads and the byte count is ignored). -/
def readBuf (file : List Nat) (offset size : Nat) : List Nat :=
  ((file.drop offset).take size) ++
    List.replicate (size - ((file.drop offset).take size).length) 0

/-- Concatenation of the images of `f` (explicit to keep induction simple). -/
def concatMap {α β : Type} (f : α → List β) : List α → List β
  | [] => []
  | a :: as => f a ++ concatMap f as

/-- Kind from its stored byte (`NodeKind::from_u8`). -/
def NodeKind.from_u8 (v : Nat) : Except String NodeKind :=
  match v with
  | 1 => .ok .internal
  | 2 => .ok .leaf
  | _ => .error kindErrMsg

/-- Kind to its stored byte (`NodeKind::to_u8`). -/
def NodeKind.to_u8 : NodeKind → Nat
  | .internal => 1
  | .leaf => 2

/-- Reset a node into an empty leaf (`Node::become_leaf_node`). -/
def Node.become_leaf_node (n : Node) : Node :=
  { n with
    kind := .leaf
    n_cells := 0
    leaf_cells := some (List.replicate LEAF_NODE_CELL_MAX_NUM none)
    right_child := none
    internal_cells := none }

/-- Reset a node into an empty internal node (`Node::become_internal_node`). -/
def Node.become_internal_node (n : Node) : Node :=
  { n with
    kind := .internal
    n_cells := 0
    leaf_cells := none
    right_child := some NOT_EXIST
    internal_cells := some (List.replicate INTERNAL_NODE_CELL_MAX_NUM none) }

/-- Cell count as a `usize` (`Node::get_n_cells`). -/
def Node.get_n_cells (n : Node) : Nat := n.n_cells

/-- Read one leaf cell (`Node::read_leaf_cell`): `None` when the node has no
leaf buffer, the index is out of range, or the slot is empty. -/
def Node.read_leaf_cell (n : Node) (cell_index : Nat) : Option LeafCell :=
  (n.leaf_cells.getD []).getD cell_index none

/-- Read one internal cell (`Node::read_internal_cell`). -/
def Node.read_internal_cell (n : Node) (cell_index : Nat) : Option InternalCell :=
  (n.internal_cells.getD []).getD cell_index none

/-- Raw placement of a leaf cell without shifting (`Node::put_leaf_cell`).
The Rust version panics on a node without a leaf buffer or an out-of-range
index; every call site below establishes both, so the model totalizes using
`List.set`'s out-of-range no-op. -/
def Node.put_leaf_cell (n : Node) (cell_index : Nat) (cell : LeafCell) : Node :=
  { n with leaf_cells := n.leaf_cells.map (fun cells => cells.set cell_index (some cell)) }

/-- The shift phase of `Node::insert_leaf_cell`: `while cell_index < i` move
slot `i-1` to slot `i` (via `Option::take`, which leaves `None` behind) and
decrement `i`.  The second argument is the running `i`. -/
def shiftLoop (cell_index : Nat) : List (Option LeafCell) → Nat → List (Option LeafCell)
  | cells, 0 => cells
  | cells, i + 1 =>
    if cell_index < i + 1 then
      shiftLoop cell_index ((cells.set i none).set (i + 1) (cells.getD i none)) i
    else cells

/-- Ordered in-leaf insert (`Node::insert_leaf_cell`): shift `[cell_index,
n_cells)` right by one, write the cell, bump `n_cells`. -/
def Node.insert_leaf_cell (n : Node) (cell_index : Nat) (cell : LeafCell) :
    Except String Node :=
  if LEAF_NODE_CELL_MAX_NUM ≤ cell_index then .error panicTodoSplitMsg
  else
    match n.leaf_cells with
    | none => .error panicMutLeafMsg
    | some cells =>
      .ok { n with
        leaf_cells := some ((shiftLoop cell_index cells n.get_n_cells).set cell_index (some cell))
        n_cells := n.get_n_cells + 1 }

/-- Key of the last populated cell (`Node::get_max_key`); the Rust `usize`
subtraction underflows (panics in debug, and the wrapped index makes the
`unwrap` panic in release) when `n_cells = 0`. -/
def Node.get_max_key (n : Node) : Except String Int :=
  if n.get_n_cells = 0 then .error panicUnderflowMsg
  else
    match n.kind with
    | .leaf =>
      match n.read_leaf_cell (n.get_n_cells - 1) with
      | some c => .ok c.key
      | none => .error panicUnwrapMsg
    | .internal =>
      match n.read_internal_cell (n.get_n_cells - 1) with
      | some c => .ok c.key
      | none => .error panicUnwrapMsg

/-- Child page for a descent slot (`Node::get_child_index`): slot `n_cells`
selects the right child, smaller slots the corresponding cell's child. -/
def Node.get_child_index (n : Node) (child_index : Nat) : Except String Nat :=
  match n.kind with
  | .leaf => .error panicChildOnLeafMsg
  | .internal =>
    if n.get_n_cells < child_index then .error panicChildOobMsg
    else if child_index = n.get_n_cells then
      match n.right_child with
      | some rc => .ok (i32AsUsize rc)
      | none => .error panicUnwrapMsg
    else
      match n.read_internal_cell child_index with
      | some c => .ok (i32AsUsize c.child)
      | none => .error panicUnwrapMsg

/-- Serialized form of one leaf cell: key, id, name, description. -/
def encLeafCell (c : LeafCell) : List Nat :=
  encI64 c.key ++ encI64 c.value.id ++ c.value.name ++ c.value.description

/-- Serialized form of one internal cell: child then key, as on disk. -/
def encInternalCell (c : InternalCell) : List Nat :=
  encI32 c.child ++ encI64 c.key

/-- Decode one leaf cell at `offset` (key, id, name, description). -/
def readLeafCellAt (file : List Nat) (offset : Nat) : LeafCell :=
  { key := decI64 (readBuf file offset LEAF_NODE_CELL_KEY_SIZE)
    value :=
      { id := decI64 (readBuf file (offset + 8) ID_SIZE)
        name := readBuf file (offset + 16) NAME_MAX_SIZE
        description := readBuf file (offset + 48) DESCRIPTION_MAX_SIZE } }

/-- Decode `k` consecutive leaf cells starting at `offset`. -/
def readLeafCells (file : List Nat) : Nat → Nat → List LeafCell
  | _, 0 => []
  | offset, k + 1 =>
    readLeafCellAt file offset :: readLeafCells file (offset + LEAF_NODE_CELL_SIZE) k

/-- Decode one internal cell at `offset` (child then key). -/
def readInternalCellAt (file : List Nat) (offset : Nat) : InternalCell :=
  { child := decI32 (readBuf file offset INTERNAL_NODE_CELL_CHILD_SIZE)
    key := decI64 (readBuf file (offset + 4) INTERNAL_NODE_CELL_KEY_SIZE) }

/-- Decode `k` consecutive internal cells starting at `offset`. -/
def readInternalCells (file : List Nat) : Nat → Nat → List InternalCell
  | _, 0 => []
  | offset, k + 1 =>
    readInternalCellAt file offset ::
      readInternalCells file (offset + INTERNAL_NODE_CELL_SIZE) k

/-- A cell buffer whose first slots hold `filled` and whose remaining slots (up
to `total`) are empty: the state of the Rust `[None; MAX]` array after the
decode loop filled its prefix. -/
def fillCells {α : Type} (filled : List α) (total : Nat) : List (Option α) :=
  filled.map some ++ List.replicate (total - filled.length) none

/-- Decode one node from `file` at `offset` (`Node::read_at`): common header,
then the kind-specific payload; the cell loop iterates over the fixed-size
buffer, so it reads `min n_cells capacity` cells. -/
def Node.read_at (file : List Nat) (offset : Nat) : Except String Node :=
  match NodeKind.from_u8 (leToNat (readBuf file offset NODE_KIND_SIZE)) with
  | .error e => .error e
  | .ok kind =>
    let is_root := leToNat (readBuf file (offset + 1) NODE_IS_ROOT_SIZE) ≠ 0
    let parent := decI32 (readBuf file (offset + 2) NODE_PARENT_SIZE)
    let n_cells := decU32 (readBuf file (offset + 6) NODE_N_CELLS_SIZE)
    match kind with
    | .internal =>
      let right_child := decI32 (readBuf file (offset + 10) INTERNAL_NODE_RIGHT_CHILD_SIZE)
      let cells := readInternalCells file (offset + 14) (min n_cells INTERNAL_NODE_CELL_MAX_NUM)
      .ok { kind := .internal
            is_root := decide is_root
            parent := parent
            n_cells := n_cells
            leaf_cells := none
            right_child := some right_child
            internal_cells := some (fillCells cells INTERNAL_NODE_CELL_MAX_NUM) }
    | .leaf =>
      let cells := readLeafCells file (offset + 10) (min n_cells LEAF_NODE_CELL_MAX_NUM)
      .ok { kind := .leaf
            is_root := decide is_root
            parent := parent
            n_cells := n_cells
            leaf_cells := some (fillCells cells LEAF_NODE_CELL_MAX_NUM)
            right_child := none
            internal_cells := none }

/-- Encode one node (`Node::write_at`).  The page bytes are appended to `file`
(see the module comment on `O_APPEND`); the bookkeeping offset advances by the
declared field sizes and determines the zero padding up to `PAGE_SIZE`. -/
def Node.write_at (n : Node) (file : List Nat) (_offset : Nat) :
    Except String (List Nat) :=
  let header :=
    [n.kind.to_u8] ++ [if n.is_root then 1 else 0] ++ encI32 n.parent ++
      encU32 n.get_n_cells
  match n.kind with
  | .internal =>
    match n.right_child with
    | none => .error panicUnwrapMsg
    | some rc =>
      match n.internal_cells with
      | none => .error panicMutInternalMsg
      | some cells =>
        let written := (cells.take n.get_n_cells).filterMap id
        .ok (file ++ header ++ encI32 rc ++ concatMap encInternalCell written ++
          List.replicate
            (PAGE_SIZE - (INTERNAL_NODE_HEADER_SIZE +
              INTERNAL_NODE_CELL_SIZE * written.length)) 0)
  | .leaf =>
    match n.leaf_cells with
    | none => .error panicMutLeafMsg
    | some cells =>
      let written := (cells.take n.get_n_cells).filterMap id
      .ok (file ++ header ++ concatMap encLeafCell written ++
        List.replicate
          (PAGE_SIZE - (LEAF_NODE_HEADER_SIZE +
            LEAF_NODE_CELL_SIZE * written.length)) 0)

/-- The blank node installed by `get_page` when it allocates a fresh slot. -/
def blankLeafNode : Node :=
  { kind := .leaf
    is_root := false
    parent := NOT_EXIST
    n_cells := 0
    leaf_cells := none
    right_child := none
    internal_cells := none }

/-- Store a node into a page slot (writing through the `&mut Node` that the
Rust `get_page` hands out). -/
def Pager.setPage (p : Pager) (page_index : Nat) (n : Node) : Pager :=
  { p with pages := p.pages.set page_index (some n) }

/-- Fetch-or-allocate a page (`Pager::get_page`): reject indices past the cap,
return a populated slot as is, decode from the file below `n_pages`
(`fetch_page_from_file`), else install a blank leaf and bump `n_pages`. -/
def Pager.get_page (p : Pager) (page_index : Nat) : Except String Node × Pager :=
  if PAGE_MAX_NUM ≤ page_index then (.error ERR_TABLE_FULL, p)
  else
    match p.pages.getD page_index none with
    | some n => (.ok n, p)
    | none =>
      if page_index < p.n_pages then
        match Node.read_at p.file (page_index * PAGE_SIZE) with
        | .ok n => (.ok n, p.setPage page_index n)
        | .error e => (.error e, p)
      else
        (.ok blankLeafNode,
          { p with
            n_pages := page_index + 1
            pages := p.pages.set page_index (some blankLeafNode) })

/-- Index the next allocation would use (`Pager::get_new_page_index`). -/
def Pager.get_new_page_index (p : Pager) : Nat := p.n_pages

/-- Open a pager over the given file bytes (`Pager::new`): the length must be
page-aligned; `n_pages` counts whole pages; the cache starts empty. -/
def Pager.new (file : List Nat) : Except String Pager :=
  if file.length % PAGE_SIZE ≠ 0 then .error ERR_INVALID_FILE
  else
    .ok { file := file
          n_pages := file.length / PAGE_SIZE
          pages := List.replicate PAGE_MAX_NUM none }

/-- Table-level `get_page` whose error propagates as a Rust `?`. -/
def Table.getPage (t : Table) (page_index : Nat) : Res Node :=
  match t.pager.get_page page_index with
  | (.ok n, p) => .ok n { t with pager := p }
  | (.error e, p) => .err e { t with pager := p }

/-- Table-level `get_page` whose error is `.unwrap()`ed (a panic). -/
def Table.getPageF (t : Table) (page_index : Nat) : Res Node :=
  (t.getPage page_index).toFatal

/-- Write a node back into the table's pager. -/
def Table.setPage (t : Table) (page_index : Nat) (n : Node) : Table :=
  { t with pager := t.pager.setPage page_index n }

/-- Build a table over a pager (`Table::new`): on an empty file, allocate page
0 and turn it into the leaf root. -/
def Table.new (p : Pager) : Table :=
  let t : Table := { root_node_index := 0, pager := p }
  if p.n_pages = 0 then
    match t.getPage 0 with
    | .ok root t =>
      t.setPage 0 { root.become_leaf_node with is_root := true }
    | .err _ t => t
    | .fatal _ t => t
  else t

/-- The pager of a fresh (empty) database file. -/
def emptyPager : Pager :=
  { file := [], n_pages := 0, pages := List.replicate PAGE_MAX_NUM none }

/-- The table of a brand-new session on an empty file. -/
def freshTable : Table := Table.new emptyPager

/-- The binary search of `Cursor::from_leaf_node`, returning the final slot and
whether the key was found there.  The Rust loop runs `while left != right`; all
call chains keep `left ≤ right`, under which the guard used here agrees.  The
first argument is structural-recursion fuel; every interval step shrinks
`right - left`, so `leafBinSearch` below passes exactly that width and the
fuel never runs out. -/
def leafBinSearchGo (n : Node) (key : Int) :
    Nat → Nat → Nat → Except String (Nat × Bool)
  | 0, left, _ => .ok (left, false)
  | fuel + 1, left, right =>
    if right ≤ left then .ok (left, false)
    else
      let mid := (left + right) / 2
      match n.read_leaf_cell mid with
      | none => .error panicUnwrapMsg
      | some c =>
        if key = c.key then .ok (mid, true)
        else if key < c.key then leafBinSearchGo n key fuel left mid
        else leafBinSearchGo n key fuel (mid + 1) right

/-- The binary search loop of `Cursor::from_leaf_node`. -/
def leafBinSearch (n : Node) (key : Int) (left right : Nat) :
    Except String (Nat × Bool) :=
  leafBinSearchGo n key (right - left) left right

/-- The binary search of `Cursor::from_internal_node`: smallest slot whose
separator is `≥ key` (fuel as in `leafBinSearchGo`). -/
def internalBinSearchGo (n : Node) (key : Int) :
    Nat → Nat → Nat → Except String Nat
  | 0, left, _ => .ok left
  | fuel + 1, left, right =>
    if right ≤ left then .ok left
    else
      let mid := (left + right) / 2
      match n.read_internal_cell mid with
      | none => .error panicUnwrapMsg
      | some c =>
        if key ≤ c.key then internalBinSearchGo n key fuel left mid
        else internalBinSearchGo n key fuel (mid + 1) right

/-- The binary search loop of `Cursor::from_internal_node`. -/
def internalBinSearch (n : Node) (key : Int) (left right : Nat) :
    Except String Nat :=
  internalBinSearchGo n key (right - left) left right

/-- Position a cursor inside one leaf (`Cursor::from_leaf_node`). -/
def Cursor.from_leaf_node (t : Table) (page_index : Nat) (key : Int) : Res Cursor :=
  (t.getPageF page_index).bind fun node t =>
    match leafBinSearch node key 0 node.get_n_cells with
    | .error e => .fatal e t
    | .ok (cell_index, found) =>
      .ok { page_index := page_index
            cell_index := cell_index
            end_of_table := if found then false else decide (cell_index = node.get_n_cells) }
        t

/-- Tree descent (`Cursor::from_internal_node` / the kind dispatch of
`Cursor::from`).  The Rust recursion is unbounded; the fuel dominates the
height of every tree the theorems below consider. -/
def Cursor.fromNode : Nat → Table → Nat → Int → Res Cursor
  | 0, t, _, _ => .fatal fuelMsg t
  | fuel + 1, t, page_index, key =>
    (t.getPageF page_index).bind fun node t =>
      match node.kind with
      | .leaf => Cursor.from_leaf_node t page_index key
      | .internal =>
        match internalBinSearch node key 0 node.get_n_cells with
        | .error e => .fatal e t
        | .ok slot =>
          match node.get_child_index slot with
          | .error e => .fatal e t
          | .ok child_index => Cursor.fromNode fuel t child_index key

/-- Cursor positioned at a key's slot (`Cursor::from`). -/
def Cursor.fromKey (t : Table) (key : Int) : Res Cursor :=
  Cursor.fromNode PAGE_MAX_NUM t t.root_node_index key

/-- Cursor at the start of the table (`Cursor::from_start`). -/
def Cursor.from_start (t : Table) : Res Cursor :=
  let page_index := t.root_node_index
  (t.getPageF page_index).bind fun root t =>
    .ok { page_index := page_index
          cell_index := 0
          end_of_table := decide (root.get_n_cells = 0) } t

/-- Advance a cursor by one cell (`Cursor::advance`). -/
def Cursor.advance (c : Cursor) (t : Table) : Res Cursor :=
  let c := { c with cell_index := c.cell_index + 1 }
  (t.getPageF c.page_index).bind fun node t =>
    .ok (if node.get_n_cells ≤ c.cell_index then { c with end_of_table := true } else c) t

/-- Read the cell under the cursor (`Cursor::read_leaf_cell`). -/
def Cursor.read_leaf_cell (c : Cursor) (t : Table) : Res (Option LeafCell) :=
  (t.getPage c.page_index).bind fun node t =>
    .ok (node.read_leaf_cell c.cell_index) t

/-- One iteration of the redistribution loop in `Cursor::write_leaf_cell`:
position `i` of the merged 14-cell sequence goes to the new node when
`i ≥ SPLIT_LEFT_LEAF_NODE_NUM`, else stays in the old node, at slot
`i % SPLIT_LEFT_LEAF_NODE_NUM`; the incoming cell takes position
`cursor_index`, other positions take (and blank) the source slot. -/
def splitStep (cursor_index : Nat) (cell : LeafCell) (i : Nat) (old nw : Node) :
    Except String (Node × Node) :=
  let dest := i % SPLIT_LEFT_LEAF_NODE_NUM
  if i = cursor_index then
    if SPLIT_LEFT_LEAF_NODE_NUM ≤ i then .ok (old, nw.put_leaf_cell dest cell)
    else .ok (old.put_leaf_cell dest cell, nw)
  else
    match old.leaf_cells with
    | none => .error panicMutLeafMsg
    | some cells =>
      let index := if cursor_index < i then i - 1 else i
      match cells.getD index none with
      | none => .error panicUnwrapMsg
      | some v =>
        let old := { old with leaf_cells := some (cells.set index none) }
        if SPLIT_LEFT_LEAF_NODE_NUM ≤ i then .ok (old, nw.put_leaf_cell dest v)
        else .ok (old.put_leaf_cell dest v, nw)

/-- The redistribution loop, iterating `i` from its first argument down to 0
(the source iterates `(0..LEAF_NODE_CELL_MAX_NUM + 1).rev()`). -/
def splitLoop (cursor_index : Nat) (cell : LeafCell) :
    Nat → Node → Node → Except String (Node × Node)
  | 0, old, nw => splitStep cursor_index cell 0 old nw
  | i + 1, old, nw =>
    match splitStep cursor_index cell (i + 1) old nw with
    | .error e => .error e
    | .ok (old, nw) => splitLoop cursor_index cell i old nw

/-- The root-split copy loop: move cells `[i, i + k)` of the root buffer into
the left child's buffer (`Option::take` plus `unwrap`); the caller passes
`i = 0` and `k = n_cells`, matching the source's `for i in 0..n_cells`. -/
def copyLoop : Nat → Nat → List (Option LeafCell) → List (Option LeafCell) →
    Except String (List (Option LeafCell) × List (Option LeafCell))
  | _, 0, rootCells, leftCells => .ok (rootCells, leftCells)
  | i, k + 1, rootCells, leftCells =>
    match rootCells.getD i none with
    | none => .error panicUnwrapMsg
    | some v => copyLoop (i + 1) k (rootCells.set i none) (leftCells.set i (some v))

/-- Insert through the cursor (`Cursor::write_leaf_cell`): plain ordered insert
while the leaf has room, else the leaf split, and — only when the full leaf is
the root — the first root split; a non-root split panics. -/
def Cursor.write_leaf_cell (c : Cursor) (cell : LeafCell) (t : Table) : Res Unit :=
  (t.getPage c.page_index).bind fun node t =>
    if node.get_n_cells < LEAF_NODE_CELL_MAX_NUM then
      match node.insert_leaf_cell c.cell_index cell with
      | .ok node => .ok () (t.setPage c.page_index node)
      | .error e => .fatal e t
    else
      let new_page_index := t.pager.get_new_page_index
      (t.getPage new_page_index).bind fun new_node t =>
        let new_node := new_node.become_leaf_node
        let t := t.setPage new_page_index new_node
        match t.pager.pages.getD c.page_index none with
        | none => .fatal panicUnwrapMsg t
        | some old_node =>
          match splitLoop c.cell_index cell LEAF_NODE_CELL_MAX_NUM old_node new_node with
          | .error e => .fatal e t
          | .ok (old_node, new_node) =>
            let old_node := { old_node with n_cells := SPLIT_LEFT_LEAF_NODE_NUM }
            let new_node := { new_node with n_cells := SPLIT_RIGHT_LEAF_NODE_NUM }
            if old_node.is_root then
              let new_node := { new_node with parent := (c.page_index : Int) }
              let t := (t.setPage c.page_index old_node).setPage new_page_index new_node
              let left_child_page_index := t.pager.get_new_page_index
              (t.getPage left_child_page_index).bind fun left_child t =>
                let left_child := left_child.become_leaf_node
                let t := t.setPage left_child_page_index left_child
                match t.pager.pages.getD c.page_index none with
                | none => .fatal panicUnwrapMsg t
                | some root_node =>
                  let n_cells := root_node.get_n_cells
                  let left_child := { left_child with
                                      n_cells := n_cells
                                      parent := (c.page_index : Int) }
                  match root_node.leaf_cells, left_child.leaf_cells with
                  | none, _ => .fatal panicMutLeafMsg t
                  | _, none => .fatal panicMutLeafMsg t
                  | some rootCells, some leftCells =>
                    match copyLoop 0 n_cells rootCells leftCells with
                    | .error e => .fatal e t
                    | .ok (rootCells, leftCells) =>
                      let left_child := { left_child with leaf_cells := some leftCells }
                      let root_node := { root_node with leaf_cells := some rootCells }
                      let root_node := root_node.become_internal_node
                      let root_node := { root_node with
                                         n_cells := 1
                                         right_child := some (new_page_index : Int) }
                      match left_child.get_max_key with
                      | .error e => .fatal e t
                      | .ok max_key =>
                        let root_node :=
                          { root_node with internal_cells :=
                              (root_node.internal_cells.map
                                (fun cells => cells.set 0
                                  (some { key := max_key
                                          child := (left_child_page_index : Int) }))) }
                        let t := (t.setPage c.page_index root_node).setPage
                          left_child_page_index left_child
                        .ok () t
            else
              let t := (t.setPage c.page_index old_node).setPage new_page_index new_node
              .fatal panicUpdateParentMsg t

/-- Pad an input byte string into its fixed-size buffer (the
`copy_from_slice` into a zeroed array in `Table::insert`). -/
def padBuf (bs : List Nat) (size : Nat) : List Nat :=
  bs.take size ++ List.replicate (size - bs.length) 0

/-- Row insertion (`Table::insert`), starting after the argument-count and
`i64`-parse steps (which live in the REPL string layer): validate the id and
the lengths, position a cursor by key, reject a duplicate, then write. -/
def Table.insert (t : Table) (id : Int) (name description : List Nat) : Res Unit :=
  if id ≤ 0 then .err ERR_NOT_POSITIVE_ID t
  else if NAME_MAX_SIZE < name.length then .err ERR_NAME_TOO_LONG t
  else if DESCRIPTION_MAX_SIZE < description.length then .err ERR_DESCRIPTION_TOO_LONG t
  else
    let row : Row := { id := id
                       name := padBuf name NAME_MAX_SIZE
                       description := padBuf description DESCRIPTION_MAX_SIZE }
    (t.getPage t.root_node_index).bind fun root t =>
      let n_cells := root.get_n_cells
      (Cursor.fromKey t id).bind fun cursor t =>
        if cursor.cell_index < n_cells then
          (cursor.read_leaf_cell t).bind fun cellOpt t =>
            match cellOpt with
            | none => .fatal panicUnwrapMsg t
            | some c =>
              if id = c.key then .err (dupKeyMsg id) t
              else cursor.write_leaf_cell { key := id, value := row } t
        else cursor.write_leaf_cell { key := id, value := row } t

/-- The `select` loop: collect the cell under the cursor (skipping empty
reads, as the `if let` does) and advance until `end_of_table`.  The fuel is a
model artifact; `Table.select` passes one more than the root's cell count,
which dominates the loop's iteration count because the cursor never leaves the
root page and each step increments `cell_index`. -/
def selectLoop : Nat → Cursor → Table → List LeafCell → Res (List LeafCell)
  | 0, _, t, _ => .fatal fuelMsg t
  | fuel + 1, c, t, acc =>
    if c.end_of_table then .ok acc.reverse t
    else
      ((c.read_leaf_cell t).toFatal).bind fun cellOpt t =>
        let acc := match cellOpt with
          | some cell => cell :: acc
          | none => acc
        (c.advance t).bind fun c t => selectLoop fuel c t acc

/-- Row scan (`Table::select`), returning the printed cells in order. -/
def Table.select (t : Table) : Res (List LeafCell) :=
  (Cursor.from_start t).bind fun c t =>
    match t.pager.pages.getD t.root_node_index none with
    | some root => selectLoop (root.get_n_cells + 1) c t []
    | none => .fatal fuelMsg t

/-- The flush-all loop of `Table`'s `Drop` impl: write pages `0..n_pages` in
order (empty slots are skipped), appending to the file. -/
def flushFrom (pages : List (Option Node)) : Nat → Nat → List Nat →
    Except String (List Nat)
  | _, 0, file => .ok file
  | i, k + 1, file =>
    match pages.getD i none with
    | none => flushFrom pages (i + 1) k file
    | some n =>
      match n.write_at file (i * PAGE_SIZE) with
      | .ok file => flushFrom pages (i + 1) k file
      | .error e => .error e

/-- Clean teardown: flush every page below `n_pages`, yielding the final file
bytes. -/
def Table.close (t : Table) : Except String (List Nat) :=
  flushFrom t.pager.pages 0 t.pager.n_pages t.pager.file

/-- The page bytes `write_at` produces for a leaf node whose populated prefix
is `ws`. -/
def leafPage (n : Node) (ws : List LeafCell) : List Nat :=
  [NodeKind.to_u8 .leaf] ++ [if n.is_root then 1 else 0] ++ encI32 n.parent ++
    encU32 n.n_cells ++ concatMap encLeafCell ws ++
    List.replicate (PAGE_SIZE - (LEAF_NODE_HEADER_SIZE + LEAF_NODE_CELL_SIZE * ws.length)) 0

/-- The page bytes `write_at` produces for an internal node with right child
`rc` whose populated prefix is `ws`. -/
def internalPage (n : Node) (rc : Int) (ws : List InternalCell) : List Nat :=
  [NodeKind.to_u8 .internal] ++ [if n.is_root then 1 else 0] ++ encI32 n.parent ++
    encU32 n.n_cells ++ encI32 rc ++ concatMap encInternalCell ws ++
    List.replicate
      (PAGE_SIZE - (INTERNAL_NODE_HEADER_SIZE + INTERNAL_NODE_CELL_SIZE * ws.length)) 0

/-- Run a whole list of `insert` statements, stopping at the first failure (a
returned `Err` never happens in the runs the theorems below consider). -/
def insertAll (t : Table) : List (Int × List Nat × List Nat) → Res Unit
  | [] => .ok () t
  | (id, name, description) :: rest =>
    match Table.insert t id name description with
    | .ok _ t => insertAll t rest
    | .err e t => .err e t
    | .fatal e t => .fatal e t

/-- Default cell used with `List.getD` in specifications. -/
def dCell : LeafCell :=
  { key := 0, value := { id := 0, name := [], description := [] } }

/-- Default internal cell used with `List.getD` in specifications. -/
def dICell : InternalCell := { child := 0, key := 0 }

/-- The populated cells of a leaf node, in slot order. -/
def storedCells (n : Node) : List LeafCell :=
  ((n.leaf_cells.getD []).take n.n_cells).filterMap id

/-- Well-formedness of a leaf cell as the image of the Rust value: fixed-width
integers in range, byte arrays of the declared size with byte-sized entries. -/
def WfLeafCell (c : LeafCell) : Prop :=
  -(2 ^ 63) ≤ c.key ∧ c.key < 2 ^ 63 ∧
  -(2 ^ 63) ≤ c.value.id ∧ c.value.id < 2 ^ 63 ∧
  c.value.name.length = NAME_MAX_SIZE ∧ (∀ b ∈ c.value.name, b < 256) ∧
  c.value.description.length = DESCRIPTION_MAX_SIZE ∧
  (∀ b ∈ c.value.description, b < 256)

/-- Well-formedness of an internal cell as the image of the Rust value. -/
def WfInternalCell (c : InternalCell) : Prop :=
  -(2 ^ 31) ≤ c.child ∧ c.child < 2 ^ 31 ∧ -(2 ^ 63) ≤ c.key ∧ c.key < 2 ^ 63

/-- A node fit for encoding: kind-appropriate buffers of the declared
capacity, a populated well-formed prefix of `n_cells` cells, and header fields
within their fixed-width ranges. -/
def WfNodeEnc (n : Node) : Prop :=
  (-(2 ^ 31) ≤ n.parent ∧ n.parent < 2 ^ 31) ∧
  match n.kind with
  | .leaf =>
    ∃ cells, n.leaf_cells = some cells ∧ cells.length = LEAF_NODE_CELL_MAX_NUM ∧
      n.n_cells ≤ LEAF_NODE_CELL_MAX_NUM ∧
      (∀ i, i < n.n_cells → ∃ c, cells.getD i none = some c ∧ WfLeafCell c)
  | .internal =>
    ∃ cells rc, n.internal_cells = some cells ∧
      cells.length = INTERNAL_NODE_CELL_MAX_NUM ∧
      n.n_cells ≤ INTERNAL_NODE_CELL_MAX_NUM ∧
      n.right_child = some rc ∧ -(2 ^ 31) ≤ rc ∧ rc < 2 ^ 31 ∧
      (∀ i, i < n.n_cells → ∃ c, cells.getD i none = some c ∧ WfInternalCell c)

/-- Strictly key-ascending rows. -/
def RowsSortedLt (rows : List LeafCell) : Prop :=
  List.Pairwise (fun a b => a.key < b.key) rows

/-- Non-strictly key-ascending rows (the order duplicates inserted after a
root split leave behind). -/
def RowsSortedLe (rows : List LeafCell) : Prop :=
  List.Pairwise (fun a b => a.key ≤ b.key) rows

/-- Rows as built by `Table.insert`: well-formed, `id = key`, positive key. -/
def RowsWf (rows : List LeafCell) : Prop :=
  ∀ c ∈ rows, WfLeafCell c ∧ c.value.id = c.key ∧ 0 < c.key

/-- A leaf node whose buffer holds exactly `rows` followed by blank slots. -/
def LeafAbs (n : Node) (rows : List LeafCell) : Prop :=
  n.kind = .leaf ∧
  n.leaf_cells = some (fillCells rows LEAF_NODE_CELL_MAX_NUM) ∧
  n.n_cells = rows.length ∧ rows.length ≤ LEAF_NODE_CELL_MAX_NUM ∧
  n.right_child = none ∧ n.internal_cells = none

/-- Session state before the root split: page 0 is the leaf root holding
`rows` (strictly sorted: the duplicate check works while the root is a leaf),
pages 1–63 untouched, nothing written to the file yet. -/
def ShapeA (t : Table) (root : Node) (rows : List LeafCell) : Prop :=
  t.root_node_index = 0 ∧ t.pager.file = [] ∧ t.pager.n_pages = 1 ∧
  t.pager.pages = some root :: List.replicate 63 none ∧
  LeafAbs root rows ∧ root.is_root = true ∧ root.parent = NOT_EXIST ∧
  RowsSortedLt rows ∧ RowsWf rows

/-- Session state after the first root split: page 0 internal with one
separator `sep` pointing at the left leaf (page 2), right child page 1.  The
leaves are only non-strictly sorted because the post-split duplicate check is
broken (see the C1 analysis). -/
def ShapeB (t : Table) (root rightN leftN : Node)
    (rightRows leftRows : List LeafCell) (sep : Int) : Prop :=
  t.root_node_index = 0 ∧ t.pager.file = [] ∧ t.pager.n_pages = 3 ∧
  t.pager.pages = some root :: some rightN :: some leftN :: List.replicate 61 none ∧
  root.kind = .internal ∧ root.is_root = true ∧ root.parent = NOT_EXIST ∧
  root.n_cells = 1 ∧ root.leaf_cells = none ∧ root.right_child = some 1 ∧
  root.internal_cells =
    some (fillCells [{ child := 2, key := sep }] INTERNAL_NODE_CELL_MAX_NUM) ∧
  LeafAbs rightN rightRows ∧ rightN.is_root = false ∧ rightN.parent = 0 ∧
  LeafAbs leftN leftRows ∧ leftN.is_root = false ∧ leftN.parent = 0 ∧
  1 ≤ leftRows.length ∧ 1 ≤ rightRows.length ∧
  RowsSortedLe leftRows ∧ RowsSortedLe rightRows ∧
  RowsWf leftRows ∧ RowsWf rightRows ∧
  (∀ c ∈ leftRows, c.key ≤ sep) ∧ (∀ c ∈ rightRows, sep < c.key) ∧
  (leftRows.map (fun c => c.key)).getLast? = some sep

/-- Invariant of fresh-session states: one of the two tree shapes the
single-level engine can produce. -/
def GInv (t : Table) : Prop :=
  (∃ root rows, ShapeA t root rows) ∨
  (∃ root rightN leftN rightRows leftRows sep,
    ShapeB t root rightN leftN rightRows leftRows sep)

/-- Fresh-session reachability: the freshly created table, closed under
`insert` statements whose result is a returned value (`ok` or `err`); a
`fatal` outcome is a process abort, after which no further statement runs.
The side conditions on the inputs restate their Rust types: the id is an
`i64`, the strings are byte sequences. -/
inductive Reachable : Table → Prop where
  | init : Reachable freshTable
  | step_ok : ∀ t id name description t',
      Reachable t → -(2 ^ 63) ≤ id → id < 2 ^ 63 →
      (∀ b ∈ name, b < 256) → (∀ b ∈ description, b < 256) →
      Table.insert t id name description = .ok () t' → Reachable t'
  | step_err : ∀ t id name description m t',
      Reachable t → -(2 ^ 63) ≤ id → id < 2 ^ 63 →
      (∀ b ∈ name, b < 256) → (∀ b ∈ description, b < 256) →
      Table.insert t id name description = .err m t' → Reachable t'

/-- The populated-prefix property of one node: every cell slot below `n_cells`
of the kind-appropriate buffer is `some`. -/
def PopulatedNode (n : Node) : Prop :=
  match n.kind with
  | .leaf => ∀ i, i < n.n_cells → n.read_leaf_cell i ≠ none
  | .internal => ∀ i, i < n.n_cells → n.read_internal_cell i ≠ none

/-- The populated-prefix property over every populated page slot. -/
def PopulatedPager (p : Pager) : Prop :=
  ∀ i n, p.pages.getD i none = some n → PopulatedNode n

/-- Strict lower bound against an optional bound (`none` = unbounded). -/
def OptLt : Option Int → Int → Prop
  | none, _ => True
  | some lo, k => lo < k

/-- Structural well-formedness of the subtree rooted at `page`, with height
bound `h`, every key strictly above `lo`, and maximum key exactly `mx` (the
separator invariant: each internal cell's key is the max key of its child's
subtree, and child `i` holds keys above separator `i−1`).  Pages on the tree
are required to be cached, matching an in-memory session. -/
inductive WfSub (p : Pager) : Nat → Nat → Option Int → Int → Prop where
  | leaf : ∀ page h n rows lo mx,
      page < PAGE_MAX_NUM →
      p.pages.getD page none = some n →
      LeafAbs n rows →
      RowsSortedLt rows →
      rows ≠ [] →
      (∀ c ∈ rows, OptLt lo c.key) →
      (rows.map (fun c => c.key)).getLast? = some mx →
      WfSub p page h lo mx
  | internal : ∀ page h n cells rc lo mx,
      page < PAGE_MAX_NUM →
      p.pages.getD page none = some n →
      n.kind = .internal →
      n.leaf_cells = none →
      n.internal_cells = some (fillCells cells INTERNAL_NODE_CELL_MAX_NUM) →
      n.n_cells = cells.length →
      cells ≠ [] →
      cells.length ≤ INTERNAL_NODE_CELL_MAX_NUM →
      n.right_child = some rc →
      (∀ i, i < cells.length →
        WfSub p (i32AsUsize ((cells.getD i dICell).child)) h
          (if i = 0 then lo else some ((cells.getD (i - 1) dICell).key))
          ((cells.getD i dICell).key)) →
      WfSub p (i32AsUsize rc) h (some ((cells.getD (cells.length - 1) dICell).key)) mx →
      WfSub p page (h + 1) lo mx

/-- A table whose tree satisfies the structural invariants: the root is page
0, and it is either a (possibly empty) well-formed leaf or the top of a
well-formed subtree of height below the pager capacity. -/
def WfTable (t : Table) : Prop :=
  t.root_node_index = 0 ∧
  ((∃ n rows, t.pager.pages.getD 0 none = some n ∧ LeafAbs n rows ∧
      RowsSortedLt rows) ∨
    (∃ h mx, h < PAGE_MAX_NUM ∧ WfSub t.pager 0 h none mx))

/-- Presence of a key in the subtree rooted at `page`. -/
inductive KeyIn (p : Pager) : Nat → Int → Prop where
  | here : ∀ page n i c key,
      p.pages.getD page none = some n →
      n.read_leaf_cell i = some c → i < n.n_cells → c.key = key →
      KeyIn p page key
  | via_cell : ∀ page n i c key,
      p.pages.getD page none = some n →
      n.kind = .internal →
      n.read_internal_cell i = some c → i < n.n_cells →
      KeyIn p (i32AsUsize c.child) key →
      KeyIn p page key
  | via_right : ∀ page n rc key,
      p.pages.getD page none = some n →
      n.kind = .internal →
      n.right_child = some rc →
      KeyIn p (i32AsUsize rc) key →
      KeyIn p page key

/-- An insert statement's payload: id, name bytes, description bytes. -/
def mkCellOf (i : Int × List Nat × List Nat) : LeafCell :=
  { key := i.1
    value :=
      { id := i.1
        name := padBuf i.2.1 NAME_MAX_SIZE
        description := padBuf i.2.2 DESCRIPTION_MAX_SIZE } }

/-- A valid insert payload: parseable positive `i64` id, strings within the
length caps, byte-sized entries. -/
def ValidInput (i : Int × List Nat × List Nat) : Prop :=
  0 < i.1 ∧ i.1 < 2 ^ 63 ∧
  i.2.1.length ≤ NAME_MAX_SIZE ∧ (∀ b ∈ i.2.1, b < 256) ∧
  i.2.2.length ≤ DESCRIPTION_MAX_SIZE ∧ (∀ b ∈ i.2.2, b < 256)

/-- The fourteen inserts `1..=14` (names `"a"`, descriptions `"b"`). -/
def inputs14 : List (Int × List Nat × List Nat) :=
  (List.range 14).map (fun i => ((i : Int) + 1, [97], [98]))

/-- The first thirteen of `inputs14`. -/
def inputs13 : List (Int × List Nat × List Nat) :=
  (List.range 13).map (fun i => ((i : Int) + 1, [97], [98]))

/-- State of a fresh session after `inputs14` (one root split happened). -/
def T14 : Table := (insertAll freshTable inputs14).state

/-- State of a fresh session after `inputs13` (a full leaf root). -/
def T13 : Table := (insertAll freshTable inputs13).state

/-- The all-zero leaf cell that decoding a truncated page fabricates. -/
def zeroLeafCell : LeafCell :=
  { key := 0
    value :=
      { id := 0
        name := List.replicate NAME_MAX_SIZE 0
        description := List.replicate DESCRIPTION_MAX_SIZE 0 } }

/-- A truncated page: a valid 10-byte leaf header announcing one cell
(`kind = 2`, not root, `parent = −1`, `n_cells = 1`) with no cell bytes. -/
def truncatedLeafPage : List Nat :=
  [2, 0, 255, 255, 255, 255, 1, 0, 0, 0]

/-- A pager over a 1-byte file whose kind byte is invalid: page 0 is below
`n_pages` and below the cap, yet fetching it fails in the codec. -/
def corruptPager : Pager :=
  { file := [0], n_pages := 1, pages := List.replicate PAGE_MAX_NUM none }

/-- A full leaf root holding keys `1..=13`. -/
def fullRoot13 : Node :=
  { kind := .leaf
    is_root := true
    parent := NOT_EXIST
    n_cells := 13
    leaf_cells := some ((List.range 13).map (fun i =>
      some { key := (i : Int) + 1
             value := { id := (i : Int) + 1
                        name := List.replicate NAME_MAX_SIZE 0
                        description := List.replicate DESCRIPTION_MAX_SIZE 0 } }))
    right_child := none
    internal_cells := none }

/-- A table whose 64th page slot is the last free one: the root split itself
succeeds in allocating the right sibling (page 63) but fails on the left
child (page 64), after mutations already happened. -/
def tPager63 : Table :=
  { root_node_index := 0
    pager :=
      { file := []
        n_pages := 63
        pages := (List.replicate PAGE_MAX_NUM (none : Option Node)).set 0 (some fullRoot13) } }

/-- The same table with the pager already at the cap: the very first
allocation of the split fails, before any mutation. -/
def tPager64 : Table :=
  { root_node_index := 0
    pager :=
      { file := []
        n_pages := 64
        pages := (List.replicate PAGE_MAX_NUM (none : Option Node)).set 0 (some fullRoot13) } }

/-! ### Generic list helpers -/

lemma getD_replicate_none {α : Type} : ∀ (n i : Nat),
    (List.replicate n (none : Option α)).getD i none = none
  | 0, _ => by simp [List.getD]
  | n + 1, 0 => by simp [List.replicate, List.getD]
  | n + 1, i + 1 => by
    simp [List.replicate, List.getD, getD_replicate_none n i]

lemma getD_append_lt {α : Type} : ∀ (l1 l2 : List α) (i : Nat) (d : α),
    i < l1.length → (l1 ++ l2).getD i d = l1.getD i d
  | [], _, i, _, h => by simp at h
  | a :: l1, l2, 0, d, _ => by simp [List.getD]
  | a :: l1, l2, i + 1, d, h => by
    simpa [List.getD] using getD_append_lt l1 l2 i d (by simpa using h)

lemma getD_append_ge {α : Type} : ∀ (l1 l2 : List α) (i : Nat) (d : α),
    l1.length ≤ i → (l1 ++ l2).getD i d = l2.getD (i - l1.length) d
  | [], _, i, _, _ => by simp
  | a :: l1, l2, 0, d, h => by simp at h
  | a :: l1, l2, i + 1, d, h => by
    simpa [List.getD] using getD_append_ge l1 l2 i d (by simpa using h)

lemma getD_map_some {α : Type} : ∀ (ws : List α) (i : Nat) (d : α),
    i < ws.length → (ws.map some).getD i none = some (ws.getD i d)
  | [], i, _, h => by simp at h
  | a :: ws, 0, d, _ => by simp [List.getD]
  | a :: ws, i + 1, d, h => by
    simpa [List.getD] using getD_map_some ws i d (by simpa using h)

lemma getD_take_lt {α : Type} : ∀ (l : List α) (k i : Nat) (d : α),
    i < k → (l.take k).getD i d = l.getD i d
  | [], _, _, _, _ => by simp
  | a :: l, k + 1, 0, d, _ => by simp [List.getD]
  | a :: l, k + 1, i + 1, d, h => by
    simpa [List.getD] using getD_take_lt l k i d (by omega)

lemma getD_set_self {α : Type} : ∀ (l : List α) (i : Nat) (a d : α),
    i < l.length → (l.set i a).getD i d = a
  | [], i, _, _, h => by simp at h
  | b :: l, 0, a, d, _ => by simp [List.getD]
  | b :: l, i + 1, a, d, h => by
    simpa [List.getD] using getD_set_self l i a d (by simpa using h)

lemma getD_set_ne {α : Type} : ∀ (l : List α) (i j : Nat) (a d : α),
    i ≠ j → (l.set i a).getD j d = l.getD j d
  | [], _, _, _, _, _ => by simp
  | b :: l, 0, 0, a, d, h => by simp at h
  | b :: l, 0, j + 1, a, d, _ => by simp [List.getD]
  | b :: l, i + 1, 0, a, d, _ => by simp [List.getD]
  | b :: l, i + 1, j + 1, a, d, h => by
    simpa [List.getD] using getD_set_ne l i j a d (by omega)

lemma fillCells_length {α : Type} (ws : List α) (total : Nat)
    (h : ws.length ≤ total) : (fillCells ws total).length = total := by
  simp [fillCells]; omega

lemma getD_fill_lt {α : Type} (ws : List α) (total i : Nat) (d : α)
    (hi : i < ws.length) :
    (fillCells ws total).getD i none = some (ws.getD i d) := by
  unfold fillCells
  rw [getD_append_lt _ _ _ _ (by simpa using hi)]
  exact getD_map_some ws i d hi

lemma getD_fill_ge {α : Type} (ws : List α) (total i : Nat)
    (hi : ws.length ≤ i) :
    (fillCells ws total).getD i none = none := by
  unfold fillCells
  rw [getD_append_ge _ _ _ _ (by simpa using hi)]
  exact getD_replicate_none _ _

lemma filterMap_id_map_some {α : Type} : ∀ (ws : List α),
    (ws.map some).filterMap id = ws
  | [] => rfl
  | a :: ws => by simp [filterMap_id_map_some ws]

lemma exists_somes {α : Type} : ∀ (cells : List (Option α)) (k : Nat),
    k ≤ cells.length → (∀ i, i < k → cells.getD i none ≠ none) →
    ∃ ws : List α, ws.length = k ∧ cells.take k = ws.map some
  | _, 0, _, _ => ⟨[], rfl, by simp⟩
  | [], k + 1, h, _ => by simp at h
  | c :: cells, k + 1, h, hp => by
    obtain ⟨a, ha⟩ : ∃ a, c = some a := by
      have := hp 0 (by omega)
      cases c with
      | none => simp [List.getD] at this
      | some a => exact ⟨a, rfl⟩
    obtain ⟨ws, hl, hw⟩ := exists_somes cells k (by simpa using h)
      (fun i hi => by simpa [List.getD] using hp (i + 1) (by omega))
    exact ⟨a :: ws, by simp [hl], by simp [ha, hw]⟩

/-! ### Little-endian codec lemmas -/

lemma natToLE_length : ∀ (w n : Nat), (natToLE w n).length = w
  | 0, _ => rfl
  | w + 1, n => by simp [natToLE, natToLE_length w]

lemma leToNat_natToLE : ∀ (w n : Nat), n < 256 ^ w → leToNat (natToLE w n) = n
  | 0, n, h => by
    simp [natToLE, leToNat]; omega
  | w + 1, n, h => by
    have hs : (256 : Nat) ^ (w + 1) = 256 ^ w * 256 := pow_succ 256 w
    have h' : n / 256 < 256 ^ w := by omega
    simp [natToLE, leToNat, leToNat_natToLE w _ h']
    omega

lemma encI64_length (x : Int) : (encI64 x).length = 8 := natToLE_length _ _

lemma encI32_length (x : Int) : (encI32 x).length = 4 := natToLE_length _ _

lemma encU32_length (n : Nat) : (encU32 n).length = 4 := natToLE_length _ _

lemma decI64_encI64 (x : Int) (h1 : -(2 ^ 63) ≤ x) (h2 : x < 2 ^ 63) :
    decI64 (encI64 x) = x := by
  have hm0 : 0 ≤ x % (2 ^ 64 : Int) := Int.emod_nonneg x (by norm_num)
  have hmlt : x % (2 ^ 64 : Int) < 2 ^ 64 := Int.emod_lt_of_pos x (by norm_num)
  have htn : (((x % (2 ^ 64 : Int)).toNat : Int)) = x % 2 ^ 64 := Int.toNat_of_nonneg hm0
  have hlt : (x % (2 ^ 64 : Int)).toNat < 256 ^ 8 := by norm_num; omega
  unfold decI64 encI64
  rw [leToNat_natToLE _ _ hlt]
  split <;> omega

lemma decI32_encI32 (x : Int) (h1 : -(2 ^ 31) ≤ x) (h2 : x < 2 ^ 31) :
    decI32 (encI32 x) = x := by
  have hm0 : 0 ≤ x % (2 ^ 32 : Int) := Int.emod_nonneg x (by norm_num)
  have hmlt : x % (2 ^ 32 : Int) < 2 ^ 32 := Int.emod_lt_of_pos x (by norm_num)
  have htn : (((x % (2 ^ 32 : Int)).toNat : Int)) = x % 2 ^ 32 := Int.toNat_of_nonneg hm0
  have hlt : (x % (2 ^ 32 : Int)).toNat < 256 ^ 4 := by norm_num; omega
  unfold decI32 encI32
  rw [leToNat_natToLE _ _ hlt]
  split <;> omega

lemma decU32_encU32 (n : Nat) (h : n < 2 ^ 32) : decU32 (encU32 n) = n := by
  unfold decU32 encU32
  rw [leToNat_natToLE _ _ (by norm_num; omega)]
  omega

lemma readBuf_exact (pre enc rest : List Nat) :
    readBuf (pre ++ (enc ++ rest)) pre.length enc.length = enc := by
  unfold readBuf
  rw [List.drop_left, List.take_left]
  simp

lemma readBuf_at (file pre enc rest : List Nat) (off sz : Nat)
    (hf : file = pre ++ (enc ++ rest)) (ho : off = pre.length)
    (hs : sz = enc.length) : readBuf file off sz = enc := by
  subst hf ho hs; exact readBuf_exact pre enc rest

/-! ### Cell codec lemmas -/

lemma concatMap_length {α : Type} (f : α → List Nat) (sz : Nat) :
    ∀ l : List α, (∀ x ∈ l, (f x).length = sz) →
      (concatMap f l).length = sz * l.length
  | [], _ => by simp [concatMap]
  | a :: l, h => by
    have := concatMap_length f sz l (fun x hx => h x (by simp [hx]))
    simp [concatMap, this, h a (by simp)]
    ring

lemma encLeafCell_length (c : LeafCell) (hc : WfLeafCell c) :
    (encLeafCell c).length = LEAF_NODE_CELL_SIZE := by
  obtain ⟨_, _, _, _, hn, _, hd, _⟩ := hc
  simp [encLeafCell, encI64_length, hn, hd, LEAF_NODE_CELL_SIZE,
    LEAF_NODE_CELL_KEY_SIZE, ID_SIZE, NAME_MAX_SIZE, DESCRIPTION_MAX_SIZE]

lemma encInternalCell_length (c : InternalCell) :
    (encInternalCell c).length = INTERNAL_NODE_CELL_SIZE := by
  simp [encInternalCell, encI64_length, encI32_length, INTERNAL_NODE_CELL_SIZE,
    INTERNAL_NODE_CELL_KEY_SIZE, INTERNAL_NODE_CELL_CHILD_SIZE]

lemma readLeafCellAt_enc (pre rest : List Nat) (c : LeafCell) (hc : WfLeafCell c) :
    readLeafCellAt (pre ++ (encLeafCell c ++ rest)) pre.length = c := by
  obtain ⟨ck, cid, cname, cdesc⟩ := c
  obtain ⟨hk1, hk2, hi1, hi2, hn, _, hd, _⟩ := hc
  simp only at hk1 hk2 hi1 hi2 hn hd
  have h1 : readBuf (pre ++ (encLeafCell ⟨ck, ⟨cid, cname, cdesc⟩⟩ ++ rest))
      pre.length LEAF_NODE_CELL_KEY_SIZE = encI64 ck :=
    readBuf_at _ pre _ (encI64 cid ++ (cname ++ (cdesc ++ rest))) _ _
      (by simp [encLeafCell]) rfl (by simp [encI64_length, LEAF_NODE_CELL_KEY_SIZE])
  have h2 : readBuf (pre ++ (encLeafCell ⟨ck, ⟨cid, cname, cdesc⟩⟩ ++ rest))
      (pre.length + 8) ID_SIZE = encI64 cid :=
    readBuf_at _ (pre ++ encI64 ck) _ (cname ++ (cdesc ++ rest)) _ _
      (by simp [encLeafCell]) (by simp [encI64_length])
      (by simp [encI64_length, ID_SIZE])
  have h3 : readBuf (pre ++ (encLeafCell ⟨ck, ⟨cid, cname, cdesc⟩⟩ ++ rest))
      (pre.length + 16) NAME_MAX_SIZE = cname :=
    readBuf_at _ (pre ++ encI64 ck ++ encI64 cid) _ (cdesc ++ rest) _ _
      (by simp [encLeafCell]) (by simp [encI64_length]) hn.symm
  have h4 : readBuf (pre ++ (encLeafCell ⟨ck, ⟨cid, cname, cdesc⟩⟩ ++ rest))
      (pre.length + 48) DESCRIPTION_MAX_SIZE = cdesc :=
    readBuf_at _ (pre ++ encI64 ck ++ encI64 cid ++ cname) _ rest _ _
      (by simp [encLeafCell]) (by simp [encI64_length, hn, NAME_MAX_SIZE]) hd.symm
  simp [readLeafCellAt, h1, h2, h3, h4,
    decI64_encI64 _ hk1 hk2, decI64_encI64 _ hi1 hi2]

lemma readLeafCells_enc : ∀ (cs : List LeafCell) (pre rest : List Nat),
    (∀ c ∈ cs, WfLeafCell c) →
    readLeafCells (pre ++ (concatMap encLeafCell cs ++ rest)) pre.length cs.length = cs
  | [], _, _, _ => rfl
  | c :: cs, pre, rest, h => by
    have hc : WfLeafCell c := h c (by simp)
    have e1 : pre ++ (concatMap encLeafCell (c :: cs) ++ rest)
        = pre ++ (encLeafCell c ++ (concatMap encLeafCell cs ++ rest)) := by
      simp [concatMap]
    have e2 : pre ++ (concatMap encLeafCell (c :: cs) ++ rest)
        = (pre ++ encLeafCell c) ++ (concatMap encLeafCell cs ++ rest) := by
      simp [concatMap]
    show readLeafCellAt _ pre.length ::
        readLeafCells _ (pre.length + LEAF_NODE_CELL_SIZE) cs.length = c :: cs
    congr 1
    · rw [e1]; exact readLeafCellAt_enc pre _ c hc
    · have hlen : pre.length + LEAF_NODE_CELL_SIZE = (pre ++ encLeafCell c).length := by
        simp [encLeafCell_length c hc]
      rw [e2, hlen]
      exact readLeafCells_enc cs (pre ++ encLeafCell c) rest
        (fun x hx => h x (by simp [hx]))

lemma readInternalCellAt_enc (pre rest : List Nat) (c : InternalCell)
    (hc : WfInternalCell c) :
    readInternalCellAt (pre ++ (encInternalCell c ++ rest)) pre.length = c := by
  obtain ⟨cch, ck⟩ := c
  obtain ⟨hc1, hc2, hk1, hk2⟩ := hc
  simp only at hc1 hc2 hk1 hk2
  have h1 : readBuf (pre ++ (encInternalCell ⟨cch, ck⟩ ++ rest))
      pre.length INTERNAL_NODE_CELL_CHILD_SIZE = encI32 cch :=
    readBuf_at _ pre _ (encI64 ck ++ rest) _ _
      (by simp [encInternalCell]) rfl
      (by simp [encI32_length, INTERNAL_NODE_CELL_CHILD_SIZE])
  have h2 : readBuf (pre ++ (encInternalCell ⟨cch, ck⟩ ++ rest))
      (pre.length + 4) INTERNAL_NODE_CELL_KEY_SIZE = encI64 ck :=
    readBuf_at _ (pre ++ encI32 cch) _ rest _ _
      (by simp [encInternalCell]) (by simp [encI32_length])
      (by simp [encI64_length, INTERNAL_NODE_CELL_KEY_SIZE])
  simp [readInternalCellAt, h1, h2, decI32_encI32 _ hc1 hc2, decI64_encI64 _ hk1 hk2]

lemma readInternalCells_enc : ∀ (cs : List InternalCell) (pre rest : List Nat),
    (∀ c ∈ cs, WfInternalCell c) →
    readInternalCells (pre ++ (concatMap encInternalCell cs ++ rest))
      pre.length cs.length = cs
  | [], _, _, _ => rfl
  | c :: cs, pre, rest, h => by
    have hc : WfInternalCell c := h c (by simp)
    have e1 : pre ++ (concatMap encInternalCell (c :: cs) ++ rest)
        = pre ++ (encInternalCell c ++ (concatMap encInternalCell cs ++ rest)) := by
      simp [concatMap]
    have e2 : pre ++ (concatMap encInternalCell (c :: cs) ++ rest)
        = (pre ++ encInternalCell c) ++ (concatMap encInternalCell cs ++ rest) := by
      simp [concatMap]
    show readInternalCellAt _ pre.length ::
        readInternalCells _ (pre.length + INTERNAL_NODE_CELL_SIZE) cs.length = c :: cs
    congr 1
    · rw [e1]; exact readInternalCellAt_enc pre _ c hc
    · have hlen : pre.length + INTERNAL_NODE_CELL_SIZE
          = (pre ++ encInternalCell c).length := by
        simp [encInternalCell_length c]
      rw [e2, hlen]
      exact readInternalCells_enc cs (pre ++ encInternalCell c) rest
        (fun x hx => h x (by simp [hx]))

/-! ### Node codec round-trip -/

lemma write_at_leaf (n : Node) (cells : List (Option LeafCell)) (ws : List LeafCell)
    (hkind : n.kind = .leaf) (hcells : n.leaf_cells = some cells)
    (htake : cells.take n.n_cells = ws.map some) (file : List Nat) (off : Nat) :
    n.write_at file off = .ok (file ++ leafPage n ws) := by
  simp [Node.write_at, leafPage, hkind, hcells, Node.get_n_cells, htake,
    filterMap_id_map_some]

lemma write_at_internal (n : Node) (cells : List (Option InternalCell))
    (ws : List InternalCell) (rc : Int)
    (hkind : n.kind = .internal) (hrc : n.right_child = some rc)
    (hcells : n.internal_cells = some cells)
    (htake : cells.take n.n_cells = ws.map some) (file : List Nat) (off : Nat) :
    n.write_at file off = .ok (file ++ internalPage n rc ws) := by
  simp [Node.write_at, internalPage, hkind, hrc, hcells, Node.get_n_cells, htake,
    filterMap_id_map_some]

lemma leafPage_length (n : Node) (ws : List LeafCell)
    (hws : ∀ c ∈ ws, WfLeafCell c) (hle : ws.length ≤ LEAF_NODE_CELL_MAX_NUM) :
    (leafPage n ws).length = PAGE_SIZE := by
  have hcm := concatMap_length encLeafCell LEAF_NODE_CELL_SIZE ws
    (fun c hc => encLeafCell_length c (hws c hc))
  have hle' : ws.length ≤ 13 := by
    simpa [LEAF_NODE_CELL_MAX_NUM, LEAF_NODE_SPACE_FOR_CELLS, LEAF_NODE_HEADER_SIZE,
      NODE_HEADER_SIZE, NODE_KIND_SIZE, NODE_IS_ROOT_SIZE, NODE_PARENT_SIZE,
      NODE_N_CELLS_SIZE, PAGE_SIZE, LEAF_NODE_CELL_SIZE, LEAF_NODE_CELL_KEY_SIZE,
      ID_SIZE, NAME_MAX_SIZE, DESCRIPTION_MAX_SIZE] using hle
  simp [leafPage, encI32_length, encU32_length, hcm, PAGE_SIZE,
    LEAF_NODE_HEADER_SIZE, NODE_HEADER_SIZE, NODE_KIND_SIZE, NODE_IS_ROOT_SIZE,
    NODE_PARENT_SIZE, NODE_N_CELLS_SIZE, LEAF_NODE_CELL_SIZE,
    LEAF_NODE_CELL_KEY_SIZE, ID_SIZE, NAME_MAX_SIZE, DESCRIPTION_MAX_SIZE]
  omega

lemma internalPage_length (n : Node) (rc : Int) (ws : List InternalCell)
    (hle : ws.length ≤ INTERNAL_NODE_CELL_MAX_NUM) :
    (internalPage n rc ws).length = PAGE_SIZE := by
  have hcm := concatMap_length encInternalCell INTERNAL_NODE_CELL_SIZE ws
    (fun c _ => encInternalCell_length c)
  have hle' : ws.length ≤ 340 := by
    simpa [INTERNAL_NODE_CELL_MAX_NUM, INTERNAL_NODE_SPACE_FOR_CELLS,
      INTERNAL_NODE_HEADER_SIZE, NODE_HEADER_SIZE, NODE_KIND_SIZE,
      NODE_IS_ROOT_SIZE, NODE_PARENT_SIZE, NODE_N_CELLS_SIZE, PAGE_SIZE,
      INTERNAL_NODE_RIGHT_CHILD_SIZE, INTERNAL_NODE_CELL_SIZE,
      INTERNAL_NODE_CELL_KEY_SIZE, INTERNAL_NODE_CELL_CHILD_SIZE] using hle
  simp [internalPage, encI32_length, encU32_length, hcm, PAGE_SIZE,
    INTERNAL_NODE_HEADER_SIZE, NODE_HEADER_SIZE, NODE_KIND_SIZE, NODE_IS_ROOT_SIZE,
    NODE_PARENT_SIZE, NODE_N_CELLS_SIZE, INTERNAL_NODE_RIGHT_CHILD_SIZE,
    INTERNAL_NODE_CELL_SIZE, INTERNAL_NODE_CELL_KEY_SIZE,
    INTERNAL_NODE_CELL_CHILD_SIZE]
  omega

lemma read_at_leafPage (n : Node) (ws : List LeafCell) (tail : List Nat)
    (hws : ∀ c ∈ ws, WfLeafCell c)
    (hn : n.n_cells = ws.length) (hle : ws.length ≤ LEAF_NODE_CELL_MAX_NUM)
    (hp1 : -(2 ^ 31) ≤ n.parent) (hp2 : n.parent < 2 ^ 31) :
    Node.read_at (leafPage n ws ++ tail) 0 =
      .ok { kind := .leaf
            is_root := n.is_root
            parent := n.parent
            n_cells := n.n_cells
            leaf_cells := some (fillCells ws LEAF_NODE_CELL_MAX_NUM)
            right_child := none
            internal_cells := none } := by
  have hkind : readBuf (leafPage n ws ++ tail) 0 NODE_KIND_SIZE = [2] :=
    readBuf_at _ [] [2]
      ([if n.is_root then 1 else 0] ++ (encI32 n.parent ++ (encU32 n.n_cells ++
        (concatMap encLeafCell ws ++
          (List.replicate (PAGE_SIZE - (LEAF_NODE_HEADER_SIZE +
            LEAF_NODE_CELL_SIZE * ws.length)) 0 ++ tail)))))
      0 NODE_KIND_SIZE (by simp [leafPage, NodeKind.to_u8]) rfl rfl
  have hroot : readBuf (leafPage n ws ++ tail) 1 NODE_IS_ROOT_SIZE
      = [if n.is_root then 1 else 0] :=
    readBuf_at _ [NodeKind.to_u8 .leaf] [if n.is_root then 1 else 0]
      (encI32 n.parent ++ (encU32 n.n_cells ++ (concatMap encLeafCell ws ++
        (List.replicate (PAGE_SIZE - (LEAF_NODE_HEADER_SIZE +
          LEAF_NODE_CELL_SIZE * ws.length)) 0 ++ tail))))
      1 NODE_IS_ROOT_SIZE (by simp [leafPage]) (by simp) rfl
  have hpar : readBuf (leafPage n ws ++ tail) 2 NODE_PARENT_SIZE = encI32 n.parent :=
    readBuf_at _ ([NodeKind.to_u8 .leaf] ++ [if n.is_root then 1 else 0])
      (encI32 n.parent)
      (encU32 n.n_cells ++ (concatMap encLeafCell ws ++
        (List.replicate (PAGE_SIZE - (LEAF_NODE_HEADER_SIZE +
          LEAF_NODE_CELL_SIZE * ws.length)) 0 ++ tail)))
      2 NODE_PARENT_SIZE (by simp [leafPage]) (by simp)
      (by simp [encI32_length, NODE_PARENT_SIZE])
  have hnc : readBuf (leafPage n ws ++ tail) 6 NODE_N_CELLS_SIZE = encU32 n.n_cells :=
    readBuf_at _ ([NodeKind.to_u8 .leaf] ++ [if n.is_root then 1 else 0] ++
        encI32 n.parent)
      (encU32 n.n_cells)
      (concatMap encLeafCell ws ++
        (List.replicate (PAGE_SIZE - (LEAF_NODE_HEADER_SIZE +
          LEAF_NODE_CELL_SIZE * ws.length)) 0 ++ tail))
      6 NODE_N_CELLS_SIZE (by simp [leafPage]) (by simp [encI32_length])
      (by simp [encU32_length, NODE_N_CELLS_SIZE])
  have hcells : readLeafCells (leafPage n ws ++ tail) 10 ws.length = ws := by
    have e : leafPage n ws ++ tail =
        ([NodeKind.to_u8 .leaf] ++ [if n.is_root then 1 else 0] ++
          encI32 n.parent ++ encU32 n.n_cells) ++
        (concatMap encLeafCell ws ++
          (List.replicate (PAGE_SIZE - (LEAF_NODE_HEADER_SIZE +
            LEAF_NODE_CELL_SIZE * ws.length)) 0 ++ tail)) := by
      simp [leafPage]
    have hpre : ([NodeKind.to_u8 .leaf] ++ [if n.is_root then 1 else 0] ++
        encI32 n.parent ++ encU32 n.n_cells).length = 10 := by
      simp [encI32_length, encU32_length]
    have h := readLeafCells_enc ws
      ([NodeKind.to_u8 .leaf] ++ [if n.is_root then 1 else 0] ++
        encI32 n.parent ++ encU32 n.n_cells)
      (List.replicate (PAGE_SIZE - (LEAF_NODE_HEADER_SIZE +
        LEAF_NODE_CELL_SIZE * ws.length)) 0 ++ tail) hws
    rw [hpre] at h
    rw [e]
    exact h
  have hnclt : n.n_cells < 2 ^ 32 := by
    have : ws.length ≤ 13 := by
      simpa [LEAF_NODE_CELL_MAX_NUM, LEAF_NODE_SPACE_FOR_CELLS,
        LEAF_NODE_HEADER_SIZE, NODE_HEADER_SIZE, NODE_KIND_SIZE, NODE_IS_ROOT_SIZE,
        NODE_PARENT_SIZE, NODE_N_CELLS_SIZE, PAGE_SIZE, LEAF_NODE_CELL_SIZE,
        LEAF_NODE_CELL_KEY_SIZE, ID_SIZE, NAME_MAX_SIZE,
        DESCRIPTION_MAX_SIZE] using hle
    omega
  have hmin : min (decU32 (encU32 n.n_cells)) LEAF_NODE_CELL_MAX_NUM = ws.length := by
    rw [decU32_encU32 _ hnclt, hn]
    exact Nat.min_eq_left hle
  unfold Node.read_at
  rw [hkind]
  have h2 : leToNat [2] = 2 := by simp [leToNat]
  rw [h2]
  have hws32 : ws.length < 2 ^ 32 := hn ▸ hnclt
  have hmin2 : decU32 (encU32 ws.length) ⊓ LEAF_NODE_CELL_MAX_NUM = ws.length := by
    rw [decU32_encU32 _ hws32]
    exact Nat.min_eq_left hle
  have hmin3 : ws.length ⊓ LEAF_NODE_CELL_MAX_NUM = ws.length := Nat.min_eq_left hle
  cases hb : n.is_root <;>
    simp [NodeKind.from_u8, hroot, hb, leToNat, hpar, hnc,
      decI32_encI32 _ hp1 hp2, hmin, hcells, decU32_encU32 _ hnclt, hn,
      hmin2, decU32_encU32 _ hws32, hmin3]

lemma read_at_internalPage (n : Node) (rc : Int) (ws : List InternalCell)
    (tail : List Nat)
    (hws : ∀ c ∈ ws, WfInternalCell c)
    (hn : n.n_cells = ws.length) (hle : ws.length ≤ INTERNAL_NODE_CELL_MAX_NUM)
    (hp1 : -(2 ^ 31) ≤ n.parent) (hp2 : n.parent < 2 ^ 31)
    (hr1 : -(2 ^ 31) ≤ rc) (hr2 : rc < 2 ^ 31) :
    Node.read_at (internalPage n rc ws ++ tail) 0 =
      .ok { kind := .internal
            is_root := n.is_root
            parent := n.parent
            n_cells := n.n_cells
            leaf_cells := none
            right_child := some rc
            internal_cells := some (fillCells ws INTERNAL_NODE_CELL_MAX_NUM) } := by
  have hkind : readBuf (internalPage n rc ws ++ tail) 0 NODE_KIND_SIZE = [1] :=
    readBuf_at _ [] [1]
      ([if n.is_root then 1 else 0] ++ (encI32 n.parent ++ (encU32 n.n_cells ++
        (encI32 rc ++ (concatMap encInternalCell ws ++
          (List.replicate (PAGE_SIZE - (INTERNAL_NODE_HEADER_SIZE +
            INTERNAL_NODE_CELL_SIZE * ws.length)) 0 ++ tail))))))
      0 NODE_KIND_SIZE (by simp [internalPage, NodeKind.to_u8]) rfl rfl
  have hroot : readBuf (internalPage n rc ws ++ tail) 1 NODE_IS_ROOT_SIZE
      = [if n.is_root then 1 else 0] :=
    readBuf_at _ [NodeKind.to_u8 .internal] [if n.is_root then 1 else 0]
      (encI32 n.parent ++ (encU32 n.n_cells ++ (encI32 rc ++
        (concatMap encInternalCell ws ++
          (List.replicate (PAGE_SIZE - (INTERNAL_NODE_HEADER_SIZE +
            INTERNAL_NODE_CELL_SIZE * ws.length)) 0 ++ tail)))))
      1 NODE_IS_ROOT_SIZE (by simp [internalPage]) (by simp) rfl
  have hpar : readBuf (internalPage n rc ws ++ tail) 2 NODE_PARENT_SIZE
      = encI32 n.parent :=
    readBuf_at _ ([NodeKind.to_u8 .internal] ++ [if n.is_root then 1 else 0])
      (encI32 n.parent)
      (encU32 n.n_cells ++ (encI32 rc ++ (concatMap encInternalCell ws ++
        (List.replicate (PAGE_SIZE - (INTERNAL_NODE_HEADER_SIZE +
          INTERNAL_NODE_CELL_SIZE * ws.length)) 0 ++ tail))))
      2 NODE_PARENT_SIZE (by simp [internalPage]) (by simp)
      (by simp [encI32_length, NODE_PARENT_SIZE])
  have hnc : readBuf (internalPage n rc ws ++ tail) 6 NODE_N_CELLS_SIZE
      = encU32 n.n_cells :=
    readBuf_at _ ([NodeKind.to_u8 .internal] ++ [if n.is_root then 1 else 0] ++
        encI32 n.parent)
      (encU32 n.n_cells)
      (encI32 rc ++ (concatMap encInternalCell ws ++
        (List.replicate (PAGE_SIZE - (INTERNAL_NODE_HEADER_SIZE +
          INTERNAL_NODE_CELL_SIZE * ws.length)) 0 ++ tail)))
      6 NODE_N_CELLS_SIZE (by simp [internalPage]) (by simp [encI32_length])
      (by simp [encU32_length, NODE_N_CELLS_SIZE])
  have hrc : readBuf (internalPage n rc ws ++ tail) 10 INTERNAL_NODE_RIGHT_CHILD_SIZE
      = encI32 rc :=
    readBuf_at _ ([NodeKind.to_u8 .internal] ++ [if n.is_root then 1 else 0] ++
        encI32 n.parent ++ encU32 n.n_cells)
      (encI32 rc)
      (concatMap encInternalCell ws ++
        (List.replicate (PAGE_SIZE - (INTERNAL_NODE_HEADER_SIZE +
          INTERNAL_NODE_CELL_SIZE * ws.length)) 0 ++ tail))
      10 INTERNAL_NODE_RIGHT_CHILD_SIZE (by simp [internalPage])
      (by simp [encI32_length, encU32_length])
      (by simp [encI32_length, INTERNAL_NODE_RIGHT_CHILD_SIZE])
  have hcells : readInternalCells (internalPage n rc ws ++ tail) 14 ws.length = ws := by
    have e : internalPage n rc ws ++ tail =
        ([NodeKind.to_u8 .internal] ++ [if n.is_root then 1 else 0] ++
          encI32 n.parent ++ encU32 n.n_cells ++ encI32 rc) ++
        (concatMap encInternalCell ws ++
          (List.replicate (PAGE_SIZE - (INTERNAL_NODE_HEADER_SIZE +
            INTERNAL_NODE_CELL_SIZE * ws.length)) 0 ++ tail)) := by
      simp [internalPage]
    have hpre : ([NodeKind.to_u8 .internal] ++ [if n.is_root then 1 else 0] ++
        encI32 n.parent ++ encU32 n.n_cells ++ encI32 rc).length = 14 := by
      simp [encI32_length, encU32_length]
    have h := readInternalCells_enc ws
      ([NodeKind.to_u8 .internal] ++ [if n.is_root then 1 else 0] ++
        encI32 n.parent ++ encU32 n.n_cells ++ encI32 rc)
      (List.replicate (PAGE_SIZE - (INTERNAL_NODE_HEADER_SIZE +
        INTERNAL_NODE_CELL_SIZE * ws.length)) 0 ++ tail) hws
    rw [hpre] at h
    rw [e]
    exact h
  have hnclt : n.n_cells < 2 ^ 32 := by
    have : ws.length ≤ 340 := by
      simpa [INTERNAL_NODE_CELL_MAX_NUM, INTERNAL_NODE_SPACE_FOR_CELLS,
        INTERNAL_NODE_HEADER_SIZE, NODE_HEADER_SIZE, NODE_KIND_SIZE,
        NODE_IS_ROOT_SIZE, NODE_PARENT_SIZE, NODE_N_CELLS_SIZE, PAGE_SIZE,
        INTERNAL_NODE_RIGHT_CHILD_SIZE, INTERNAL_NODE_CELL_SIZE,
        INTERNAL_NODE_CELL_KEY_SIZE, INTERNAL_NODE_CELL_CHILD_SIZE] using hle
    omega
  have hws32 : ws.length < 2 ^ 32 := hn ▸ hnclt
  have hmin2 : decU32 (encU32 ws.length) ⊓ INTERNAL_NODE_CELL_MAX_NUM = ws.length := by
    rw [decU32_encU32 _ hws32]
    exact Nat.min_eq_left hle
  have hmin3 : ws.length ⊓ INTERNAL_NODE_CELL_MAX_NUM = ws.length := Nat.min_eq_left hle
  unfold Node.read_at
  rw [hkind]
  have h1 : leToNat [1] = 1 := by simp [leToNat]
  rw [h1]
  cases hb : n.is_root <;>
    simp [NodeKind.from_u8, hroot, hb, leToNat, hpar, hnc, hrc,
      decI32_encI32 _ hp1 hp2, decI32_encI32 _ hr1 hr2, hcells,
      decU32_encU32 _ hnclt, hn, hmin2, decU32_encU32 _ hws32, hmin3]

lemma mem_getD {α : Type} : ∀ (l : List α) (c d : α),
    c ∈ l → ∃ j, j < l.length ∧ l.getD j d = c
  | [], _, _, h => absurd h (List.not_mem_nil _)
  | a :: l, c, d, h => by
    rcases List.mem_cons.mp h with h | h
    · exact ⟨0, by simp, by simp [List.getD, h]⟩
    · obtain ⟨j, hj, he⟩ := mem_getD l c d h
      exact ⟨j + 1, by simpa using hj, by simpa [List.getD] using he⟩

lemma node_roundtrip_aux (n : Node) (h : WfNodeEnc n) :
    ∃ page, n.write_at [] 0 = .ok page ∧ page.length = PAGE_SIZE ∧
    ∃ n', Node.read_at page 0 = .ok n' ∧
      n'.kind = n.kind ∧ n'.is_root = n.is_root ∧ n'.parent = n.parent ∧
      n'.n_cells = n.n_cells ∧
      (n.kind = .leaf → ∀ i, i < n.n_cells →
        n'.read_leaf_cell i = n.read_leaf_cell i) ∧
      (n.kind = .internal → ∀ i, i < n.n_cells →
        n'.read_internal_cell i = n.read_internal_cell i) := by
  obtain ⟨⟨hp1, hp2⟩, hk⟩ := h
  cases hkind : n.kind
  case leaf =>
    rw [hkind] at hk
    obtain ⟨cells, hcells, hclen, hle, hpop⟩ := hk
    obtain ⟨ws, hwlen, htake⟩ := exists_somes cells n.n_cells
      (by rw [hclen]; exact hle)
      (fun i hi => by obtain ⟨c, hc, _⟩ := hpop i hi; rw [hc]; simp)
    have hread : ∀ i, i < n.n_cells → cells.getD i none = some (ws.getD i dCell) := by
      intro i hi
      rw [← getD_take_lt cells n.n_cells i none hi, htake]
      exact getD_map_some ws i dCell (by omega)
    have hws : ∀ c ∈ ws, WfLeafCell c := by
      intro c hc
      obtain ⟨j, hj, he⟩ := mem_getD ws c dCell hc
      obtain ⟨c', hc', hwf⟩ := hpop j (by omega)
      rw [hread j (by omega), he] at hc'
      cases hc'
      exact hwf
    refine ⟨leafPage n ws, ?_, leafPage_length n ws hws (by omega), ?_⟩
    · simpa using write_at_leaf n cells ws hkind hcells htake [] 0
    · have hra : Node.read_at (leafPage n ws) 0 =
          .ok { kind := .leaf
                is_root := n.is_root
                parent := n.parent
                n_cells := n.n_cells
                leaf_cells := some (fillCells ws LEAF_NODE_CELL_MAX_NUM)
                right_child := none
                internal_cells := none } := by
        simpa using read_at_leafPage n ws [] hws hwlen.symm (by omega) hp1 hp2
      refine ⟨_, hra, rfl, rfl, rfl, rfl, ?_, ?_⟩
      · intro _ i hi
        simp only [Node.read_leaf_cell, hcells, Option.getD_some]
        rw [getD_fill_lt ws _ i dCell (by omega), hread i hi]
      · intro hcontra
        simp at hcontra
  case internal =>
    rw [hkind] at hk
    obtain ⟨cells, rc, hcells, hclen, hle, hrc, hr1, hr2, hpop⟩ := hk
    obtain ⟨ws, hwlen, htake⟩ := exists_somes cells n.n_cells
      (by rw [hclen]; exact hle)
      (fun i hi => by obtain ⟨c, hc, _⟩ := hpop i hi; rw [hc]; simp)
    have hread : ∀ i, i < n.n_cells → cells.getD i none = some (ws.getD i dICell) := by
      intro i hi
      rw [← getD_take_lt cells n.n_cells i none hi, htake]
      exact getD_map_some ws i dICell (by omega)
    have hws : ∀ c ∈ ws, WfInternalCell c := by
      intro c hc
      obtain ⟨j, hj, he⟩ := mem_getD ws c dICell hc
      obtain ⟨c', hc', hwf⟩ := hpop j (by omega)
      rw [hread j (by omega), he] at hc'
      cases hc'
      exact hwf
    refine ⟨internalPage n rc ws, ?_, internalPage_length n rc ws (by omega), ?_⟩
    · simpa using write_at_internal n cells ws rc hkind hrc hcells htake [] 0
    · have hra : Node.read_at (internalPage n rc ws) 0 =
          .ok { kind := .internal
                is_root := n.is_root
                parent := n.parent
                n_cells := n.n_cells
                leaf_cells := none
                right_child := some rc
                internal_cells := some (fillCells ws INTERNAL_NODE_CELL_MAX_NUM) } := by
        simpa using
          read_at_internalPage n rc ws [] hws hwlen.symm (by omega) hp1 hp2 hr1 hr2
      refine ⟨_, hra, rfl, rfl, rfl, rfl, ?_, ?_⟩
      · intro hcontra
        simp at hcontra
      · intro _ i hi
        simp only [Node.read_internal_cell, hcells, Option.getD_some]
        rw [getD_fill_lt ws _ i dICell (by omega), hread i hi]

/-! ### Claim theorems: C9, C6, C8, C5 -/

/-- C9: the layout constants computed from the declared field sizes equal the
spec's derived values: node header 10 bytes, leaf cell 304 bytes, leaf
capacity 13, internal capacity 340, and the leaf split policy sends 7 of the
14 cells (13 existing plus 1 incoming) right and keeps 7 left. -/
theorem layout_constants_match :
    NODE_HEADER_SIZE = 10 ∧ LEAF_NODE_CELL_SIZE = 304 ∧
    LEAF_NODE_CELL_MAX_NUM = 13 ∧ INTERNAL_NODE_CELL_MAX_NUM = 340 ∧
    SPLIT_RIGHT_LEAF_NODE_NUM = 7 ∧ SPLIT_LEFT_LEAF_NODE_NUM = 7 ∧
    SPLIT_LEFT_LEAF_NODE_NUM + SPLIT_RIGHT_LEAF_NODE_NUM
      = LEAF_NODE_CELL_MAX_NUM + 1 := by
  decide

/-- C6 (evidence): on a file truncated right after a leaf header announcing
one cell, `read_at` does not fail: `FileExt::read_at` permits short reads, the
returned byte count is ignored, and the zero-initialized buffers flow into the
decoded node, yielding an all-zero fabricated cell instead of an I/O error. -/
theorem read_at_truncated_succeeds :
    truncatedLeafPage.length < PAGE_SIZE ∧
    Node.read_at truncatedLeafPage 0 =
      .ok { kind := .leaf
            is_root := false
            parent := -1
            n_cells := 1
            leaf_cells := some (some zeroLeafCell :: List.replicate 12 none)
            right_child := none
            internal_cells := none } := by
  constructor
  · decide
  · rfl

/-- C8 (counterexample): `get_page` can fail below the 64-page cap — on this
pager, slot 0 is empty, `0 < n_pages`, and the fetch propagates the codec's
invalid-kind error, refuting `fails exactly when i ≥ 64`. -/
theorem get_page_fails_below_cap :
    (corruptPager.get_page 0).1 = .error kindErrMsg ∧ (0 : Nat) < PAGE_MAX_NUM := by
  exact ⟨rfl, by decide⟩

/-- C8 (amended): `get_page i` fails with the table-full error when `i ≥ 64`
and the pager is untouched; below the cap, a populated slot is returned as is,
an empty slot below `n_pages` is fetched via the codec (whose failure
propagates), and otherwise a blank leaf (`n_cells = 0`, `parent = −1`, not
root) is installed and `n_pages` is raised to `i + 1`. -/
theorem get_page_cases (p : Pager) (i : Nat) :
    (PAGE_MAX_NUM ≤ i → p.get_page i = (.error ERR_TABLE_FULL, p)) ∧
    (i < PAGE_MAX_NUM → ∀ n, p.pages.getD i none = some n →
      p.get_page i = (.ok n, p)) ∧
    (i < PAGE_MAX_NUM → p.pages.getD i none = none → i < p.n_pages →
      p.get_page i = (match Node.read_at p.file (i * PAGE_SIZE) with
        | .ok n => (.ok n, p.setPage i n)
        | .error e => (.error e, p))) ∧
    (i < PAGE_MAX_NUM → p.pages.getD i none = none → p.n_pages ≤ i →
      p.get_page i = (.ok blankLeafNode,
        { p with
          n_pages := i + 1
          pages := p.pages.set i (some blankLeafNode) }) ∧
      blankLeafNode.kind = .leaf ∧ blankLeafNode.n_cells = 0 ∧
      blankLeafNode.parent = -1 ∧ blankLeafNode.is_root = false) := by
  refine ⟨fun h => ?_, fun h n hn => ?_, fun h hn hlt => ?_, fun h hn hge => ?_⟩
  · simp [Pager.get_page, h]
  · simp only [Pager.get_page, if_neg (Nat.not_le.mpr h), hn]
  · simp only [Pager.get_page, if_neg (Nat.not_le.mpr h), hn, if_pos hlt]
  · refine ⟨?_, rfl, rfl, rfl, rfl⟩
    simp only [Pager.get_page, if_neg (Nat.not_le.mpr h), hn,
      if_neg (Nat.not_lt.mpr hge)]

/-- C8 (witness for the amended theorem): on the empty pager, fetching page 0
allocates the blank leaf and raises `n_pages` to 1. -/
theorem get_page_cases_witness :
    emptyPager.get_page 0 = (.ok blankLeafNode,
      { emptyPager with
        n_pages := 1
        pages := emptyPager.pages.set 0 (some blankLeafNode) }) ∧
    blankLeafNode.kind = .leaf ∧ blankLeafNode.n_cells = 0 ∧
    blankLeafNode.parent = -1 ∧ blankLeafNode.is_root = false :=
  (get_page_cases emptyPager 0).2.2.2 (by decide) (by decide) (by decide)

/-- C5: encoding a node whose first `n_cells` slots are populated (and whose
fields are images of the Rust values) to its 4096-byte page with `write_at`
and decoding with `read_at` yields a node with identical `kind`, `is_root`,
`parent`, `n_cells`, and identical first `n_cells` cells of its kind. -/
theorem node_codec_roundtrip (n : Node) (h : WfNodeEnc n) :
    ∃ page, n.write_at [] 0 = .ok page ∧ page.length = PAGE_SIZE ∧
    ∃ n', Node.read_at page 0 = .ok n' ∧
      n'.kind = n.kind ∧ n'.is_root = n.is_root ∧ n'.parent = n.parent ∧
      n'.n_cells = n.n_cells ∧
      (n.kind = .leaf → ∀ i, i < n.n_cells →
        n'.read_leaf_cell i = n.read_leaf_cell i) ∧
      (n.kind = .internal → ∀ i, i < n.n_cells →
        n'.read_internal_cell i = n.read_internal_cell i) :=
  node_roundtrip_aux n h

/-- C5 (witness): the round-trip applied to a freshly blanked leaf root. -/
theorem node_codec_roundtrip_witness :
    ∃ page, (blankLeafNode.become_leaf_node).write_at [] 0 = .ok page ∧
      page.length = PAGE_SIZE ∧
    ∃ n', Node.read_at page 0 = .ok n' ∧
      n'.kind = (blankLeafNode.become_leaf_node).kind ∧
      n'.is_root = (blankLeafNode.become_leaf_node).is_root ∧
      n'.parent = (blankLeafNode.become_leaf_node).parent ∧
      n'.n_cells = (blankLeafNode.become_leaf_node).n_cells ∧
      ((blankLeafNode.become_leaf_node).kind = .leaf →
        ∀ i, i < (blankLeafNode.become_leaf_node).n_cells →
          n'.read_leaf_cell i = (blankLeafNode.become_leaf_node).read_leaf_cell i) ∧
      ((blankLeafNode.become_leaf_node).kind = .internal →
        ∀ i, i < (blankLeafNode.become_leaf_node).n_cells →
          n'.read_internal_cell i = (blankLeafNode.become_leaf_node).read_internal_cell i) :=
  node_codec_roundtrip (blankLeafNode.become_leaf_node)
    ⟨⟨by norm_num [blankLeafNode, Node.become_leaf_node, NOT_EXIST],
      by norm_num [blankLeafNode, Node.become_leaf_node, NOT_EXIST]⟩,
      ⟨List.replicate LEAF_NODE_CELL_MAX_NUM none, rfl, by simp, by decide,
        fun i hi => by
          simp [blankLeafNode, Node.become_leaf_node] at hi⟩⟩

/-! ### Binary search correctness -/

lemma getD_eq_getElem {α : Type} (l : List α) (i : Nat) (d : α)
    (h : i < l.length) : l.getD i d = l[i] := by
  simp [List.getD, List.getElem?_eq_getElem h]

lemma getD_mem {α : Type} (l : List α) (i : Nat) (d : α)
    (h : i < l.length) : l.getD i d ∈ l := by
  rw [getD_eq_getElem l i d h]
  exact List.getElem_mem h

lemma countP_eq_of_split {α : Type} (P : α → Bool) (d : α) : ∀ (l : List α) (k : Nat),
    k ≤ l.length → (∀ j, j < k → P (l.getD j d) = true) →
    (∀ j, k ≤ j → j < l.length → P (l.getD j d) = false) →
    l.countP P = k
  | [], k, hk, _, _ => by simp at hk ⊢; omega
  | a :: l, 0, _, _, h2 => by
    have ha : P a = false := by simpa [List.getD] using h2 0 (by omega) (by simp)
    have := countP_eq_of_split P d l 0 (by omega) (fun j hj => by omega)
      (fun j _ hj => by simpa [List.getD] using h2 (j + 1) (by omega) (by simpa using hj))
    simp [List.countP_cons, ha, this]
  | a :: l, k + 1, hk, h1, h2 => by
    have ha : P a = true := by simpa [List.getD] using h1 0 (by omega)
    have := countP_eq_of_split P d l k (by simpa using hk)
      (fun j hj => by simpa [List.getD] using h1 (j + 1) (by omega))
      (fun j hj hj' => by simpa [List.getD] using h2 (j + 1) (by omega) (by simpa using hj'))
    simp [List.countP_cons, ha, this]

lemma pairwise_le_getD (rows : List LeafCell) (h : RowsSortedLe rows) :
    ∀ i j, i ≤ j → j < rows.length →
      (rows.getD i dCell).key ≤ (rows.getD j dCell).key := by
  intro i j hij hj
  rcases Nat.lt_or_ge i j with hlt | hge
  · rw [getD_eq_getElem rows i dCell (by omega), getD_eq_getElem rows j dCell hj]
    exact List.pairwise_iff_getElem.mp h i j (by omega) hj hlt
  · have : i = j := by omega
    subst this
    exact le_refl _

lemma pairwise_lt_getD (rows : List LeafCell) (h : RowsSortedLt rows) :
    ∀ i j, i < j → j < rows.length →
      (rows.getD i dCell).key < (rows.getD j dCell).key := by
  intro i j hij hj
  rw [getD_eq_getElem rows i dCell (by omega), getD_eq_getElem rows j dCell hj]
  exact List.pairwise_iff_getElem.mp h i j (by omega) hj hij

lemma rowsSortedLt_le (rows : List LeafCell) (h : RowsSortedLt rows) :
    RowsSortedLe rows :=
  List.Pairwise.imp (fun hab => le_of_lt hab) h

lemma leafBinSearchGo_absent (n : Node) (rows : List LeafCell) (key : Int)
    (hrd : ∀ i, i < rows.length → n.read_leaf_cell i = some (rows.getD i dCell))
    (hsort : RowsSortedLe rows)
    (habs : ∀ c ∈ rows, c.key ≠ key) :
    ∀ fuel left right, right - left ≤ fuel → left ≤ right → right ≤ rows.length →
    (∀ j, j < left → (rows.getD j dCell).key < key) →
    (∀ j, right ≤ j → j < rows.length → key < (rows.getD j dCell).key) →
    leafBinSearchGo n key fuel left right
      = .ok (rows.countP (fun c => decide (c.key < key)), false)
  | 0, left, right, hfuel, hlr, hrlen, hlo, hhi => by
    have heq : left = right := by omega
    subst heq
    show Except.ok (left, false) = _
    congr 2
    exact (countP_eq_of_split _ dCell rows left (by omega)
      (fun j hj => by simpa using hlo j hj)
      (fun j hj hj' => by simpa using not_lt.mpr (le_of_lt (hhi j hj hj')))).symm
  | fuel + 1, left, right, hfuel, hlr, hrlen, hlo, hhi => by
    rcases Nat.eq_or_lt_of_le hlr with heq | hlt
    · subst heq
      show (if left ≤ left then _ else _) = _
      rw [if_pos (le_refl left)]
      congr 2
      exact (countP_eq_of_split _ dCell rows left (by omega)
        (fun j hj => by simpa using hlo j hj)
        (fun j hj hj' => by simpa using not_lt.mpr (le_of_lt (hhi j hj hj')))).symm
    · have hmid : (left + right) / 2 < rows.length := by omega
      show (if right ≤ left then _ else _) = _
      rw [if_neg (by omega)]
      simp only [hrd _ hmid]
      by_cases hke : key = (rows.getD ((left + right) / 2) dCell).key
      · exact absurd hke.symm (habs _ (getD_mem rows _ dCell hmid))
      · rw [if_neg hke]
        by_cases hklt : key < (rows.getD ((left + right) / 2) dCell).key
        · rw [if_pos hklt]
          exact leafBinSearchGo_absent n rows key hrd hsort habs fuel left
            ((left + right) / 2) (by omega) (by omega) (by omega) hlo
            (fun j hj hj' => lt_of_lt_of_le hklt
              (pairwise_le_getD rows hsort _ j hj hj'))
        · rw [if_neg hklt]
          have hgt : (rows.getD ((left + right) / 2) dCell).key < key := by
            rcases lt_trichotomy key ((rows.getD ((left + right) / 2) dCell).key) with h | h | h
            · exact absurd h hklt
            · exact absurd h hke
            · exact h
          exact leafBinSearchGo_absent n rows key hrd hsort habs fuel
            ((left + right) / 2 + 1) right (by omega) (by omega) hrlen
            (fun j hj => lt_of_le_of_lt
              (pairwise_le_getD rows hsort j _ (by omega) hmid) hgt)
            hhi

lemma leafBinSearch_absent (n : Node) (rows : List LeafCell) (key : Int)
    (hrd : ∀ i, i < rows.length → n.read_leaf_cell i = some (rows.getD i dCell))
    (hsort : RowsSortedLe rows)
    (habs : ∀ c ∈ rows, c.key ≠ key) :
    ∀ left right, left ≤ right → right ≤ rows.length →
    (∀ j, j < left → (rows.getD j dCell).key < key) →
    (∀ j, right ≤ j → j < rows.length → key < (rows.getD j dCell).key) →
    leafBinSearch n key left right
      = .ok (rows.countP (fun c => decide (c.key < key)), false) :=
  fun left right hlr hrlen hlo hhi =>
    leafBinSearchGo_absent n rows key hrd hsort habs (right - left) left right
      (le_refl _) hlr hrlen hlo hhi

lemma leafBinSearchGo_present (n : Node) (rows : List LeafCell) (key : Int)
    (hrd : ∀ i, i < rows.length → n.read_leaf_cell i = some (rows.getD i dCell))
    (hsort : RowsSortedLe rows)
    (ip : Nat) (hip : ip < rows.length) (hkey : (rows.getD ip dCell).key = key) :
    ∀ fuel left right, right - left ≤ fuel → left ≤ right → right ≤ rows.length →
    (∀ j, j < left → (rows.getD j dCell).key < key) →
    (∀ j, right ≤ j → j < rows.length → key < (rows.getD j dCell).key) →
    ∃ i, i < rows.length ∧ (rows.getD i dCell).key = key ∧
      leafBinSearchGo n key fuel left right = .ok (i, true)
  | 0, left, right, hfuel, hlr, hrlen, hlo, hhi => by
    exfalso
    have heq : left = right := by omega
    subst heq
    rcases Nat.lt_or_ge ip left with h | h
    · exact absurd hkey (ne_of_lt (hlo ip h))
    · exact absurd hkey (ne_of_gt (hhi ip h hip))
  | fuel + 1, left, right, hfuel, hlr, hrlen, hlo, hhi => by
    rcases Nat.eq_or_lt_of_le hlr with heq | hlt
    · subst heq
      exfalso
      rcases Nat.lt_or_ge ip left with h | h
      · exact absurd hkey (ne_of_lt (hlo ip h))
      · exact absurd hkey (ne_of_gt (hhi ip h hip))
    · have hmid : (left + right) / 2 < rows.length := by omega
      by_cases hke : key = (rows.getD ((left + right) / 2) dCell).key
      · refine ⟨(left + right) / 2, hmid, hke.symm, ?_⟩
        show (if right ≤ left then _ else _) = _
        rw [if_neg (by omega)]
        simp only [hrd _ hmid]
        rw [if_pos hke]
      · by_cases hklt : key < (rows.getD ((left + right) / 2) dCell).key
        · obtain ⟨i, h1, h2, h3⟩ := leafBinSearchGo_present n rows key hrd hsort
            ip hip hkey fuel left ((left + right) / 2) (by omega) (by omega) (by omega)
            hlo (fun j hj hj' => lt_of_lt_of_le hklt
              (pairwise_le_getD rows hsort _ j hj hj'))
          refine ⟨i, h1, h2, ?_⟩
          show (if right ≤ left then _ else _) = _
          rw [if_neg (by omega)]
          simp only [hrd _ hmid]
          rw [if_neg hke, if_pos hklt]
          exact h3
        · have hgt : (rows.getD ((left + right) / 2) dCell).key < key := by
            rcases lt_trichotomy key ((rows.getD ((left + right) / 2) dCell).key) with h | h | h
            · exact absurd h hklt
            · exact absurd h hke
            · exact h
          obtain ⟨i, h1, h2, h3⟩ := leafBinSearchGo_present n rows key hrd hsort
            ip hip hkey fuel ((left + right) / 2 + 1) right (by omega) (by omega) hrlen
            (fun j hj => lt_of_le_of_lt
              (pairwise_le_getD rows hsort j _ (by omega) hmid) hgt)
            hhi
          refine ⟨i, h1, h2, ?_⟩
          show (if right ≤ left then _ else _) = _
          rw [if_neg (by omega)]
          simp only [hrd _ hmid]
          rw [if_neg hke, if_neg hklt]
          exact h3

lemma leafBinSearch_present (n : Node) (rows : List LeafCell) (key : Int)
    (hrd : ∀ i, i < rows.length → n.read_leaf_cell i = some (rows.getD i dCell))
    (hsort : RowsSortedLe rows)
    (ip : Nat) (hip : ip < rows.length) (hkey : (rows.getD ip dCell).key = key) :
    ∃ i, i < rows.length ∧ (rows.getD i dCell).key = key ∧
      leafBinSearch n key 0 rows.length = .ok (i, true) :=
  leafBinSearchGo_present n rows key hrd hsort ip hip hkey (rows.length - 0)
    0 rows.length (le_refl _) (by omega) (le_refl _)
    (fun j hj => absurd hj (by omega))
    (fun j hj hj' => absurd (lt_of_le_of_lt hj hj') (lt_irrefl _))

lemma internalBinSearchGo_spec (n : Node) (cells : List InternalCell) (key : Int)
    (hrd : ∀ i, i < cells.length → n.read_internal_cell i = some (cells.getD i dICell))
    (hsort : ∀ i j, i ≤ j → j < cells.length →
      (cells.getD i dICell).key ≤ (cells.getD j dICell).key) :
    ∀ fuel left right, right - left ≤ fuel → left ≤ right → right ≤ cells.length →
    (∀ j, j < left → (cells.getD j dICell).key < key) →
    (∀ j, right ≤ j → j < cells.length → key ≤ (cells.getD j dICell).key) →
    internalBinSearchGo n key fuel left right
      = .ok (cells.countP (fun c => decide (c.key < key)))
  | 0, left, right, hfuel, hlr, hrlen, hlo, hhi => by
    have heq : left = right := by omega
    subst heq
    show Except.ok left = _
    congr 1
    exact (countP_eq_of_split _ dICell cells left (by omega)
      (fun j hj => by simpa using hlo j hj)
      (fun j hj hj' => by simpa using not_lt.mpr (hhi j hj hj'))).symm
  | fuel + 1, left, right, hfuel, hlr, hrlen, hlo, hhi => by
    rcases Nat.eq_or_lt_of_le hlr with heq | hlt
    · subst heq
      show (if left ≤ left then _ else _) = _
      rw [if_pos (le_refl left)]
      congr 1
      exact (countP_eq_of_split _ dICell cells left (by omega)
        (fun j hj => by simpa using hlo j hj)
        (fun j hj hj' => by simpa using not_lt.mpr (hhi j hj hj'))).symm
    · have hmid : (left + right) / 2 < cells.length := by omega
      show (if right ≤ left then _ else _) = _
      rw [if_neg (by omega)]
      simp only [hrd _ hmid]
      by_cases hke : key ≤ (cells.getD ((left + right) / 2) dICell).key
      · rw [if_pos hke]
        exact internalBinSearchGo_spec n cells key hrd hsort fuel left
          ((left + right) / 2) (by omega) (by omega) (by omega) hlo
          (fun j hj hj' => le_trans hke (hsort _ j hj hj'))
      · rw [if_neg hke]
        have hgt : (cells.getD ((left + right) / 2) dICell).key < key := not_le.mp hke
        exact internalBinSearchGo_spec n cells key hrd hsort fuel
          ((left + right) / 2 + 1) right (by omega) (by omega) hrlen
          (fun j hj => lt_of_le_of_lt (hsort j _ (by omega) hmid) hgt)
          hhi

lemma internalBinSearch_spec (n : Node) (cells : List InternalCell) (key : Int)
    (hrd : ∀ i, i < cells.length → n.read_internal_cell i = some (cells.getD i dICell))
    (hsort : ∀ i j, i ≤ j → j < cells.length →
      (cells.getD i dICell).key ≤ (cells.getD j dICell).key) :
    internalBinSearch n key 0 cells.length
      = .ok (cells.countP (fun c => decide (c.key < key))) :=
  internalBinSearchGo_spec n cells key hrd hsort (cells.length - 0) 0 cells.length
    (le_refl _) (by omega) (le_refl _)
    (fun j hj => absurd hj (by omega))
    (fun j hj hj' => absurd (lt_of_le_of_lt hj hj') (lt_irrefl _))

/-! ### The ordered in-leaf insert -/

lemma getD_drop {α : Type} : ∀ (l : List α) (m i : Nat) (d : α),
    (l.drop m).getD i d = l.getD (m + i) d
  | [], m, i, d => by simp
  | a :: l, 0, i, d => by simp
  | a :: l, m + 1, i, d => by
    have h : m + 1 + i = (m + i) + 1 := by omega
    rw [h]
    simp [List.getD, getD_drop l m i d]

lemma list_eq_of_getD {α : Type} (d : α) : ∀ (l1 l2 : List α),
    l1.length = l2.length →
    (∀ j, j < l1.length → l1.getD j d = l2.getD j d) → l1 = l2
  | [], [], _, _ => rfl
  | [], a :: l2, h, _ => by simp at h
  | a :: l1, [], h, _ => by simp at h
  | a :: l1, b :: l2, h, hj => by
    have h0 := hj 0 (by simp)
    simp [List.getD] at h0
    have ht := list_eq_of_getD d l1 l2 (by simpa using h)
      (fun j hjl => by simpa [List.getD] using hj (j + 1) (by simpa using hjl))
    simp [h0, ht]

lemma insertIdx_eq_take_drop {α : Type} (a : α) : ∀ (ci : Nat) (l : List α),
    ci ≤ l.length → l.insertIdx ci a = l.take ci ++ a :: l.drop ci
  | 0, l, _ => by simp
  | ci + 1, [], h => by simp at h
  | ci + 1, x :: l, h => by
    simp only [List.insertIdx_succ_cons, List.take, List.drop]
    rw [insertIdx_eq_take_drop a ci l (by simpa using h)]
    simp

lemma shiftLoop_length (ci : Nat) : ∀ (B : List (Option LeafCell)) (i : Nat),
    (shiftLoop ci B i).length = B.length
  | _, 0 => rfl
  | B, i + 1 => by
    unfold shiftLoop
    split
    · rw [shiftLoop_length ci _ i]
      simp
    · rfl

lemma shiftLoop_getD : ∀ (B : List (Option LeafCell)) (ci i : Nat),
    i < B.length → ci ≤ i → ∀ j, j < B.length →
    (shiftLoop ci B i).getD j none =
      if j < ci then B.getD j none
      else if i < j then B.getD j none
      else if j = ci then (if ci < i then none else B.getD j none)
      else B.getD (j - 1) none
  | B, ci, 0, _, hci, j, _ => by
    have hc0 : ci = 0 := by omega
    subst hc0
    show B.getD j none = _
    split_ifs <;> first | rfl | omega
  | B, ci, i + 1, hlen, hci, j, hj => by
    by_cases hg : ci < i + 1
    · rw [show shiftLoop ci B (i + 1)
          = shiftLoop ci ((B.set i none).set (i + 1) (B.getD i none)) i from by
        rw [shiftLoop]; rw [if_pos hg]]
      have hlen' : ((B.set i none).set (i + 1) (B.getD i none)).length = B.length := by
        simp
      have hgd : ∀ m, ((B.set i none).set (i + 1) (B.getD i none)).getD m none
          = if m = i then none
            else if m = i + 1 then B.getD i none
            else B.getD m none := by
        intro m
        by_cases h1 : m = i
        · subst h1
          rw [getD_set_ne (B.set m none) (m + 1) m (B.getD m none) none (by omega),
            getD_set_self B m none none (by omega)]
          simp
        · by_cases h2 : m = i + 1
          · subst h2
            rw [getD_set_self (B.set i none) (i + 1) (B.getD i none) none
              (by simpa using hlen)]
            simp [h1]
          · rw [getD_set_ne (B.set i none) (i + 1) m (B.getD i none) none
                (fun hc => h2 hc.symm),
              getD_set_ne B i m none none (fun hc => h1 hc.symm)]
            simp [h1, h2]
      rw [shiftLoop_getD _ ci i (by omega) (by omega) j (by omega)]
      simp only [hgd]
      split_ifs <;> first | rfl | omega | simp_all
    · have hce : ci = i + 1 := by omega
      rw [shiftLoop]
      rw [if_neg hg]
      split_ifs <;> first | rfl | omega

lemma insert_leaf_cell_abs (n : Node) (rows : List LeafCell) (cell : LeafCell)
    (habs : LeafAbs n rows) (hk : rows.length < LEAF_NODE_CELL_MAX_NUM)
    (ci : Nat) (hci : ci ≤ rows.length) :
    n.insert_leaf_cell ci cell = .ok { n with
      leaf_cells := some (fillCells (rows.insertIdx ci cell) LEAF_NODE_CELL_MAX_NUM)
      n_cells := rows.length + 1 } := by
  obtain ⟨hkind, hcells, hn, hle, hrc, hic⟩ := habs
  have hfl : (fillCells rows LEAF_NODE_CELL_MAX_NUM).length = LEAF_NODE_CELL_MAX_NUM :=
    fillCells_length rows _ hle
  have hil : (rows.insertIdx ci cell).length = rows.length + 1 :=
    List.length_insertIdx ci rows hci
  have hitd : rows.insertIdx ci cell = rows.take ci ++ cell :: rows.drop ci :=
    insertIdx_eq_take_drop cell ci rows hci
  have htl : (rows.take ci).length = ci := by
    simp [List.length_take]
    omega
  have hbuf : (shiftLoop ci (fillCells rows LEAF_NODE_CELL_MAX_NUM)
        n.get_n_cells).set ci (some cell)
      = fillCells (rows.insertIdx ci cell) LEAF_NODE_CELL_MAX_NUM := by
    apply list_eq_of_getD none
    · rw [List.length_set, shiftLoop_length, hfl,
        fillCells_length _ _ (by omega)]
    · intro j hjl
      rw [List.length_set, shiftLoop_length, hfl] at hjl
      by_cases hjc : j = ci
      · subst hjc
        rw [getD_set_self _ _ _ _ (by rw [shiftLoop_length, hfl]; omega)]
        rw [getD_fill_lt _ _ _ dCell (by omega)]
        rw [hitd]
        rw [getD_append_ge _ _ _ _ (by omega)]
        rw [htl]
        simp [List.getD]
      · rw [getD_set_ne _ _ _ _ _ (fun hc => hjc hc.symm)]
        rw [shiftLoop_getD _ ci n.get_n_cells
          (by rw [hfl]; simp [Node.get_n_cells, hn]; omega)
          (by simp [Node.get_n_cells, hn]; omega) j (by omega)]
        simp only [Node.get_n_cells, hn]
        by_cases c1 : j < ci
        · rw [if_pos c1]
          rw [getD_fill_lt _ _ _ dCell (by omega),
            getD_fill_lt _ _ _ dCell (by omega)]
          rw [hitd]
          congr 1
          rw [getD_append_lt _ _ _ _ (by omega), getD_take_lt _ _ _ _ (by omega)]
        · by_cases c2 : rows.length < j
          · rw [if_neg c1, if_pos c2]
            rw [getD_fill_ge _ _ _ (by omega), getD_fill_ge _ _ _ (by omega)]
          · rw [if_neg c1, if_neg c2, if_neg hjc]
            have hcj : ci < j := by omega
            rw [getD_fill_lt _ _ _ dCell (by omega),
              getD_fill_lt _ _ _ dCell (by omega)]
            rw [hitd]
            congr 1
            rw [getD_append_ge _ _ _ _ (by omega), htl]
            have hs : j - ci = (j - ci - 1) + 1 := by omega
            rw [hs]
            have hd : (cell :: rows.drop ci).getD ((j - ci - 1) + 1) dCell
                = rows.getD (j - 1) dCell := by
              show (rows.drop ci).getD (j - ci - 1) dCell = rows.getD (j - 1) dCell
              rw [getD_drop]
              congr 1
              omega
            rw [hd]
  unfold Node.insert_leaf_cell
  rw [if_neg (by omega : ¬ LEAF_NODE_CELL_MAX_NUM ≤ ci)]
  rw [hcells]
  show Except.ok _ = _
  rw [hbuf]
  simp [Node.get_n_cells, hn]

/-! ### State plumbing -/

lemma get_page_cached (p : Pager) (i : Nat) (n : Node) (hi : i < PAGE_MAX_NUM)
    (hn : p.pages.getD i none = some n) : p.get_page i = (.ok n, p) := by
  simp only [Pager.get_page, if_neg (Nat.not_le.mpr hi), hn]

lemma getPage_cached (t : Table) (i : Nat) (n : Node) (hi : i < PAGE_MAX_NUM)
    (hn : t.pager.pages.getD i none = some n) : t.getPage i = .ok n t := by
  unfold Table.getPage
  rw [get_page_cached t.pager i n hi hn]

lemma getPageF_cached (t : Table) (i : Nat) (n : Node) (hi : i < PAGE_MAX_NUM)
    (hn : t.pager.pages.getD i none = some n) : t.getPageF i = .ok n t := by
  unfold Table.getPageF
  rw [getPage_cached t i n hi hn]
  rfl

lemma leafAbs_read_lt (n : Node) (rows : List LeafCell) (habs : LeafAbs n rows) :
    ∀ i, i < rows.length → n.read_leaf_cell i = some (rows.getD i dCell) := by
  obtain ⟨_, hcells, _, _, _, _⟩ := habs
  intro i hi
  simp only [Node.read_leaf_cell, hcells, Option.getD_some]
  exact getD_fill_lt rows _ i dCell hi

lemma leafAbs_read_ge (n : Node) (rows : List LeafCell) (habs : LeafAbs n rows) :
    ∀ i, rows.length ≤ i → n.read_leaf_cell i = none := by
  obtain ⟨_, hcells, _, _, _, _⟩ := habs
  intro i hi
  simp only [Node.read_leaf_cell, hcells, Option.getD_some]
  exact getD_fill_ge rows _ i hi

/-- The insertion point of `key` among `rows`. -/
lemma lb_le_length (rows : List LeafCell) (key : Int) :
    rows.countP (fun c => decide (c.key < key)) ≤ rows.length :=
  List.countP_le_length _

lemma from_leaf_node_absent (t : Table) (pg : Nat) (n : Node) (rows : List LeafCell)
    (key : Int) (hpg : pg < PAGE_MAX_NUM)
    (hn : t.pager.pages.getD pg none = some n)
    (habs : LeafAbs n rows) (hsort : RowsSortedLe rows)
    (hnk : ∀ c ∈ rows, c.key ≠ key) :
    Cursor.from_leaf_node t pg key =
      .ok { page_index := pg
            cell_index := rows.countP (fun c => decide (c.key < key))
            end_of_table :=
              decide (rows.countP (fun c => decide (c.key < key)) = rows.length) } t := by
  unfold Cursor.from_leaf_node
  rw [getPageF_cached t pg n hpg hn]
  show (match leafBinSearch n key 0 n.get_n_cells with
    | .error e => Res.fatal e t
    | .ok (cell_index, found) => _) = _
  have hnc : n.get_n_cells = rows.length := habs.2.2.1
  rw [hnc, leafBinSearch_absent n rows key (leafAbs_read_lt n rows habs) hsort hnk
    0 rows.length (by omega) (le_refl _) (fun j hj => absurd hj (by omega))
    (fun j hj hj' => absurd (lt_of_le_of_lt hj hj') (lt_irrefl _))]
  simp [hnc]

lemma from_leaf_node_present (t : Table) (pg : Nat) (n : Node) (rows : List LeafCell)
    (key : Int) (hpg : pg < PAGE_MAX_NUM)
    (hn : t.pager.pages.getD pg none = some n)
    (habs : LeafAbs n rows) (hsort : RowsSortedLe rows)
    (ip : Nat) (hip : ip < rows.length) (hkey : (rows.getD ip dCell).key = key) :
    ∃ i, i < rows.length ∧ (rows.getD i dCell).key = key ∧
      Cursor.from_leaf_node t pg key =
        .ok { page_index := pg, cell_index := i, end_of_table := false } t := by
  unfold Cursor.from_leaf_node
  rw [getPageF_cached t pg n hpg hn]
  have hnc : n.get_n_cells = rows.length := habs.2.2.1
  obtain ⟨i, hilt, hik, heq⟩ := leafBinSearch_present n rows key
    (leafAbs_read_lt n rows habs) hsort ip hip hkey
  refine ⟨i, hilt, hik, ?_⟩
  show (match leafBinSearch n key 0 n.get_n_cells with
    | .error e => Res.fatal e t
    | .ok (cell_index, found) => _) = _
  rw [hnc, heq]
  simp

lemma fromKey_leaf_root (t : Table) (root : Node) (key : Int)
    (h0 : t.root_node_index = 0)
    (hn : t.pager.pages.getD 0 none = some root)
    (hkind : root.kind = .leaf) :
    Cursor.fromKey t key = Cursor.from_leaf_node t 0 key := by
  unfold Cursor.fromKey
  rw [h0]
  show Cursor.fromNode (63 + 1) t 0 key = _
  unfold Cursor.fromNode
  rw [getPageF_cached t 0 root (by decide) hn]
  show (match root.kind with
    | NodeKind.leaf => Cursor.from_leaf_node t 0 key
    | NodeKind.internal => _) = _
  rw [hkind]

/-! ### Row construction and ordered insertion -/

lemma padBuf_length (bs : List Nat) (size : Nat) (h : bs.length ≤ size) :
    (padBuf bs size).length = size := by
  simp [padBuf]
  omega

lemma padBuf_bytes (bs : List Nat) (size : Nat) (h : ∀ b ∈ bs, b < 256) :
    ∀ b ∈ padBuf bs size, b < 256 := by
  intro b hb
  rcases List.mem_append.mp hb with hb | hb
  · exact h b (List.mem_of_mem_take hb)
  · rw [List.eq_of_mem_replicate hb]
    omega

lemma mkCellOf_wf (inp : Int × List Nat × List Nat) (hv : ValidInput inp) :
    WfLeafCell (mkCellOf inp) ∧ (mkCellOf inp).value.id = (mkCellOf inp).key ∧
      0 < (mkCellOf inp).key := by
  obtain ⟨h1, h2, h3, h4, h5, h6⟩ := hv
  refine ⟨⟨by simp [mkCellOf]; omega, by simp [mkCellOf]; omega,
    by simp [mkCellOf]; omega, by simp [mkCellOf]; omega,
    padBuf_length _ _ h3, padBuf_bytes _ _ h4,
    padBuf_length _ _ h5, padBuf_bytes _ _ h6⟩, rfl, h1⟩

lemma insertIdx_perm {α : Type} (l : List α) (n : Nat) (a : α) (hn : n ≤ l.length) :
    (l.insertIdx n a).Perm (a :: l) := by
  rw [insertIdx_eq_take_drop a n l hn]
  have h1 : (l.take n ++ a :: l.drop n).Perm (a :: (l.take n ++ l.drop n)) :=
    List.perm_middle
  rwa [List.take_append_drop] at h1

lemma sorted_insert_countP (cell : LeafCell) : ∀ (rows : List LeafCell),
    RowsSortedLt rows → (∀ c ∈ rows, c.key ≠ cell.key) →
    RowsSortedLt (rows.insertIdx
      (rows.countP (fun c => decide (c.key < cell.key))) cell)
  | [], _, _ => by simp [RowsSortedLt]
  | r :: rows, hs, hne => by
    obtain ⟨hhead, htail⟩ := List.pairwise_cons.mp hs
    by_cases hr : r.key < cell.key
    · have hcp : (r :: rows).countP (fun c => decide (c.key < cell.key))
          = rows.countP (fun c => decide (c.key < cell.key)) + 1 := by
        simp [List.countP_cons, hr]
      rw [hcp, List.insertIdx_succ_cons]
      refine List.pairwise_cons.mpr ⟨?_, sorted_insert_countP cell rows htail
        (fun c hc => hne c (by simp [hc]))⟩
      intro b hb
      rcases (List.mem_insertIdx (lb_le_length rows cell.key)).mp hb with hb | hb
      · rw [hb]; exact hr
      · exact hhead b hb
    · have hlt2 : cell.key < r.key := by
        have := hne r (by simp)
        omega
      have hcp0 : rows.countP (fun c => decide (c.key < cell.key)) = 0 := by
        rw [List.countP_eq_zero]
        intro a ha
        have := hhead a ha
        simp only [decide_eq_true_eq]
        omega
      have hcp : (r :: rows).countP (fun c => decide (c.key < cell.key)) = 0 := by
        simp [List.countP_cons, hr, hcp0]
      rw [hcp, List.insertIdx_zero]
      refine List.pairwise_cons.mpr ⟨?_, hs⟩
      intro b hb
      rcases List.mem_cons.mp hb with hb | hb
      · rw [hb]; exact hlt2
      · have := hhead b hb
        omega

lemma rowsWf_insertIdx (rows : List LeafCell) (cell : LeafCell) (q : Nat)
    (hq : q ≤ rows.length) (hw : RowsWf rows)
    (hc : WfLeafCell cell ∧ cell.value.id = cell.key ∧ 0 < cell.key) :
    RowsWf (rows.insertIdx q cell) := by
  intro c hcm
  rcases (List.mem_insertIdx hq).mp hcm with h | h
  · rw [h]; exact hc
  · exact hw c h

/-! ### Insert on the leaf-root shape -/

lemma write_leaf_cell_nonfull (t : Table) (pg ci : Nat) (eot : Bool) (n : Node)
    (rows : List LeafCell) (cell : LeafCell)
    (hpg : pg < PAGE_MAX_NUM) (hn : t.pager.pages.getD pg none = some n)
    (habs : LeafAbs n rows) (hlt : rows.length < LEAF_NODE_CELL_MAX_NUM)
    (hci : ci ≤ rows.length) :
    Cursor.write_leaf_cell ⟨pg, ci, eot⟩ cell t = .ok () (t.setPage pg { n with
      leaf_cells := some (fillCells (rows.insertIdx ci cell) LEAF_NODE_CELL_MAX_NUM)
      n_cells := rows.length + 1 }) := by
  unfold Cursor.write_leaf_cell
  rw [getPage_cached t pg n hpg hn]
  show (if n.get_n_cells < LEAF_NODE_CELL_MAX_NUM then _ else _) = _
  rw [if_pos (by rw [Node.get_n_cells, habs.2.2.1]; exact hlt)]
  rw [insert_leaf_cell_abs n rows cell habs hlt ci hci]

lemma insert_shapeA_dup (t : Table) (root : Node) (rows : List LeafCell)
    (id : Int) (name desc : List Nat)
    (h : ShapeA t root rows)
    (hname : name.length ≤ NAME_MAX_SIZE) (hdesc : desc.length ≤ DESCRIPTION_MAX_SIZE)
    (hin : ∃ c ∈ rows, c.key = id) :
    Table.insert t id name desc = .err (dupKeyMsg id) t := by
  obtain ⟨h0, hfile, hnp, hpages, habs, hroot, hpar, hsort, hwf⟩ := h
  obtain ⟨c, hc, hck⟩ := hin
  have hgd : t.pager.pages.getD 0 none = some root := by rw [hpages]; rfl
  have hid : 0 < id := hck ▸ (hwf c hc).2.2
  obtain ⟨ip, hiplt, hipd⟩ := mem_getD rows c dCell hc
  obtain ⟨i, hilt, hik, hfrom⟩ := from_leaf_node_present t 0 root rows id (by decide)
    hgd habs (rowsSortedLt_le _ hsort) ip hiplt (by rw [hipd, hck])
  unfold Table.insert
  rw [if_neg (by omega : ¬ id ≤ 0), if_neg (not_lt.mpr hname),
    if_neg (not_lt.mpr hdesc), h0, getPage_cached t 0 root (by decide) hgd]
  show Res.bind (Cursor.fromKey t id) _ = _
  rw [fromKey_leaf_root t root id h0 hgd habs.1, hfrom]
  show (if i < root.get_n_cells then _ else _) = _
  rw [if_pos (by rw [Node.get_n_cells, habs.2.2.1]; exact hilt)]
  show Res.bind (Cursor.read_leaf_cell _ t) _ = _
  unfold Cursor.read_leaf_cell
  rw [getPage_cached t 0 root (by decide) hgd]
  show (match root.read_leaf_cell i with
    | none => Res.fatal panicUnwrapMsg t
    | some c => _) = _
  rw [leafAbs_read_lt root rows habs i hilt]
  show (if id = (rows.getD i dCell).key then _ else _) = _
  rw [if_pos hik.symm]

lemma insert_shapeA_new (t : Table) (root : Node) (rows : List LeafCell)
    (inp : Int × List Nat × List Nat)
    (h : ShapeA t root rows) (hv : ValidInput inp)
    (hnk : ∀ c ∈ rows, c.key ≠ inp.1)
    (hlt : rows.length < LEAF_NODE_CELL_MAX_NUM) :
    ∃ t' root',
      Table.insert t inp.1 inp.2.1 inp.2.2 = .ok () t' ∧
      ShapeA t' root'
        (rows.insertIdx (rows.countP (fun c => decide (c.key < inp.1))) (mkCellOf inp)) := by
  obtain ⟨h0, hfile, hnp, hpages, habs, hroot, hpar, hsort, hwf⟩ := h
  obtain ⟨hid, hid2, hname, hnb, hdesc, hdb⟩ := hv
  have hgd : t.pager.pages.getD 0 none = some root := by rw [hpages]; rfl
  set lb := rows.countP (fun c => decide (c.key < inp.1)) with hlb
  have hlble : lb ≤ rows.length := lb_le_length rows inp.1
  set cell := mkCellOf inp with hcell
  set root' : Node := { root with
    leaf_cells := some (fillCells (rows.insertIdx lb cell) LEAF_NODE_CELL_MAX_NUM)
    n_cells := rows.length + 1 } with hroot'
  have hwr : Cursor.write_leaf_cell ⟨0, lb, decide (lb = rows.length)⟩ cell t
      = .ok () (t.setPage 0 root') :=
    write_leaf_cell_nonfull t 0 lb _ root rows cell (by decide) hgd habs hlt hlble
  have hmain : Table.insert t inp.1 inp.2.1 inp.2.2 = .ok () (t.setPage 0 root') := by
    unfold Table.insert
    rw [if_neg (by omega : ¬ inp.1 ≤ 0), if_neg (not_lt.mpr hname),
      if_neg (not_lt.mpr hdesc), h0, getPage_cached t 0 root (by decide) hgd]
    show Res.bind (Cursor.fromKey t inp.1) _ = _
    rw [fromKey_leaf_root t root inp.1 h0 hgd habs.1,
      from_leaf_node_absent t 0 root rows inp.1 (by decide) hgd habs
        (rowsSortedLt_le _ hsort) hnk]
    show (if lb < root.get_n_cells then _ else _) = _
    by_cases hcase : lb < rows.length
    · rw [if_pos (by rw [Node.get_n_cells, habs.2.2.1]; exact hcase)]
      show Res.bind (Cursor.read_leaf_cell _ t) _ = _
      unfold Cursor.read_leaf_cell
      rw [getPage_cached t 0 root (by decide) hgd]
      show (match root.read_leaf_cell lb with
        | none => Res.fatal panicUnwrapMsg t
        | some c => _) = _
      rw [leafAbs_read_lt root rows habs lb hcase]
      show (if inp.1 = (rows.getD lb dCell).key then _ else _) = _
      rw [if_neg (fun he => hnk _ (getD_mem rows lb dCell hcase) he.symm)]
      exact hwr
    · rw [if_neg (by rw [Node.get_n_cells, habs.2.2.1]; exact hcase)]
      exact hwr
  refine ⟨t.setPage 0 root', root', hmain, ?_⟩
  have hpages' : (t.setPage 0 root').pager.pages
      = some root' :: List.replicate 63 none := by
    simp [Table.setPage, Pager.setPage, hpages]
  have hil : (rows.insertIdx lb cell).length = rows.length + 1 :=
    List.length_insertIdx lb rows hlble
  refine ⟨h0, hfile, hnp, hpages', ?_, hroot, hpar, ?_, ?_⟩
  · exact ⟨habs.1, rfl, by simp [hroot', hil], by rw [hil]; omega,
      habs.2.2.2.2.1, habs.2.2.2.2.2⟩
  · exact sorted_insert_countP cell rows hsort
      (fun c hc => by rw [hcell]; exact hnk c hc)
  · exact rowsWf_insertIdx rows cell lb hlble hwf (mkCellOf_wf inp ⟨hid, hid2, hname, hnb, hdesc, hdb⟩)

/-! ### The first root split -/
/-! ### Pointwise characterization of the split and copy loops -/


lemma getD_some_lt_length {α : Type} (l : List (Option α)) (i : Nat) (v : α)
    (h : l.getD i none = some v) : i < l.length := by
  by_contra hge
  rw [List.getD_eq_default _ _ (by omega)] at h
  exact Option.noConfusion h

lemma getD_insertIdx (rows : List LeafCell) (cell : LeafCell) (ci j : Nat)
    (hci : ci ≤ rows.length) (hj : j ≤ rows.length) :
    (rows.insertIdx ci cell).getD j dCell =
      if j < ci then rows.getD j dCell
      else if j = ci then cell
      else rows.getD (j - 1) dCell := by
  rw [insertIdx_eq_take_drop cell ci rows hci]
  have hlt : (rows.take ci).length = ci := by
    rw [List.length_take]; omega
  by_cases h1 : j < ci
  · rw [if_pos h1, getD_append_lt _ _ _ _ (by omega)]
    exact getD_take_lt rows ci j dCell h1
  · rw [if_neg h1, getD_append_ge _ _ _ _ (by omega), hlt]
    by_cases h2 : j = ci
    · subst h2
      rw [if_pos rfl]
      have h0 : j - j = 0 := by omega
      rw [h0]
      rfl
    · rw [if_neg h2]
      have h3 : j - ci = (j - ci - 1) + 1 := by omega
      rw [h3]
      show (rows.drop ci).getD (j - ci - 1) dCell = _
      rw [getD_drop]
      congr 1
      omega

lemma copyLoop_spec : ∀ (k i : Nat) (B L : List (Option LeafCell)),
    i + k ≤ L.length →
    (∀ s, i ≤ s → s < i + k → ∃ v, B.getD s none = some v) →
    ∃ B2 L2, copyLoop i k B L = .ok (B2, L2)
      ∧ B2.length = B.length ∧ L2.length = L.length
      ∧ (∀ d, B2.getD d none
          = if i ≤ d ∧ d < i + k then none else B.getD d none)
      ∧ (∀ d, L2.getD d none
          = if i ≤ d ∧ d < i + k then B.getD d none else L.getD d none)
  | 0, i, B, L, _, _ =>
    ⟨B, L, rfl, rfl, rfl,
      fun d => by rw [if_neg (by omega)],
      fun d => by rw [if_neg (by omega)]⟩
  | k + 1, i, B, L, hL, hsrc => by
    obtain ⟨v, hv⟩ := hsrc i (le_refl i) (by omega)
    have hiB : i < B.length := getD_some_lt_length B i v hv
    have hiL : i < L.length := by omega
    have hstep : copyLoop i (k + 1) B L
        = copyLoop (i + 1) k (B.set i none) (L.set i (some v)) := by
      show (match B.getD i none with
        | none => Except.error panicUnwrapMsg
        | some v => copyLoop (i + 1) k (B.set i none) (L.set i (some v))) = _
      rw [hv]
    obtain ⟨B2, L2, heq, hB2len, hL2len, hB2, hL2⟩ :=
      copyLoop_spec k (i + 1) (B.set i none) (L.set i (some v))
        (by simpa using by omega : i + 1 + k ≤ (L.set i (some v)).length)
        (fun s hs1 hs2 => by
          rw [getD_set_ne B i s none none (by omega)]
          exact hsrc s (by omega) (by omega))
    refine ⟨B2, L2, by rw [hstep, heq], by simpa using hB2len, by simpa using hL2len,
      ?_, ?_⟩
    · intro d
      rw [hB2 d]
      by_cases hd1 : i + 1 ≤ d ∧ d < i + 1 + k
      · rw [if_pos hd1, if_pos (by omega)]
      · rw [if_neg hd1]
        by_cases hd2 : d = i
        · subst hd2
          rw [getD_set_self B d none none hiB, if_pos (by omega)]
        · rw [getD_set_ne B i d none none (fun hc => hd2 hc.symm),
            if_neg (by omega)]
    · intro d
      rw [hL2 d]
      by_cases hd1 : i + 1 ≤ d ∧ d < i + 1 + k
      · rw [if_pos hd1, if_pos (by omega),
          getD_set_ne B i d none none (by omega)]
      · rw [if_neg hd1]
        by_cases hd2 : d = i
        · subst hd2
          rw [getD_set_self L d (some v) none hiL, if_pos (by omega), hv]
        · rw [getD_set_ne L i d (some v) none (fun hc => hd2 hc.symm),
            if_neg (by omega)]

lemma splitLoop_spec (rows : List LeafCell) (cell : LeafCell) (ci : Nat)
    (hrows : rows.length = 13) (hci : ci ≤ 13) :
    ∀ (i : Nat) (old nw : Node) (B C : List (Option LeafCell)),
    i ≤ 13 →
    old.leaf_cells = some B → B.length = 13 →
    nw.leaf_cells = some C → C.length = 13 →
    (∀ s, (s < i ∨ (s = i ∧ i < ci)) → B.getD s none = some (rows.getD s dCell)) →
    ∃ B2 C2,
      splitLoop ci cell i old nw
        = .ok ({ old with leaf_cells := some B2 }, { nw with leaf_cells := some C2 })
      ∧ B2.length = 13 ∧ C2.length = 13
      ∧ (∀ d, d < 13 → B2.getD d none =
          if d ≤ i ∧ d < 7 then some ((rows.insertIdx ci cell).getD d dCell)
          else if d < i ∨ (d = i ∧ i < ci) then none
          else B.getD d none)
      ∧ (∀ d, d < 13 → C2.getD d none =
          if d + 7 ≤ i then some ((rows.insertIdx ci cell).getD (d + 7) dCell)
          else C.getD d none)
  | 0, old, nw, B, C, _, hB, hBlen, hC, hClen, hsrc => by
    by_cases hic : (0 : Nat) = ci
    · -- the inserted cell goes to slot 0 of the old node
      have hstep : splitLoop ci cell 0 old nw
          = .ok ({ old with leaf_cells := some (B.set 0 (some cell)) }, nw) := by
        show splitStep ci cell 0 old nw = _
        unfold splitStep
        rw [if_pos hic]
        rw [if_neg (by decide : ¬ SPLIT_LEFT_LEAF_NODE_NUM ≤ 0)]
        unfold Node.put_leaf_cell
        rw [hB]
        rfl
      have hnw : ({ nw with leaf_cells := some C } : Node) = nw := by rw [← hC]
      refine ⟨B.set 0 (some cell), C, by rw [hnw]; exact hstep,
        by simpa using hBlen, hClen, ?_, ?_⟩
      · intro d hd
        by_cases hd0 : d = 0
        · subst hd0
          rw [getD_set_self B 0 (some cell) none (by omega), if_pos (by omega),
            getD_insertIdx rows cell ci 0 (by omega) (by omega)]
          rw [if_neg (by omega), if_pos hic]
        · rw [getD_set_ne B 0 d (some cell) none (fun hc => hd0 hc.symm),
            if_neg (by omega), if_neg (by omega)]
      · intro d hd
        rw [if_neg (by omega)]
    · -- slot 0 of the old node moves to slot 0 of the old node
      have hv : B.getD 0 none = some (rows.getD 0 dCell) :=
        hsrc 0 (Or.inr ⟨rfl, by omega⟩)
      have hstep : splitLoop ci cell 0 old nw
          = .ok ({ old with
                   leaf_cells := some ((B.set 0 none).set 0 (some (rows.getD 0 dCell))) },
                 nw) := by
        show splitStep ci cell 0 old nw = _
        unfold splitStep
        rw [if_neg hic]
        rw [hB]
        show (match B.getD (if ci < 0 then 0 - 1 else 0) none with
          | none => Except.error panicUnwrapMsg
          | some v =>
            let old := { old with leaf_cells := some (B.set (if ci < 0 then 0 - 1 else 0) none) }
            if SPLIT_LEFT_LEAF_NODE_NUM ≤ 0 then
              Except.ok (old, nw.put_leaf_cell (0 % SPLIT_LEFT_LEAF_NODE_NUM) v)
            else Except.ok (old.put_leaf_cell (0 % SPLIT_LEFT_LEAF_NODE_NUM) v, nw)) = _
        rw [if_neg (by omega : ¬ ci < 0)] at *
        rw [hv]
        show (if SPLIT_LEFT_LEAF_NODE_NUM ≤ 0 then _ else _) = _
        rw [if_neg (by decide : ¬ SPLIT_LEFT_LEAF_NODE_NUM ≤ 0)]
        unfold Node.put_leaf_cell
        rfl
      have hnw : ({ nw with leaf_cells := some C } : Node) = nw := by rw [← hC]
      refine ⟨(B.set 0 none).set 0 (some (rows.getD 0 dCell)), C,
        by rw [hnw]; exact hstep, by simpa using hBlen, hClen, ?_, ?_⟩
      · intro d hd
        by_cases hd0 : d = 0
        · subst hd0
          rw [getD_set_self (B.set 0 none) 0 _ none (by simpa using by omega),
            if_pos (by omega),
            getD_insertIdx rows cell ci 0 (by omega) (by omega)]
          rw [if_pos (by omega)]
        · rw [getD_set_ne (B.set 0 none) 0 d _ none (fun hc => hd0 hc.symm),
            getD_set_ne B 0 d none none (fun hc => hd0 hc.symm),
            if_neg (by omega), if_neg (by omega)]
      · intro d hd
        rw [if_neg (by omega)]
  | i + 1, old, nw, B, C, hi, hB, hBlen, hC, hClen, hsrc => by
    have hi13 : i + 1 ≤ 13 := hi
    have hloop : ∀ o2 n2, splitStep ci cell (i + 1) old nw = .ok (o2, n2) →
        splitLoop ci cell (i + 1) old nw = splitLoop ci cell i o2 n2 := by
      intro o2 n2 hs
      show (match splitStep ci cell (i + 1) old nw with
        | .error e => Except.error e
        | .ok (old, nw) => splitLoop ci cell i old nw) = _
      rw [hs]
    by_cases hic : i + 1 = ci
    · have hMci : (rows.insertIdx ci cell).getD (i + 1) dCell = cell := by
        rw [getD_insertIdx rows cell ci (i + 1) (by omega) (by omega), if_neg (by omega),
          if_pos hic]
      by_cases h7 : 7 ≤ i + 1
      · -- inserted cell goes to the right sibling
        have hdest : (i + 1) % SPLIT_LEFT_LEAF_NODE_NUM = i + 1 - 7 := by
          show (i + 1) % 7 = i + 1 - 7
          omega
        have hstep : splitStep ci cell (i + 1) old nw
            = .ok (old, { nw with leaf_cells := some (C.set (i + 1 - 7) (some cell)) }) := by
          unfold splitStep
          rw [if_pos hic, if_pos (show SPLIT_LEFT_LEAF_NODE_NUM ≤ i + 1 from h7), hdest]
          unfold Node.put_leaf_cell
          rw [hC]
          rfl
        obtain ⟨B2, C2, heq, hB2len, hC2len, hB2, hC2⟩ :=
          splitLoop_spec rows cell ci hrows hci i old
            { nw with leaf_cells := some (C.set (i + 1 - 7) (some cell)) }
            B (C.set (i + 1 - 7) (some cell)) (by omega) hB hBlen rfl
            (by simpa using hClen)
            (fun s hs => hsrc s (Or.inl (by omega)))
        refine ⟨B2, C2, ?_, hB2len, hC2len, ?_, ?_⟩
        · rw [hloop _ _ hstep, heq]
        · intro d hd
          rw [hB2 d hd]
          split_ifs <;> first | rfl | omega
        · intro d hd
          rw [hC2 d hd]
          by_cases hd1 : d + 7 ≤ i
          · rw [if_pos hd1, if_pos (by omega)]
          · rw [if_neg hd1]
            by_cases hd2 : d + 7 = i + 1
            · have hd3 : d = i + 1 - 7 := by omega
              subst hd3
              rw [getD_set_self C (i + 1 - 7) (some cell) none (by omega),
                if_pos (by omega)]
              have h47 : i + 1 - 7 + 7 = i + 1 := by omega
              rw [h47, hMci]
            · rw [getD_set_ne C (i + 1 - 7) d (some cell) none (by omega),
                if_neg (by omega)]
      · -- inserted cell stays in the old node
        have hdest : (i + 1) % SPLIT_LEFT_LEAF_NODE_NUM = i + 1 := by
          show (i + 1) % 7 = i + 1
          omega
        have hstep : splitStep ci cell (i + 1) old nw
            = .ok ({ old with leaf_cells := some (B.set (i + 1) (some cell)) }, nw) := by
          unfold splitStep
          rw [if_pos hic, if_neg (show ¬ SPLIT_LEFT_LEAF_NODE_NUM ≤ i + 1 from h7), hdest]
          unfold Node.put_leaf_cell
          rw [hB]
          rfl
        obtain ⟨B2, C2, heq, hB2len, hC2len, hB2, hC2⟩ :=
          splitLoop_spec rows cell ci hrows hci i
            { old with leaf_cells := some (B.set (i + 1) (some cell)) } nw
            (B.set (i + 1) (some cell)) C (by omega) rfl (by simpa using hBlen) hC hClen
            (fun s hs => by
              rw [getD_set_ne B (i + 1) s (some cell) none (by omega)]
              exact hsrc s (Or.inl (by omega)))
        refine ⟨B2, C2, ?_, hB2len, hC2len, ?_, ?_⟩
        · rw [hloop _ _ hstep, heq]
        · intro d hd
          rw [hB2 d hd]
          by_cases hA : d ≤ i ∧ d < 7
          · rw [if_pos hA, if_pos (by omega)]
          · rw [if_neg hA]
            by_cases hN : d < i ∨ (d = i ∧ i < ci)
            · rw [if_pos hN, if_neg (by omega), if_pos (by omega)]
            · rw [if_neg hN]
              by_cases hE : d = i + 1
              · subst hE
                rw [getD_set_self B (i + 1) (some cell) none (by omega),
                  if_pos (by omega), hMci]
              · rw [getD_set_ne B (i + 1) d (some cell) none (fun hc => hE hc.symm),
                  if_neg (by omega), if_neg (by omega)]
        · intro d hd
          rw [hC2 d hd, if_neg (by omega), if_neg (by omega)]
    · -- the moved cell comes from the old node
      by_cases hci1 : ci < i + 1
      · -- source slot i
        have hread : B.getD i none = some (rows.getD i dCell) :=
          hsrc i (Or.inl (by omega))
        have hMv : (rows.insertIdx ci cell).getD (i + 1) dCell = rows.getD i dCell := by
          rw [getD_insertIdx rows cell ci (i + 1) (by omega) (by omega),
            if_neg (by omega), if_neg (fun hc => hic hc), Nat.add_sub_cancel]
        by_cases h7 : 7 ≤ i + 1
        · have hdest : (i + 1) % SPLIT_LEFT_LEAF_NODE_NUM = i + 1 - 7 := by
            show (i + 1) % 7 = i + 1 - 7
            omega
          have hstep : splitStep ci cell (i + 1) old nw
              = .ok ({ old with leaf_cells := some (B.set i none) }, { nw with leaf_cells := some (C.set (i + 1 - 7) (some (rows.getD i dCell))) }) := by
            unfold splitStep
            rw [if_neg (fun hc => hic hc)]
            simp only [hB]
            rw [if_pos hci1, Nat.add_sub_cancel, hread]
            simp only [if_pos (show SPLIT_LEFT_LEAF_NODE_NUM ≤ i + 1 from h7), hdest,
              Node.put_leaf_cell, hC]
            rfl
          obtain ⟨B2, C2, heq, hB2len, hC2len, hB2, hC2⟩ :=
            splitLoop_spec rows cell ci hrows hci i
              { old with leaf_cells := some (B.set i none) }
              { nw with leaf_cells := some (C.set (i + 1 - 7) (some (rows.getD i dCell))) }
              (B.set i none) (C.set (i + 1 - 7) (some (rows.getD i dCell)))
              (by omega) rfl (by simpa using hBlen) rfl (by simpa using hClen)
              (fun s hs => by
                rw [getD_set_ne B i s none none (by omega)]
                exact hsrc s (Or.inl (by omega)))
          refine ⟨B2, C2, ?_, hB2len, hC2len, ?_, ?_⟩
          · rw [hloop _ _ hstep, heq]
          · intro d hd
            rw [hB2 d hd]
            by_cases hA : d ≤ i ∧ d < 7
            · rw [if_pos hA, if_pos (by omega)]
            · rw [if_neg hA]
              by_cases hN : d < i ∨ (d = i ∧ i < ci)
              · rw [if_pos hN, if_neg (by omega), if_pos (by omega)]
              · rw [if_neg hN]
                by_cases hE : d = i
                · subst hE
                  rw [getD_set_self B d none none (by omega),
                    if_neg (by omega), if_pos (by omega)]
                · rw [getD_set_ne B i d none none (fun hc => hE hc.symm),
                    if_neg (by omega), if_neg (by omega)]
          · intro d hd
            rw [hC2 d hd]
            by_cases hd1 : d + 7 ≤ i
            · rw [if_pos hd1, if_pos (by omega)]
            · rw [if_neg hd1]
              by_cases hd2 : d + 7 = i + 1
              · have hd3 : d = i + 1 - 7 := by omega
                subst hd3
                rw [getD_set_self C (i + 1 - 7) _ none (by omega), if_pos (by omega)]
                have h47 : i + 1 - 7 + 7 = i + 1 := by omega
                rw [h47, hMv]
              · rw [getD_set_ne C (i + 1 - 7) d _ none (by omega), if_neg (by omega)]
        · have hdest : (i + 1) % SPLIT_LEFT_LEAF_NODE_NUM = i + 1 := by
            show (i + 1) % 7 = i + 1
            omega
          have hstep : splitStep ci cell (i + 1) old nw
              = .ok ({ old with leaf_cells := some ((B.set i none).set (i + 1) (some (rows.getD i dCell))) }, nw) := by
            unfold splitStep
            rw [if_neg (fun hc => hic hc)]
            simp only [hB]
            rw [if_pos hci1, Nat.add_sub_cancel, hread]
            simp only [if_neg (show ¬ SPLIT_LEFT_LEAF_NODE_NUM ≤ i + 1 from h7), hdest,
              Node.put_leaf_cell]
            rfl
          obtain ⟨B2, C2, heq, hB2len, hC2len, hB2, hC2⟩ :=
            splitLoop_spec rows cell ci hrows hci i
              { old with leaf_cells := some ((B.set i none).set (i + 1) (some (rows.getD i dCell))) } nw
              ((B.set i none).set (i + 1) (some (rows.getD i dCell))) C
              (by omega) rfl (by simp [hBlen]) hC hClen
              (fun s hs => by
                rw [getD_set_ne (B.set i none) (i + 1) s _ none (by omega),
                  getD_set_ne B i s none none (by omega)]
                exact hsrc s (Or.inl (by omega)))
          refine ⟨B2, C2, ?_, hB2len, hC2len, ?_, ?_⟩
          · rw [hloop _ _ hstep, heq]
          · intro d hd
            rw [hB2 d hd]
            by_cases hA : d ≤ i ∧ d < 7
            · rw [if_pos hA, if_pos (by omega)]
            · rw [if_neg hA]
              by_cases hN : d < i ∨ (d = i ∧ i < ci)
              · rw [if_pos hN, if_neg (by omega), if_pos (by omega)]
              · rw [if_neg hN]
                by_cases hE : d = i + 1
                · subst hE
                  rw [getD_set_self (B.set i none) (i + 1) _ none (by simp [hBlen]; omega),
                    if_pos (by omega), hMv]
                · by_cases hE2 : d = i
                  · subst hE2
                    rw [getD_set_ne (B.set d none) (d + 1) d _ none (by omega),
                      getD_set_self B d none none (by omega),
                      if_neg (by omega), if_pos (by omega)]
                  · rw [getD_set_ne (B.set i none) (i + 1) d _ none (fun hc => hE hc.symm),
                      getD_set_ne B i d none none (fun hc => hE2 hc.symm),
                      if_neg (by omega), if_neg (by omega)]
          · intro d hd
            rw [hC2 d hd, if_neg (by omega), if_neg (by omega)]
      · -- source slot i + 1
        have hgt : i + 1 < ci := by omega
        have hread : B.getD (i + 1) none = some (rows.getD (i + 1) dCell) :=
          hsrc (i + 1) (Or.inr ⟨rfl, hgt⟩)
        have hMv : (rows.insertIdx ci cell).getD (i + 1) dCell
            = rows.getD (i + 1) dCell := by
          rw [getD_insertIdx rows cell ci (i + 1) (by omega) (by omega), if_pos hgt]
        by_cases h7 : 7 ≤ i + 1
        · have hdest : (i + 1) % SPLIT_LEFT_LEAF_NODE_NUM = i + 1 - 7 := by
            show (i + 1) % 7 = i + 1 - 7
            omega
          have hstep : splitStep ci cell (i + 1) old nw
              = .ok ({ old with leaf_cells := some (B.set (i + 1) none) }, { nw with leaf_cells := some (C.set (i + 1 - 7) (some (rows.getD (i + 1) dCell))) }) := by
            unfold splitStep
            rw [if_neg (fun hc => hic hc)]
            simp only [hB]
            rw [if_neg hci1, hread]
            simp only [if_pos (show SPLIT_LEFT_LEAF_NODE_NUM ≤ i + 1 from h7), hdest,
              Node.put_leaf_cell, hC]
            rfl
          obtain ⟨B2, C2, heq, hB2len, hC2len, hB2, hC2⟩ :=
            splitLoop_spec rows cell ci hrows hci i
              { old with leaf_cells := some (B.set (i + 1) none) }
              { nw with leaf_cells := some (C.set (i + 1 - 7) (some (rows.getD (i + 1) dCell))) }
              (B.set (i + 1) none) (C.set (i + 1 - 7) (some (rows.getD (i + 1) dCell)))
              (by omega) rfl (by simpa using hBlen) rfl (by simpa using hClen)
              (fun s hs => by
                rw [getD_set_ne B (i + 1) s none none (by omega)]
                exact hsrc s (Or.inl (by omega)))
          refine ⟨B2, C2, ?_, hB2len, hC2len, ?_, ?_⟩
          · rw [hloop _ _ hstep, heq]
          · intro d hd
            rw [hB2 d hd]
            by_cases hA : d ≤ i ∧ d < 7
            · rw [if_pos hA, if_pos (by omega)]
            · rw [if_neg hA]
              by_cases hN : d < i ∨ (d = i ∧ i < ci)
              · rw [if_pos hN, if_neg (by omega), if_pos (by omega)]
              · rw [if_neg hN]
                by_cases hE : d = i + 1
                · subst hE
                  rw [getD_set_self B (i + 1) none none (by omega),
                    if_neg (by omega), if_pos (by omega)]
                · rw [getD_set_ne B (i + 1) d none none (fun hc => hE hc.symm),
                    if_neg (by omega), if_neg (by omega)]
          · intro d hd
            rw [hC2 d hd]
            by_cases hd1 : d + 7 ≤ i
            · rw [if_pos hd1, if_pos (by omega)]
            · rw [if_neg hd1]
              by_cases hd2 : d + 7 = i + 1
              · have hd3 : d = i + 1 - 7 := by omega
                subst hd3
                rw [getD_set_self C (i + 1 - 7) _ none (by omega), if_pos (by omega)]
                have h47 : i + 1 - 7 + 7 = i + 1 := by omega
                rw [h47, hMv]
              · rw [getD_set_ne C (i + 1 - 7) d _ none (by omega), if_neg (by omega)]
        · have hdest : (i + 1) % SPLIT_LEFT_LEAF_NODE_NUM = i + 1 := by
            show (i + 1) % 7 = i + 1
            omega
          have hstep : splitStep ci cell (i + 1) old nw
              = .ok ({ old with leaf_cells := some ((B.set (i + 1) none).set (i + 1) (some (rows.getD (i + 1) dCell))) }, nw) := by
            unfold splitStep
            rw [if_neg (fun hc => hic hc)]
            simp only [hB]
            rw [if_neg hci1, hread]
            simp only [if_neg (show ¬ SPLIT_LEFT_LEAF_NODE_NUM ≤ i + 1 from h7), hdest,
              Node.put_leaf_cell]
            rfl
          obtain ⟨B2, C2, heq, hB2len, hC2len, hB2, hC2⟩ :=
            splitLoop_spec rows cell ci hrows hci i
              { old with leaf_cells := some ((B.set (i + 1) none).set (i + 1) (some (rows.getD (i + 1) dCell))) } nw
              ((B.set (i + 1) none).set (i + 1) (some (rows.getD (i + 1) dCell))) C
              (by omega) rfl (by simp [hBlen]) hC hClen
              (fun s hs => by
                rw [getD_set_ne (B.set (i + 1) none) (i + 1) s _ none (by omega),
                  getD_set_ne B (i + 1) s none none (by omega)]
                exact hsrc s (Or.inl (by omega)))
          refine ⟨B2, C2, ?_, hB2len, hC2len, ?_, ?_⟩
          · rw [hloop _ _ hstep, heq]
          · intro d hd
            rw [hB2 d hd]
            by_cases hA : d ≤ i ∧ d < 7
            · rw [if_pos hA, if_pos (by omega)]
            · rw [if_neg hA]
              by_cases hN : d < i ∨ (d = i ∧ i < ci)
              · rw [if_pos hN, if_neg (by omega), if_pos (by omega)]
              · rw [if_neg hN]
                by_cases hE : d = i + 1
                · subst hE
                  rw [getD_set_self (B.set (i + 1) none) (i + 1) _ none
                      (by simp [hBlen]; omega),
                    if_pos (by omega), hMv]
                · rw [getD_set_ne (B.set (i + 1) none) (i + 1) d _ none
                      (fun hc => hE hc.symm),
                    getD_set_ne B (i + 1) d none none (fun hc => hE hc.symm),
                    if_neg (by omega), if_neg (by omega)]
          · intro d hd
            rw [hC2 d hd, if_neg (by omega), if_neg (by omega)]

lemma get_page_blank (p : Pager) (i : Nat) (hi : i < PAGE_MAX_NUM)
    (hn : p.pages.getD i none = none) (hnp : p.n_pages ≤ i) :
    p.get_page i = (.ok blankLeafNode,
      { p with n_pages := i + 1, pages := p.pages.set i (some blankLeafNode) }) := by
  simp only [Pager.get_page, if_neg (Nat.not_le.mpr hi), hn, if_neg (Nat.not_lt.mpr hnp)]

lemma getPage_blank (t : Table) (i : Nat) (hi : i < PAGE_MAX_NUM)
    (hn : t.pager.pages.getD i none = none) (hnp : t.pager.n_pages ≤ i) :
    t.getPage i = .ok blankLeafNode
      { t with pager := { t.pager with n_pages := i + 1, pages := t.pager.pages.set i (some blankLeafNode) } } := by
  unfold Table.getPage
  rw [get_page_blank t.pager i hi hn hnp]

lemma list_set_cons0 {α : Type} (a x : α) (l : List α) : (a :: l).set 0 x = x :: l := rfl

lemma list_set_cons1 {α : Type} (a x : α) (l : List α) : (a :: l).set 1 x = a :: l.set 0 x := rfl

lemma list_set_cons2 {α : Type} (a x : α) (l : List α) : (a :: l).set 2 x = a :: l.set 1 x := rfl

lemma list_getD_cons0 {α : Type} (a : α) (l : List α) (d : α) : (a :: l).getD 0 d = a := rfl

set_option maxHeartbeats 1000000 in
lemma write_leaf_cell_split (f : List Nat) (rparent : Int) (rows : List LeafCell)
    (cell : LeafCell) (ci : Nat) (eot : Bool)
    (hlen : rows.length = LEAF_NODE_CELL_MAX_NUM) (hci : ci ≤ LEAF_NODE_CELL_MAX_NUM) :
    Cursor.write_leaf_cell ⟨0, ci, eot⟩ cell
      { root_node_index := 0
        pager :=
          { file := f
            n_pages := 1
            pages := some
              { kind := .leaf
                is_root := true
                parent := rparent
                n_cells := 13
                leaf_cells := some (fillCells rows LEAF_NODE_CELL_MAX_NUM)
                right_child := none
                internal_cells := none } :: List.replicate 63 none } }
    = .ok ()
      { root_node_index := 0
        pager :=
          { file := f
            n_pages := 3
            pages :=
              some { kind := .internal
                     is_root := true
                     parent := rparent
                     n_cells := 1
                     leaf_cells := none
                     right_child := some 1
                     internal_cells := some (fillCells
                       [{ child := 2
                          key := ((rows.insertIdx ci cell).getD 6 dCell).key }]
                       INTERNAL_NODE_CELL_MAX_NUM) } ::
              some { kind := .leaf
                     is_root := false
                     parent := 0
                     n_cells := 7
                     leaf_cells := some
                       (fillCells ((rows.insertIdx ci cell).drop 7) LEAF_NODE_CELL_MAX_NUM)
                     right_child := none
                     internal_cells := none } ::
              some { kind := .leaf
                     is_root := false
                     parent := 0
                     n_cells := 7
                     leaf_cells := some
                       (fillCells ((rows.insertIdx ci cell).take 7) LEAF_NODE_CELL_MAX_NUM)
                     right_child := none
                     internal_cells := none } ::
              List.replicate 61 none } } := by
  have hlen13 : rows.length = 13 := hlen
  have hci13 : ci ≤ 13 := hci
  have hlen14 : (rows.insertIdx ci cell).length = rows.length + 1 :=
    List.length_insertIdx ci rows (by omega)
  obtain ⟨B2, C2, hLoopEq, hB2len, hC2len, hB2, hC2⟩ :=
    splitLoop_spec rows cell ci hlen13 hci13 13
      { kind := .leaf, is_root := true, parent := rparent, n_cells := 13, leaf_cells := some (fillCells rows 13), right_child := none, internal_cells := none }
      { kind := .leaf, is_root := false, parent := -1, n_cells := 0, leaf_cells := some (List.replicate 13 none), right_child := none, internal_cells := none }
      (fillCells rows 13) (List.replicate 13 none)
      (by omega) rfl (by rw [fillCells_length rows 13 (by omega)]) rfl (by simp)
      (fun s hs => getD_fill_lt rows 13 s dCell (by omega))
  obtain ⟨B3, L3, hCopyEq, hB3len, hL3len, hB3, hL3⟩ :=
    copyLoop_spec 7 0 B2 (List.replicate 13 none)
      (by simp)
      (fun s h0 hs7 => ⟨(rows.insertIdx ci cell).getD s dCell, by
        rw [hB2 s (by omega), if_pos (by omega)]⟩)
  have hL3len13 : L3.length = 13 := by rw [hL3len]; simp
  have hL3eq : L3 = fillCells ((rows.insertIdx ci cell).take 7) 13 := by
    apply list_eq_of_getD none
    · rw [hL3len13, fillCells_length _ 13 (by rw [List.length_take]; omega)]
    · intro j hj
      rw [hL3len13] at hj
      rw [hL3 j]
      by_cases hj7 : j < 7
      · rw [if_pos (by omega : 0 ≤ j ∧ j < 0 + 7), hB2 j (by omega), if_pos (by omega),
          getD_fill_lt ((rows.insertIdx ci cell).take 7) 13 j dCell
            (by rw [List.length_take]; omega),
          getD_take_lt _ 7 j dCell hj7]
      · rw [if_neg (by omega), getD_replicate_none 13 j,
          getD_fill_ge _ 13 j (by rw [List.length_take]; omega)]
  have hC2eq : C2 = fillCells ((rows.insertIdx ci cell).drop 7) 13 := by
    apply list_eq_of_getD none
    · rw [hC2len, fillCells_length _ 13 (by rw [List.length_drop]; omega)]
    · intro j hj
      rw [hC2len] at hj
      rw [hC2 j hj]
      by_cases hj7 : j + 7 ≤ 13
      · rw [if_pos hj7,
          getD_fill_lt ((rows.insertIdx ci cell).drop 7) 13 j dCell
            (by rw [List.length_drop]; omega),
          getD_drop]
        have hc : j + 7 = 7 + j := by omega
        rw [hc]
      · rw [if_neg hj7, getD_replicate_none 13 j,
          getD_fill_ge _ 13 j (by rw [List.length_drop]; omega)]
  have hL36 : L3.getD 6 none = some ((rows.insertIdx ci cell).getD 6 dCell) := by
    rw [hL3 6, if_pos (by omega), hB2 6 (by omega), if_pos (by omega)]
  have hpg0 : ({ root_node_index := 0, pager := { file := f, n_pages := 1, pages := some { kind := .leaf, is_root := true, parent := rparent, n_cells := 13, leaf_cells := some (fillCells rows 13), right_child := none, internal_cells := none } :: List.replicate 63 none } } : Table).getPage 0 = .ok { kind := .leaf, is_root := true, parent := rparent, n_cells := 13, leaf_cells := some (fillCells rows 13), right_child := none, internal_cells := none } { root_node_index := 0, pager := { file := f, n_pages := 1, pages := some { kind := .leaf, is_root := true, parent := rparent, n_cells := 13, leaf_cells := some (fillCells rows 13), right_child := none, internal_cells := none } :: List.replicate 63 none } } :=
    getPage_cached _ 0 _ (by decide) rfl
  have hpg1 : ({ root_node_index := 0, pager := { file := f, n_pages := 1, pages := some { kind := .leaf, is_root := true, parent := rparent, n_cells := 13, leaf_cells := some (fillCells rows 13), right_child := none, internal_cells := none } :: List.replicate 63 none } } : Table).getPage 1 = .ok blankLeafNode { root_node_index := 0, pager := { file := f, n_pages := 2, pages := some { kind := .leaf, is_root := true, parent := rparent, n_cells := 13, leaf_cells := some (fillCells rows 13), right_child := none, internal_cells := none } :: some { kind := .leaf, is_root := false, parent := -1, n_cells := 0, leaf_cells := none, right_child := none, internal_cells := none } :: List.replicate 62 none } } := by
    rw [getPage_blank ({ root_node_index := 0, pager := { file := f, n_pages := 1, pages := some { kind := .leaf, is_root := true, parent := rparent, n_cells := 13, leaf_cells := some (fillCells rows 13), right_child := none, internal_cells := none } :: List.replicate 63 none } }) 1 (by decide) rfl (Nat.le_refl 1)]
    rfl
  have hpg2 : ({ root_node_index := 0, pager := { file := f, n_pages := 2, pages := some { kind := .leaf, is_root := true, parent := rparent, n_cells := 7, leaf_cells := some B2, right_child := none, internal_cells := none } :: some { kind := .leaf, is_root := false, parent := 0, n_cells := 7, leaf_cells := some C2, right_child := none, internal_cells := none } :: List.replicate 62 none } } : Table).getPage 2 = .ok blankLeafNode { root_node_index := 0, pager := { file := f, n_pages := 3, pages := some { kind := .leaf, is_root := true, parent := rparent, n_cells := 7, leaf_cells := some B2, right_child := none, internal_cells := none } :: some { kind := .leaf, is_root := false, parent := 0, n_cells := 7, leaf_cells := some C2, right_child := none, internal_cells := none } :: some { kind := .leaf, is_root := false, parent := -1, n_cells := 0, leaf_cells := none, right_child := none, internal_cells := none } :: List.replicate 61 none } } := by
    rw [getPage_blank ({ root_node_index := 0, pager := { file := f, n_pages := 2, pages := some { kind := .leaf, is_root := true, parent := rparent, n_cells := 7, leaf_cells := some B2, right_child := none, internal_cells := none } :: some { kind := .leaf, is_root := false, parent := 0, n_cells := 7, leaf_cells := some C2, right_child := none, internal_cells := none } :: List.replicate 62 none } }) 2 (by decide) rfl (Nat.le_refl 2)]
    rfl
  have hMax : Node.get_max_key { kind := .leaf, is_root := false, parent := 0, n_cells := 7, leaf_cells := some L3, right_child := none, internal_cells := none } = .ok ((rows.insertIdx ci cell).getD 6 dCell).key := by
    simp only [Node.get_max_key, Node.get_n_cells, Node.read_leaf_cell,
      eq_false (by decide : ¬ (7:Nat) = 0), if_false, Option.getD_some,
      show (7:Nat) - 1 = 6 from rfl, hL36]
  have hICfill : (List.replicate 340 (none : Option InternalCell)).set 0 (some { child := 2, key := ((rows.insertIdx ci cell).getD 6 dCell).key }) = fillCells [{ child := 2, key := ((rows.insertIdx ci cell).getD 6 dCell).key }] 340 := rfl
  simp only [Cursor.write_leaf_cell, Node.get_n_cells, Pager.get_new_page_index,
    Table.setPage, Pager.setPage, Res.bind, Node.become_leaf_node,
    Node.become_internal_node, blankLeafNode,
    show LEAF_NODE_CELL_MAX_NUM = 13 from rfl,
    show INTERNAL_NODE_CELL_MAX_NUM = 340 from rfl,
    show SPLIT_LEFT_LEAF_NODE_NUM = 7 from rfl,
    show SPLIT_RIGHT_LEAF_NODE_NUM = 7 from rfl,
    show NOT_EXIST = (-1 : Int) from rfl]
  simp only [hpg0, show ((13:Nat) < 13) = False from eq_false (by decide), if_false]
  simp only [hpg1, blankLeafNode, show NOT_EXIST = (-1 : Int) from rfl,
    list_set_cons0, list_set_cons1, list_set_cons2, list_getD_cons0,
    hLoopEq, eq_self_iff_true, if_true, Nat.cast_zero, Nat.cast_one, Nat.cast_ofNat,
    show (1:Nat) + 1 = 2 from rfl]
  simp only [hpg2, blankLeafNode, show NOT_EXIST = (-1 : Int) from rfl,
    list_set_cons0, list_set_cons1, list_set_cons2, list_getD_cons0,
    hCopyEq, hMax, Option.map_some', Nat.cast_zero, Nat.cast_one, Nat.cast_ofNat,
    show (2:Nat) + 1 = 3 from rfl, hICfill, eq_self_iff_true, if_true]
  rw [hC2eq, hL3eq]

/-! ### Insert sequences, the root split, and row scans -/


lemma getLast_map_key7 (l : List LeafCell) (h : l.length = 7) :
    (l.map (fun c => c.key)).getLast? = some ((l.getD 6 dCell).key) := by
  have hm : (l.map (fun c => c.key)).getLast?
      = (l.map (fun c => c.key))[(l.map (fun c => c.key)).length - 1]? :=
    List.getLast?_eq_getElem? _
  rw [hm, List.length_map, h, List.getElem?_map,
    show (7 : Nat) - 1 = 6 from rfl,
    List.getElem?_eq_getElem (show 6 < l.length by omega),
    getD_eq_getElem l 6 dCell (by omega)]
  rfl

lemma insert_shapeA_full (t : Table) (root : Node) (rows : List LeafCell)
    (inp : Int × List Nat × List Nat)
    (h : ShapeA t root rows) (hv : ValidInput inp)
    (hnk : ∀ c ∈ rows, c.key ≠ inp.1)
    (hfull : rows.length = LEAF_NODE_CELL_MAX_NUM) :
    ∃ t' root' rightN leftN,
      Table.insert t inp.1 inp.2.1 inp.2.2 = .ok () t' ∧
      ShapeB t' root' rightN leftN
        ((rows.insertIdx (rows.countP (fun c => decide (c.key < inp.1)))
            (mkCellOf inp)).drop 7)
        ((rows.insertIdx (rows.countP (fun c => decide (c.key < inp.1)))
            (mkCellOf inp)).take 7)
        (((rows.insertIdx (rows.countP (fun c => decide (c.key < inp.1)))
            (mkCellOf inp)).getD 6 dCell).key) := by
  obtain ⟨h0, hfile, hnp, hpages, habs, hroot, hpar, hsort, hwf⟩ := h
  obtain ⟨hid, hid2, hname, hnb, hdesc, hdb⟩ := hv
  have hgd : t.pager.pages.getD 0 none = some root := by rw [hpages]; rfl
  set lb := rows.countP (fun c => decide (c.key < inp.1)) with hlb
  have hlble : lb ≤ rows.length := lb_le_length rows inp.1
  set cell := mkCellOf inp with hcell
  set M := rows.insertIdx lb cell with hM
  have hM14 : M.length = rows.length + 1 := List.length_insertIdx lb rows hlble
  have hMsort : RowsSortedLt M := sorted_insert_countP cell rows hsort
    (fun c hc => by rw [hcell]; exact hnk c hc)
  have hMwf : RowsWf M := rowsWf_insertIdx rows cell lb hlble hwf
    (mkCellOf_wf inp ⟨hid, hid2, hname, hnb, hdesc, hdb⟩)
  have hfull13 : rows.length = 13 := hfull
  have hsplit := write_leaf_cell_split [] NOT_EXIST rows cell lb
    (decide (lb = rows.length)) hfull (le_of_le_of_eq hlble hfull)
  have ht : t = ({ root_node_index := 0, pager := { file := [], n_pages := 1, pages := some { kind := .leaf, is_root := true, parent := NOT_EXIST, n_cells := 13, leaf_cells := some (fillCells rows LEAF_NODE_CELL_MAX_NUM), right_child := none, internal_cells := none } :: List.replicate 63 none } } : Table) := by
    obtain ⟨hk, hlc, hnc, hle, hrc, hic⟩ := habs
    have hroot13 : root = ({ kind := .leaf, is_root := true, parent := NOT_EXIST, n_cells := 13, leaf_cells := some (fillCells rows LEAF_NODE_CELL_MAX_NUM), right_child := none, internal_cells := none } : Node) := by
      rcases root with ⟨k, ir, par, nc, lc, rc, ic⟩
      simp only at hk hlc hnc hrc hic hroot hpar
      rw [hfull13] at hnc
      subst hk hlc hrc hic hroot hpar hnc
      rfl
    rcases t with ⟨rni, fl, np, pgs⟩
    simp only at h0 hfile hnp hpages
    subst h0 hfile hnp hpages
    rw [hroot13]
  have hwr : Cursor.write_leaf_cell ⟨0, lb, decide (lb = rows.length)⟩ cell t
      = .ok () ({ root_node_index := 0, pager := { file := [], n_pages := 3, pages := some { kind := .internal, is_root := true, parent := NOT_EXIST, n_cells := 1, leaf_cells := none, right_child := some 1, internal_cells := some (fillCells [{ child := 2, key := ((rows.insertIdx lb cell).getD 6 dCell).key }] INTERNAL_NODE_CELL_MAX_NUM) } :: some { kind := .leaf, is_root := false, parent := 0, n_cells := 7, leaf_cells := some (fillCells ((rows.insertIdx lb cell).drop 7) LEAF_NODE_CELL_MAX_NUM), right_child := none, internal_cells := none } :: some { kind := .leaf, is_root := false, parent := 0, n_cells := 7, leaf_cells := some (fillCells ((rows.insertIdx lb cell).take 7) LEAF_NODE_CELL_MAX_NUM), right_child := none, internal_cells := none } :: List.replicate 61 none } } : Table) := by
    rw [ht]
    exact hsplit
  have hmain : Table.insert t inp.1 inp.2.1 inp.2.2 = .ok () ({ root_node_index := 0, pager := { file := [], n_pages := 3, pages := some { kind := .internal, is_root := true, parent := NOT_EXIST, n_cells := 1, leaf_cells := none, right_child := some 1, internal_cells := some (fillCells [{ child := 2, key := ((rows.insertIdx lb cell).getD 6 dCell).key }] INTERNAL_NODE_CELL_MAX_NUM) } :: some { kind := .leaf, is_root := false, parent := 0, n_cells := 7, leaf_cells := some (fillCells ((rows.insertIdx lb cell).drop 7) LEAF_NODE_CELL_MAX_NUM), right_child := none, internal_cells := none } :: some { kind := .leaf, is_root := false, parent := 0, n_cells := 7, leaf_cells := some (fillCells ((rows.insertIdx lb cell).take 7) LEAF_NODE_CELL_MAX_NUM), right_child := none, internal_cells := none } :: List.replicate 61 none } } : Table) := by
    unfold Table.insert
    rw [if_neg (by omega : ¬ inp.1 ≤ 0), if_neg (not_lt.mpr hname),
      if_neg (not_lt.mpr hdesc), h0, getPage_cached t 0 root (by decide) hgd]
    show Res.bind (Cursor.fromKey t inp.1) _ = _
    rw [fromKey_leaf_root t root inp.1 h0 hgd habs.1,
      from_leaf_node_absent t 0 root rows inp.1 (by decide) hgd habs
        (rowsSortedLt_le _ hsort) hnk]
    show (if lb < root.get_n_cells then _ else _) = _
    by_cases hcase : lb < rows.length
    · rw [if_pos (by rw [Node.get_n_cells, habs.2.2.1]; exact hcase)]
      show Res.bind (Cursor.read_leaf_cell _ t) _ = _
      unfold Cursor.read_leaf_cell
      rw [getPage_cached t 0 root (by decide) hgd]
      show (match root.read_leaf_cell lb with
        | none => Res.fatal panicUnwrapMsg t
        | some c => _) = _
      rw [leafAbs_read_lt root rows habs lb hcase]
      show (if inp.1 = (rows.getD lb dCell).key then _ else _) = _
      rw [if_neg (fun he => hnk _ (getD_mem rows lb dCell hcase) he.symm)]
      exact hwr
    · rw [if_neg (by rw [Node.get_n_cells, habs.2.2.1]; exact hcase)]
      exact hwr
  have hMle : RowsSortedLe M := rowsSortedLt_le M hMsort
  have htake7 : (M.take 7).length = 7 := by
    rw [List.length_take]; omega
  have hdrop7 : (M.drop 7).length = 7 := by
    rw [List.length_drop]; omega
  have hLEAF : LEAF_NODE_CELL_MAX_NUM = 13 := rfl
  refine ⟨_, _, _, _, hmain, rfl, rfl, rfl, rfl, rfl, rfl, rfl, rfl, rfl, rfl, rfl,
    ?_, rfl, rfl, ?_, rfl, rfl, ?_, ?_, ?_, ?_, ?_, ?_, ?_, ?_, ?_⟩
  · exact ⟨rfl, rfl, by rw [hdrop7], by rw [hdrop7, hLEAF]; omega, rfl, rfl⟩
  · exact ⟨rfl, rfl, by rw [htake7], by rw [htake7, hLEAF]; omega, rfl, rfl⟩
  · rw [htake7]; omega
  · rw [hdrop7]; omega
  · exact List.Pairwise.sublist (List.take_sublist 7 M) hMle
  · exact List.Pairwise.sublist (List.drop_sublist 7 M) hMle
  · exact fun c hc => hMwf c (List.mem_of_mem_take hc)
  · exact fun c hc => hMwf c (List.mem_of_mem_drop hc)
  · intro c hc
    obtain ⟨j, hj, hgd⟩ := mem_getD _ c dCell hc
    rw [htake7] at hj
    rw [← hgd, getD_take_lt M 7 j dCell hj]
    exact pairwise_le_getD M hMle j 6 (by omega) (by omega)
  · intro c hc
    obtain ⟨j, hj, hgd⟩ := mem_getD _ c dCell hc
    rw [hdrop7] at hj
    rw [← hgd, getD_drop M 7 j dCell]
    exact pairwise_lt_getD M hMsort 6 (7 + j) (by omega) (by omega)
  · rw [getLast_map_key7 (M.take 7) htake7, getD_take_lt M 7 6 dCell (by omega)]

lemma mkCellOf_key (i : Int × List Nat × List Nat) : (mkCellOf i).key = i.1 := rfl

lemma insertAll_shapeA : ∀ (inps : List (Int × List Nat × List Nat))
    (t : Table) (root : Node) (rows : List LeafCell),
    ShapeA t root rows →
    (∀ i ∈ inps, ValidInput i) →
    (∀ i ∈ inps, ∀ c ∈ rows, c.key ≠ i.1) →
    inps.Pairwise (fun a b => a.1 ≠ b.1) →
    rows.length + inps.length ≤ LEAF_NODE_CELL_MAX_NUM →
    ∃ t' root' rows', insertAll t inps = .ok () t' ∧ ShapeA t' root' rows' ∧
      rows'.Perm (rows ++ inps.map mkCellOf)
  | [], t, root, rows, h, _, _, _, _ =>
    ⟨t, root, rows, rfl, h, by simp⟩
  | i :: is, t, root, rows, h, hv, hnk, hdist, hlen => by
    have hLEAF : LEAF_NODE_CELL_MAX_NUM = 13 := rfl
    obtain ⟨t1, root1, heq, h1⟩ := insert_shapeA_new t root rows i h
      (hv i (List.mem_cons_self i is)) (fun c hc => hnk i (List.mem_cons_self i is) c hc)
      (by simp at hlen ⊢; omega)
    set lb := rows.countP (fun c => decide (c.key < i.1)) with hlb
    have hlble : lb ≤ rows.length := lb_le_length rows i.1
    have hperm1 : (rows.insertIdx lb (mkCellOf i)).Perm (mkCellOf i :: rows) :=
      insertIdx_perm rows lb (mkCellOf i) hlble
    have hstep : insertAll t ((i :: is) : List (Int × List Nat × List Nat))
        = insertAll t1 is := by
      show (match Table.insert t i.1 i.2.1 i.2.2 with
        | .ok _ t => insertAll t is
        | .err e t => .err e t
        | .fatal e t => .fatal e t) = _
      rw [heq]
    obtain ⟨t', root', rows', heq', h', hperm'⟩ :=
      insertAll_shapeA is t1 root1 (rows.insertIdx lb (mkCellOf i)) h1
        (fun j hj => hv j (List.mem_cons_of_mem i hj))
        (fun j hj c hc => by
          rcases List.mem_cons.mp ((hperm1.mem_iff).mp hc) with hc1 | hc2
          · rw [hc1, mkCellOf_key]
            exact (List.pairwise_cons.mp hdist).1 j hj
          · exact hnk j (List.mem_cons_of_mem i hj) c hc2)
        (List.pairwise_cons.mp hdist).2
        (by
          rw [List.length_insertIdx lb rows hlble]
          simp at hlen ⊢
          omega)
    refine ⟨t', root', rows', by rw [hstep, heq'], h', ?_⟩
    show rows'.Perm (rows ++ (mkCellOf i :: is.map mkCellOf))
    exact hperm'.trans ((hperm1.append_right (is.map mkCellOf)).trans
      (by rw [List.cons_append]; exact List.perm_middle.symm))

lemma shapeA_fresh : ShapeA freshTable
    { kind := .leaf, is_root := true, parent := NOT_EXIST, n_cells := 0,
      leaf_cells := some (fillCells [] LEAF_NODE_CELL_MAX_NUM),
      right_child := none, internal_cells := none } [] := by
  refine ⟨rfl, rfl, rfl, rfl, ⟨rfl, rfl, rfl, by decide, rfl, rfl⟩, rfl, rfl,
    List.Pairwise.nil, fun c hc => absurd hc (List.not_mem_nil c)⟩

lemma insertAll_append : ∀ (l1 l2 : List (Int × List Nat × List Nat))
    (t t1 : Table), insertAll t l1 = .ok () t1 →
    insertAll t (l1 ++ l2) = insertAll t1 l2
  | [], l2, t, t1, h => by
    injection h with h1 h2
    rw [h2]
    rfl
  | a :: l1, l2, t, t1, h => by
    have hun : ∀ (u : Table) (l : List (Int × List Nat × List Nat)),
        insertAll u (a :: l) = (match Table.insert u a.1 a.2.1 a.2.2 with
          | .ok _ u => insertAll u l
          | .err e u => .err e u
          | .fatal e u => .fatal e u) := fun u l => rfl
    rcases hres : Table.insert t a.1 a.2.1 a.2.2 with ⟨v, t2⟩ | ⟨e, t2⟩ | ⟨e, t2⟩
    · rw [hun t l1, hres] at h
      rw [List.cons_append, hun t (l1 ++ l2), hres]
      exact insertAll_append l1 l2 t2 t1 h
    · rw [hun t l1, hres] at h
      exact absurd h (by simp)
    · rw [hun t l1, hres] at h
      exact absurd h (by simp)

lemma insertAll14_shapeB (inps : List (Int × List Nat × List Nat))
    (h14 : inps.length = 14)
    (hv : ∀ i ∈ inps, ValidInput i)
    (hdist : inps.Pairwise (fun a b => a.1 ≠ b.1)) :
    ∃ t' root rightN leftN rightRows leftRows sep,
      insertAll freshTable inps = .ok () t' ∧
      ShapeB t' root rightN leftN rightRows leftRows sep ∧
      leftRows.length = 7 ∧ rightRows.length = 7 ∧
      (leftRows ++ rightRows).Perm (inps.map mkCellOf) := by
  have hne : inps ≠ [] := by
    intro he
    rw [he] at h14
    exact absurd h14 (by decide)
  set l13 := inps.dropLast with hl13
  set i14 := inps.getLast hne with hi14
  have hsplit14 : l13 ++ [i14] = inps := List.dropLast_append_getLast hne
  have hlen13 : l13.length = 13 := by
    rw [hl13, List.length_dropLast, h14]
  have hsubl : l13.Sublist inps := by rw [hl13]; exact List.dropLast_sublist inps
  have hcross : ∀ j ∈ l13, j.1 ≠ i14.1 := by
    have hd : (l13 ++ [i14]).Pairwise (fun a b => a.1 ≠ b.1) := by
      rw [hsplit14]; exact hdist
    intro j hj
    exact (List.pairwise_append.mp hd).2.2 j hj i14 (List.mem_singleton_self i14)
  obtain ⟨t13, root13, rows13, heq13, h13, hperm13⟩ :=
    insertAll_shapeA l13 freshTable _ [] shapeA_fresh
      (fun i hi => hv i (hsubl.mem hi))
      (fun i _ c hc => absurd hc (List.not_mem_nil c))
      (hdist.sublist hsubl)
      (by rw [hlen13]; decide)
  have hperm13' : rows13.Perm (l13.map mkCellOf) := by
    rw [List.nil_append] at hperm13
    exact hperm13
  have hrows13len : rows13.length = 13 := by
    rw [hperm13'.length_eq, List.length_map, hlen13]
  obtain ⟨t', root', rightN, leftN, heq14, hB⟩ :=
    insert_shapeA_full t13 root13 rows13 i14 h13 (hv i14 (List.getLast_mem hne))
      (fun c hc => by
        obtain ⟨j, hj, hje⟩ := List.mem_map.mp (hperm13'.mem_iff.mp hc)
        rw [← hje, mkCellOf_key]
        exact hcross j hj)
      (hrows13len.trans (by decide))
  set lb := rows13.countP (fun c => decide (c.key < i14.1)) with hlb
  set M := rows13.insertIdx lb (mkCellOf i14) with hM
  have hlble : lb ≤ rows13.length := lb_le_length rows13 i14.1
  have hM14 : M.length = 14 := by
    rw [hM, List.length_insertIdx lb rows13 hlble, hrows13len]
  have hall : insertAll freshTable inps = .ok () t' := by
    rw [← hsplit14, insertAll_append l13 [i14] freshTable t13 heq13]
    show (match Table.insert t13 i14.1 i14.2.1 i14.2.2 with
      | .ok _ u => insertAll u []
      | .err e u => .err e u
      | .fatal e u => .fatal e u) = _
    rw [heq14]
    rfl
  refine ⟨t', root', rightN, leftN, M.drop 7, M.take 7, (M.getD 6 dCell).key,
    hall, hB, ?_, ?_, ?_⟩
  · rw [List.length_take, hM14]
    decide
  · rw [List.length_drop, hM14]
  · have h1 : (M.take 7 ++ M.drop 7).Perm (mkCellOf i14 :: rows13) := by
      rw [List.take_append_drop]
      exact insertIdx_perm rows13 lb (mkCellOf i14) hlble
    have h2 : (mkCellOf i14 :: rows13).Perm (mkCellOf i14 :: l13.map mkCellOf) :=
      hperm13'.cons (mkCellOf i14)
    have h3 : (mkCellOf i14 :: l13.map mkCellOf).Perm (inps.map mkCellOf) := by
      rw [← hsplit14, List.map_append]
      exact (List.perm_append_singleton (mkCellOf i14) (l13.map mkCellOf)).symm
    exact (h1.trans h2).trans h3

/-- Claim C3: inserting a 14th row (distinct positive keys, valid sizes) into a
fresh table performs the first root split: page 0 becomes an internal node with
one cell whose key is the left child's maximum key, pages 1 and 2 are leaves
of 7 cells each, and the 14 leaf cells are exactly the 14 inserted rows. -/
theorem root_split_on_14th_insert (inps : List (Int × List Nat × List Nat))
    (h14 : inps.length = 14)
    (hv : ∀ i ∈ inps, ValidInput i)
    (hdist : inps.Pairwise (fun a b => a.1 ≠ b.1)) :
    ∃ t' root rightN leftN rightRows leftRows sep,
      insertAll freshTable inps = .ok () t' ∧
      t'.pager.pages = some root :: some rightN :: some leftN ::
        List.replicate 61 none ∧
      root.kind = .internal ∧ root.n_cells = 1 ∧
      root.internal_cells
        = some (fillCells [{ child := 2, key := sep }] INTERNAL_NODE_CELL_MAX_NUM) ∧
      LeafAbs rightN rightRows ∧ LeafAbs leftN leftRows ∧
      leftRows.length = 7 ∧ rightRows.length = 7 ∧
      (∀ c ∈ leftRows, c.key ≤ sep) ∧ (∀ c ∈ rightRows, sep < c.key) ∧
      (leftRows.map (fun c => c.key)).getLast? = some sep ∧
      (leftRows ++ rightRows).Perm (inps.map mkCellOf) := by
  obtain ⟨t', root, rightN, leftN, rightRows, leftRows, sep, hall, hB, hl7, hr7, hperm⟩ :=
    insertAll14_shapeB inps h14 hv hdist
  obtain ⟨hB1, hB2, hB3, hB4, hB5, hB6, hB7, hB8, hB9, hB10, hB11, hB12, hB13,
    hB14, hB15, hB16, hB17, hB18, hB19, hB20, hB21, hB22, hB23, hB24, hB25⟩ := hB
  exact ⟨t', root, rightN, leftN, rightRows, leftRows, sep, hall, hB4, hB5, hB8,
    hB11, hB12, hB15, hl7, hr7, hB24, hB25.1, hB25.2, hperm⟩

def inps14 : List (Int × List Nat × List Nat) :=
  [(1, [], []), (2, [], []), (3, [], []), (4, [], []), (5, [], []), (6, [], []),
   (7, [], []), (8, [], []), (9, [], []), (10, [], []), (11, [], []), (12, [], []),
   (13, [], []), (14, [], [])]

/-- Witness for the C3 theorem at the concrete inputs 1..14. -/
theorem root_split_on_14th_insert_witness :
    inps14.length = 14 ∧ (∀ i ∈ inps14, ValidInput i) ∧
    inps14.Pairwise (fun a b => a.1 ≠ b.1) ∧
    (∃ t' root rightN leftN rightRows leftRows sep,
      insertAll freshTable inps14 = .ok () t' ∧
      t'.pager.pages = some root :: some rightN :: some leftN ::
        List.replicate 61 none ∧
      root.kind = .internal ∧ root.n_cells = 1 ∧
      root.internal_cells
        = some (fillCells [{ child := 2, key := sep }] INTERNAL_NODE_CELL_MAX_NUM) ∧
      LeafAbs rightN rightRows ∧ LeafAbs leftN leftRows ∧
      leftRows.length = 7 ∧ rightRows.length = 7 ∧
      (∀ c ∈ leftRows, c.key ≤ sep) ∧ (∀ c ∈ rightRows, sep < c.key) ∧
      (leftRows.map (fun c => c.key)).getLast? = some sep ∧
      (leftRows ++ rightRows).Perm (inps14.map mkCellOf)) :=
  ⟨rfl, by simp only [ValidInput]; decide, by decide,
    root_split_on_14th_insert inps14 rfl (by simp only [ValidInput]; decide) (by decide)⟩

lemma drop_succ_getD {α : Type} : ∀ (l : List α) (i : Nat) (d : α), i < l.length →
    l.drop i = l.getD i d :: l.drop (i + 1)
  | [], i, d, h => by simp at h
  | a :: l, 0, d, _ => by simp [List.getD]
  | a :: l, i + 1, d, h => by
    show l.drop i = _
    rw [drop_succ_getD l i d (by simpa using h)]
    rfl

lemma selectLoop_leaf (t : Table) (root : Node) (rows : List LeafCell)
    (hgd : t.pager.pages.getD 0 none = some root) (habs : LeafAbs root rows) :
    ∀ (k i : Nat) (acc : List LeafCell), rows.length + 1 = i + k → i ≤ rows.length →
    selectLoop k { page_index := 0, cell_index := i, end_of_table := decide (rows.length ≤ i) } t acc
      = .ok (acc.reverse ++ rows.drop i) t := by
  intro k
  induction k with
  | zero => intro i acc hk hi; omega
  | succ k ih =>
    intro i acc hk hi
    by_cases he : rows.length ≤ i
    · have hie : i = rows.length := by omega
      show (if decide (rows.length ≤ i) = true then Res.ok acc.reverse t else _) = _
      rw [if_pos (by simpa using he), List.drop_eq_nil_of_le (by omega), List.append_nil]
    · have hilt : i < rows.length := by omega
      show (if decide (rows.length ≤ i) = true then _ else _) = _
      rw [if_neg (by simpa using he)]
      show Res.bind (Res.toFatal (Cursor.read_leaf_cell _ t)) _ = _
      unfold Cursor.read_leaf_cell
      rw [getPage_cached t 0 root (by decide) hgd]
      show Res.bind (Res.toFatal (Res.ok _ t)) _ = _
      rw [leafAbs_read_lt root rows habs i hilt]
      show Res.bind (Res.bind (t.getPageF 0) fun node t => Res.ok (if node.get_n_cells ≤ i + 1 then { page_index := 0, cell_index := i + 1, end_of_table := true } else { page_index := 0, cell_index := i + 1, end_of_table := decide (rows.length ≤ i) }) t) (fun c t => selectLoop k c t (rows.getD i dCell :: acc)) = _
      rw [getPageF_cached t 0 root (by decide) hgd]
      show Res.bind (Res.ok (if root.get_n_cells ≤ i + 1 then ({ page_index := 0, cell_index := i + 1, end_of_table := true } : Cursor) else { page_index := 0, cell_index := i + 1, end_of_table := decide (rows.length ≤ i) }) t) (fun c t => selectLoop k c t (rows.getD i dCell :: acc)) = _
      rw [Node.get_n_cells, habs.2.2.1]
      have hcur : (if rows.length ≤ i + 1
          then { page_index := 0, cell_index := i + 1, end_of_table := true }
          else { page_index := 0, cell_index := i + 1,
                 end_of_table := decide (rows.length ≤ i) } : Cursor)
          = { page_index := 0, cell_index := i + 1,
              end_of_table := decide (rows.length ≤ i + 1) } := by
        by_cases h1 : rows.length ≤ i + 1
        · rw [if_pos h1]
          simp [h1]
        · rw [if_neg h1]
          simp [he, h1]
      rw [hcur]
      show selectLoop k _ t (rows.getD i dCell :: acc) = _
      rw [ih (i + 1) (rows.getD i dCell :: acc) (by omega) (by omega)]
      rw [drop_succ_getD rows i dCell hilt]
      simp

lemma select_leaf_root (t : Table) (root : Node) (rows : List LeafCell)
    (h0 : t.root_node_index = 0)
    (hgd : t.pager.pages.getD 0 none = some root) (habs : LeafAbs root rows) :
    Table.select t = .ok rows t := by
  unfold Table.select Cursor.from_start
  rw [h0]
  show Res.bind (Res.bind (t.getPageF 0) fun root t => Res.ok { page_index := 0, cell_index := 0, end_of_table := decide (root.get_n_cells = 0) } t) (fun c t => match t.pager.pages.getD t.root_node_index none with | some root => selectLoop (root.get_n_cells + 1) c t [] | none => Res.fatal fuelMsg t) = Res.ok rows t
  rw [getPageF_cached t 0 root (by decide) hgd]
  show (match t.pager.pages.getD t.root_node_index none with
    | some r => selectLoop (r.get_n_cells + 1) { page_index := 0, cell_index := 0, end_of_table := decide (root.get_n_cells = 0) } t []
    | none => Res.fatal fuelMsg t) = _
  rw [h0, hgd]
  show selectLoop (root.get_n_cells + 1) _ t [] = _
  have hdec : decide (rows.length = 0) = decide (rows.length ≤ 0) := by
    simp [Nat.le_zero]
  rw [Node.get_n_cells, habs.2.2.1, hdec,
    selectLoop_leaf t root rows hgd habs (rows.length + 1) 0 [] (by omega) (by omega)]
  simp

lemma select_shapeB_empty (t : Table) (root rightN leftN : Node)
    (rightRows leftRows : List LeafCell) (sep : Int)
    (h : ShapeB t root rightN leftN rightRows leftRows sep) :
    Table.select t = .ok [] t := by
  obtain ⟨h0, hfile, hnp, hpages, hkind, hroot, hpar, hnc, hlc, hrc, hic, hrest⟩ := h
  have hgd : t.pager.pages.getD 0 none = some root := by rw [hpages]; rfl
  unfold Table.select Cursor.from_start
  rw [h0]
  show Res.bind (Res.bind (t.getPageF 0) fun root t => Res.ok { page_index := 0, cell_index := 0, end_of_table := decide (root.get_n_cells = 0) } t) (fun c t => match t.pager.pages.getD t.root_node_index none with | some root => selectLoop (root.get_n_cells + 1) c t [] | none => Res.fatal fuelMsg t) = Res.ok [] t
  rw [getPageF_cached t 0 root (by decide) hgd]
  show (match t.pager.pages.getD t.root_node_index none with
    | some r => selectLoop (r.get_n_cells + 1) { page_index := 0, cell_index := 0, end_of_table := decide (root.get_n_cells = 0) } t []
    | none => Res.fatal fuelMsg t) = _
  rw [h0, hgd]
  show selectLoop (root.get_n_cells + 1) _ t [] = _
  rw [Node.get_n_cells, hnc]
  show (if decide ((1 : Nat) = 0) = true then _ else _) = _
  rw [if_neg (by decide)]
  show Res.bind (Res.toFatal (Cursor.read_leaf_cell _ t)) _ = _
  unfold Cursor.read_leaf_cell
  rw [getPage_cached t 0 root (by decide) hgd]
  show Res.bind (Res.toFatal (Res.ok (root.read_leaf_cell 0) t)) _ = _
  rw [show root.read_leaf_cell 0 = none from by
    unfold Node.read_leaf_cell
    rw [hlc]
    rfl]
  show Res.bind (Res.bind (t.getPageF 0) fun node t => Res.ok (if node.get_n_cells ≤ 1 then { page_index := 0, cell_index := 1, end_of_table := true } else { page_index := 0, cell_index := 1, end_of_table := decide ((1 : Nat) = 0) }) t) (fun c t => selectLoop 1 c t []) = _
  rw [getPageF_cached t 0 root (by decide) hgd]
  show Res.bind (Res.ok (if root.get_n_cells ≤ 1 then ({ page_index := 0, cell_index := 1, end_of_table := true } : Cursor) else { page_index := 0, cell_index := 1, end_of_table := decide ((1 : Nat) = 0) }) t) (fun c t => selectLoop 1 c t []) = _
  rw [Node.get_n_cells, hnc, if_pos (le_refl 1)]
  rfl

lemma fillCells_take {α : Type} (ws : List α) (total : Nat) :
    (fillCells ws total).take ws.length = ws.map some := by
  unfold fillCells
  rw [List.take_append_of_le_length (by simp), List.take_of_length_le (by simp)]

lemma close_shapeA (t : Table) (root : Node) (rows : List LeafCell)
    (h : ShapeA t root rows) :
    Table.close t = .ok (leafPage root rows) := by
  obtain ⟨h0, hfile, hnp, hpages, habs, hroot, hpar, hsort, hwf⟩ := h
  have hgd : t.pager.pages.getD 0 none = some root := by rw [hpages]; rfl
  have htake : (fillCells rows LEAF_NODE_CELL_MAX_NUM).take root.n_cells
      = rows.map some := by
    rw [habs.2.2.1]
    exact fillCells_take rows LEAF_NODE_CELL_MAX_NUM
  unfold Table.close
  rw [hnp, hfile]
  show (match t.pager.pages.getD 0 none with
    | none => flushFrom t.pager.pages 1 0 []
    | some n =>
      match n.write_at [] (0 * PAGE_SIZE) with
      | .ok file => flushFrom t.pager.pages 1 0 file
      | .error e => .error e) = _
  rw [hgd, show (0 : Nat) * PAGE_SIZE = 0 from by omega]
  show (match root.write_at [] 0 with
    | .ok file => flushFrom t.pager.pages 1 0 file
    | .error e => Except.error e) = _
  rw [write_at_leaf root (fillCells rows LEAF_NODE_CELL_MAX_NUM) rows habs.1 habs.2.1
      htake [] 0]
  show Except.ok ([] ++ leafPage root rows) = _
  rw [List.nil_append]

lemma select_leaf_fetch (t : Table) (root : Node) (rows : List LeafCell)
    (h0 : t.root_node_index = 0) (hnone : t.pager.pages.getD 0 none = none)
    (hnp : 0 < t.pager.n_pages) (hplen : 0 < t.pager.pages.length)
    (hread : Node.read_at t.pager.file 0 = .ok root)
    (habs : LeafAbs root rows) :
    ∃ t2, Table.select t = .ok rows t2 := by
  set t2 : Table := { t with pager := { t.pager with
    pages := t.pager.pages.set 0 (some root) } } with ht2
  have hgd2 : t2.pager.pages.getD 0 none = some root := by
    rw [ht2]
    exact getD_set_self t.pager.pages 0 (some root) none hplen
  have hpgF : t.getPageF 0 = .ok root t2 := by
    unfold Table.getPageF Table.getPage Pager.get_page
    rw [if_neg (by decide : ¬ (PAGE_MAX_NUM ≤ 0)), hnone, if_pos hnp,
      show (0 : Nat) * PAGE_SIZE = 0 from by omega, hread]
    rfl
  refine ⟨t2, ?_⟩
  unfold Table.select Cursor.from_start
  rw [h0]
  show Res.bind (Res.bind (t.getPageF 0) fun root t => Res.ok { page_index := 0, cell_index := 0, end_of_table := decide (root.get_n_cells = 0) } t) (fun c t => match t.pager.pages.getD t.root_node_index none with | some root => selectLoop (root.get_n_cells + 1) c t [] | none => Res.fatal fuelMsg t) = Res.ok rows t2
  rw [hpgF]
  show (match t2.pager.pages.getD t2.root_node_index none with
    | some r => selectLoop (r.get_n_cells + 1) { page_index := 0, cell_index := 0, end_of_table := decide (root.get_n_cells = 0) } t2 []
    | none => Res.fatal fuelMsg t2) = _
  rw [show t2.root_node_index = 0 from h0, hgd2]
  show selectLoop (root.get_n_cells + 1) _ t2 [] = _
  rw [Node.get_n_cells, habs.2.2.1]
  have hdec : decide (rows.length = 0) = decide (rows.length ≤ 0) := by
    simp [Nat.le_zero]
  rw [hdec,
    selectLoop_leaf t2 root rows hgd2 habs (rows.length + 1) 0 [] (by omega) (by omega)]
  simp

/-- Claim C2, counterexample: after 14 successful key-distinct inserts (which
split the root), `select` prints nothing at all, because the scan never leaves
page 0 and the internal root has no leaf cells; the claimed "any count the
pager can hold" is false beyond 13 rows. -/
theorem select_after_split_prints_nothing :
    ∃ t', insertAll freshTable inps14 = .ok () t' ∧
      Table.select t' = .ok [] t' ∧
      inps14.length = 14 ∧ (∀ i ∈ inps14, ValidInput i) ∧
      inps14.Pairwise (fun a b => a.1 ≠ b.1) := by
  obtain ⟨t', root, rightN, leftN, rightRows, leftRows, sep, hall, hB, _, _, _⟩ :=
    insertAll14_shapeB inps14 rfl (by simp only [ValidInput]; decide) (by decide)
  exact ⟨t', hall, select_shapeB_empty t' root rightN leftN rightRows leftRows sep hB,
    rfl, by simp only [ValidInput]; decide, by decide⟩

/-- Claim C2, amended to at most 13 rows: any sequence of at most 13 valid,
key-distinct inserts succeeds, and `select` — in the same session, and equally
after closing the file and reopening it — prints exactly those rows sorted
ascending by id. -/
theorem select_sorted_after_inserts (inps : List (Int × List Nat × List Nat))
    (hle : inps.length ≤ 13) (hv : ∀ i ∈ inps, ValidInput i)
    (hdist : inps.Pairwise (fun a b => a.1 ≠ b.1)) :
    ∃ t' rows, insertAll freshTable inps = .ok () t' ∧
      Table.select t' = .ok rows t' ∧
      RowsSortedLt rows ∧ rows.Perm (inps.map mkCellOf) ∧
      ∃ file p t2, Table.close t' = .ok file ∧ Pager.new file = .ok p ∧
        Table.select (Table.new p) = .ok rows t2 := by
  obtain ⟨t', root', rows, hall, hA, hperm⟩ :=
    insertAll_shapeA inps freshTable _ [] shapeA_fresh hv
      (fun i _ c hc => absurd hc (List.not_mem_nil c)) hdist
      (by
        have h13 : LEAF_NODE_CELL_MAX_NUM = 13 := rfl
        simp only [List.length_nil]
        omega)
  obtain ⟨h0, hfile, hnp, hpages, habs, hroot, hpar, hsort, hwf⟩ := hA
  have hgd : t'.pager.pages.getD 0 none = some root' := by rw [hpages]; rfl
  have hws : ∀ c ∈ rows, WfLeafCell c := fun c hc => (hwf c hc).1
  have hclose : Table.close t' = .ok (leafPage root' rows) :=
    close_shapeA t' root' rows ⟨h0, hfile, hnp, hpages, habs, hroot, hpar, hsort, hwf⟩
  have hlenp : (leafPage root' rows).length = PAGE_SIZE :=
    leafPage_length root' rows hws habs.2.2.2.1
  have hpnew : Pager.new (leafPage root' rows)
      = .ok { file := leafPage root' rows, n_pages := 1, pages := List.replicate PAGE_MAX_NUM none } := by
    unfold Pager.new
    rw [hlenp, if_neg (by decide)]
    rfl
  have hnew : Table.new { file := leafPage root' rows, n_pages := 1, pages := List.replicate PAGE_MAX_NUM none }
      = { root_node_index := 0, pager := { file := leafPage root' rows, n_pages := 1, pages := List.replicate PAGE_MAX_NUM none } } := by
    unfold Table.new
    rw [if_neg (by exact Nat.one_ne_zero)]
  have hread0 : Node.read_at (leafPage root' rows) 0
      = .ok { kind := .leaf
              is_root := root'.is_root
              parent := root'.parent
              n_cells := root'.n_cells
              leaf_cells := some (fillCells rows LEAF_NODE_CELL_MAX_NUM)
              right_child := none
              internal_cells := none } := by
    have h := read_at_leafPage root' rows [] hws habs.2.2.1 habs.2.2.2.1
      (by rw [hpar]; decide) (by rw [hpar]; decide)
    rw [List.append_nil] at h
    exact h
  have habs2 : LeafAbs { kind := .leaf, is_root := root'.is_root, parent := root'.parent, n_cells := root'.n_cells, leaf_cells := some (fillCells rows LEAF_NODE_CELL_MAX_NUM), right_child := none, internal_cells := none } rows :=
    ⟨rfl, rfl, habs.2.2.1, habs.2.2.2.1, rfl, rfl⟩
  obtain ⟨t2, hsel2⟩ := select_leaf_fetch
    { root_node_index := 0, pager := { file := leafPage root' rows, n_pages := 1, pages := List.replicate PAGE_MAX_NUM none } }
    _ rows rfl (by rfl) (by exact Nat.one_pos) (by simp [PAGE_MAX_NUM]) hread0 habs2
  refine ⟨t', rows, hall,
    select_leaf_root t' root' rows h0 hgd habs, hsort, by simpa using hperm,
    leafPage root' rows, _, t2, hclose, hpnew, ?_⟩
  rw [hnew]
  exact hsel2

/-- Witness for the amended C2 theorem at a concrete two-row instance. -/
theorem select_sorted_after_inserts_witness :
    ([((2 : Int), ([] : List Nat), ([] : List Nat)), (1, [], [])].length ≤ 13) ∧
    (∀ i ∈ [((2 : Int), ([] : List Nat), ([] : List Nat)), (1, [], [])], ValidInput i) ∧
    ([((2 : Int), ([] : List Nat), ([] : List Nat)), (1, [], [])].Pairwise
      (fun a b => a.1 ≠ b.1)) ∧
    (∃ t' rows,
      insertAll freshTable [((2 : Int), ([] : List Nat), ([] : List Nat)), (1, [], [])]
        = .ok () t' ∧
      Table.select t' = .ok rows t' ∧
      RowsSortedLt rows ∧
      rows.Perm ([((2 : Int), ([] : List Nat), ([] : List Nat)), (1, [], [])].map mkCellOf) ∧
      ∃ file p t2, Table.close t' = .ok file ∧ Pager.new file = .ok p ∧
        Table.select (Table.new p) = .ok rows t2) :=
  ⟨by decide, by simp only [ValidInput]; decide, by decide,
    select_sorted_after_inserts [((2 : Int), ([] : List Nat), ([] : List Nat)), (1, [], [])]
      (by decide) (by simp only [ValidInput]; decide) (by decide)⟩

lemma sortedLe_insertIdx (rows : List LeafCell) (cell : LeafCell) (p : Nat)
    (hp : p ≤ rows.length) (hs : RowsSortedLe rows)
    (hlo : ∀ j, j < p → (rows.getD j dCell).key ≤ cell.key)
    (hhi : ∀ j, p ≤ j → j < rows.length → cell.key ≤ (rows.getD j dCell).key) :
    RowsSortedLe (rows.insertIdx p cell) := by
  rw [insertIdx_eq_take_drop cell p rows hp]
  have hptk : (rows.take p).length = p := by rw [List.length_take]; omega
  refine List.pairwise_append.mpr ⟨hs.sublist (List.take_sublist p rows), ?_, ?_⟩
  · refine List.pairwise_cons.mpr ⟨?_, hs.sublist (List.drop_sublist p rows)⟩
    intro b hb
    obtain ⟨j, hj, hgd⟩ := mem_getD _ b dCell hb
    rw [List.length_drop] at hj
    rw [← hgd, getD_drop]
    exact hhi (p + j) (by omega) (by omega)
  · intro a ha b hb
    obtain ⟨j, hj, hga⟩ := mem_getD _ a dCell ha
    rw [hptk] at hj
    rw [← hga, getD_take_lt rows p j dCell hj]
    rcases List.mem_cons.mp hb with hb1 | hb2
    · rw [hb1]
      exact hlo j hj
    · obtain ⟨j2, hj2, hgb⟩ := mem_getD _ b dCell hb2
      rw [List.length_drop] at hj2
      rw [← hgb, getD_drop]
      exact pairwise_le_getD rows hs j (p + j2) (by omega) (by omega)

lemma getLast_insertIdx_lt {α : Type} (l : List α) (a : α) (p : Nat)
    (hp : p < l.length) :
    (l.insertIdx p a).getLast? = l.getLast? := by
  rw [insertIdx_eq_take_drop a p l (by omega)]
  have hd : l.drop p ≠ [] := by
    intro he
    have := List.length_drop p l
    rw [he] at this
    simp at this
    omega
  rw [List.getLast?_append_of_ne_nil _ (List.cons_ne_nil a (l.drop p)),
    show a :: l.drop p = [a] ++ l.drop p from rfl,
    List.getLast?_append_of_ne_nil _ hd]
  conv_rhs => rw [← List.take_append_drop p l]
  rw [List.getLast?_append_of_ne_nil _ hd]

lemma fromKey_shapeB (t : Table) (root rightN leftN : Node)
    (rightRows leftRows : List LeafCell) (sep : Int)
    (h : ShapeB t root rightN leftN rightRows leftRows sep) (key : Int) :
    Cursor.fromKey t key
      = Cursor.from_leaf_node t (if key ≤ sep then 2 else 1) key := by
  obtain ⟨h0, hfile, hnp, hpages, hkind, hroot, hpar, hnc, hlc, hrc, hic, hrest⟩ := h
  have hgd : t.pager.pages.getD 0 none = some root := by rw [hpages]; rfl
  have hgd1 : t.pager.pages.getD 1 none = some rightN := by rw [hpages]; rfl
  have hgd2 : t.pager.pages.getD 2 none = some leftN := by rw [hpages]; rfl
  have hrd : ∀ i, i < ([{ child := 2, key := sep }] : List InternalCell).length →
      root.read_internal_cell i
        = some (([{ child := 2, key := sep }] : List InternalCell).getD i dICell) := by
    intro i hi
    have hi0 : i = 0 := by simpa using hi
    subst hi0
    unfold Node.read_internal_cell
    rw [hic]
    show (fillCells [{ child := 2, key := sep }] INTERNAL_NODE_CELL_MAX_NUM).getD 0 none
      = some (([{ child := 2, key := sep }] : List InternalCell).getD 0 dICell)
    rw [getD_fill_lt [{ child := 2, key := sep }] INTERNAL_NODE_CELL_MAX_NUM 0 dICell
      (by simp)]
  have hbs := internalBinSearch_spec root [{ child := 2, key := sep }] key hrd
    (fun i j hij hj => by
      have hi0 : i = 0 := by simp at hj; omega
      have hj0 : j = 0 := by simpa using hj
      subst hi0 hj0
      exact le_refl _)
  unfold Cursor.fromKey
  rw [h0]
  show Cursor.fromNode (63 + 1) t 0 key = _
  unfold Cursor.fromNode
  rw [getPageF_cached t 0 root (by decide) hgd]
  show (match root.kind with
    | NodeKind.leaf => Cursor.from_leaf_node t 0 key
    | NodeKind.internal =>
      match internalBinSearch root key 0 root.get_n_cells with
      | .error e => Res.fatal e t
      | .ok slot =>
        match root.get_child_index slot with
        | .error e => Res.fatal e t
        | .ok child_index => Cursor.fromNode 63 t child_index key) = _
  rw [hkind, Node.get_n_cells, hnc]
  show (match internalBinSearch root key 0 1 with
    | .error e => Res.fatal e t
    | .ok slot =>
      match root.get_child_index slot with
      | .error e => Res.fatal e t
      | .ok child_index => Cursor.fromNode 63 t child_index key) = _
  rw [show (1 : Nat) = ([{ child := 2, key := sep }] : List InternalCell).length from rfl,
    hbs]
  by_cases hks : key ≤ sep
  · have hcp : ([{ child := 2, key := sep }] : List InternalCell).countP
        (fun c => decide (c.key < key)) = 0 := by
      simp [List.countP_cons]
      omega
    rw [hcp]
    show (match root.get_child_index 0 with
      | .error e => Res.fatal e t
      | .ok child_index => Cursor.fromNode 63 t child_index key) = _
    have hci : root.get_child_index 0 = .ok 2 := by
      unfold Node.get_child_index
      rw [hkind]
      show (if root.get_n_cells < 0 then _ else _) = _
      rw [Node.get_n_cells, hnc]
      rw [if_neg (by omega), if_neg (by omega)]
      rw [hrd 0 (by simp)]
      rfl
    rw [hci]
    show Cursor.fromNode (62 + 1) t 2 key = _
    unfold Cursor.fromNode
    rw [getPageF_cached t 2 leftN (by decide) hgd2]
    show (match leftN.kind with
      | NodeKind.leaf => Cursor.from_leaf_node t 2 key
      | NodeKind.internal => _) = _
    rw [hrest.2.2.2.1.1, if_pos hks]
  · have hcp : ([{ child := 2, key := sep }] : List InternalCell).countP
        (fun c => decide (c.key < key)) = 1 := by
      simp [List.countP_cons]
      omega
    rw [hcp]
    show (match root.get_child_index 1 with
      | .error e => Res.fatal e t
      | .ok child_index => Cursor.fromNode 63 t child_index key) = _
    have hci : root.get_child_index 1 = .ok 1 := by
      unfold Node.get_child_index
      rw [hkind]
      show (if root.get_n_cells < 1 then _ else _) = _
      rw [Node.get_n_cells, hnc]
      rw [if_neg (by omega), if_pos rfl, hrc]
      rfl
    rw [hci]
    show Cursor.fromNode (62 + 1) t 1 key = _
    unfold Cursor.fromNode
    rw [getPageF_cached t 1 rightN (by decide) hgd1]
    show (match rightN.kind with
      | NodeKind.leaf => Cursor.from_leaf_node t 1 key
      | NodeKind.internal => _) = _
    rw [hrest.1.1, if_neg hks]
    rfl

lemma sortedLe_countP_lo (key : Int) : ∀ (rows : List LeafCell), RowsSortedLe rows →
    ∀ j, j < rows.countP (fun c => decide (c.key < key)) →
    (rows.getD j dCell).key < key
  | [], _, j, hj => by simp at hj
  | c :: rs, hs, j, hj => by
    by_cases hc : c.key < key
    · rcases j with _ | j
      · exact hc
      · rw [List.countP_cons, if_pos (by simpa using hc)] at hj
        exact sortedLe_countP_lo key rs (List.pairwise_cons.mp hs).2 j (by omega)
    · exfalso
      have hz : rs.countP (fun c => decide (c.key < key)) = 0 := by
        rw [List.countP_eq_zero]
        intro a ha
        have := (List.pairwise_cons.mp hs).1 a ha
        simp only [decide_eq_true_eq]
        omega
      rw [List.countP_cons, if_neg (by simpa using hc), hz] at hj
      omega

lemma sortedLe_countP_hi (key : Int) : ∀ (rows : List LeafCell), RowsSortedLe rows →
    (∀ c ∈ rows, c.key ≠ key) →
    ∀ j, rows.countP (fun c => decide (c.key < key)) ≤ j → j < rows.length →
    key < (rows.getD j dCell).key
  | [], _, _, j, _, hl => by simp at hl
  | c :: rs, hs, hnk, j, hj, hl => by
    by_cases hc : c.key < key
    · rcases j with _ | j
      · rw [List.countP_cons, if_pos (by simpa using hc)] at hj
        omega
      · rw [List.countP_cons, if_pos (by simpa using hc)] at hj
        exact sortedLe_countP_hi key rs (List.pairwise_cons.mp hs).2
          (fun a ha => hnk a (List.mem_cons_of_mem c ha)) j (by omega) (by simpa using hl)
    · rcases j with _ | j
      · have := hnk c (List.mem_cons_self c rs)
        show key < c.key
        omega
      · have h0 : key < c.key := by
          have := hnk c (List.mem_cons_self c rs)
          omega
        have ha : key ≤ (rs.getD j dCell).key := by
          by_cases hjr : j < rs.length
          · have := (List.pairwise_cons.mp hs).1 (rs.getD j dCell) (getD_mem rs j dCell hjr)
            omega
          · exfalso
            simp at hl
            omega
        have hne : (rs.getD j dCell).key ≠ key := by
          have hjr : j < rs.length := by simpa using hl
          exact hnk _ (List.mem_cons_of_mem c (getD_mem rs j dCell hjr))
        show key < (rs.getD j dCell).key
        omega

lemma getLast_map_key (rows : List LeafCell) (h1 : 1 ≤ rows.length) (sep : Int)
    (hgl : (rows.map (fun c => c.key)).getLast? = some sep) :
    (rows.getD (rows.length - 1) dCell).key = sep := by
  have hm : (rows.map (fun c => c.key)).getLast?
      = (rows.map (fun c => c.key))[(rows.map (fun c => c.key)).length - 1]? := by
    exact List.getLast?_eq_getElem? _
  rw [hm, List.length_map] at hgl
  have hlt : rows.length - 1 < rows.length := by omega
  rw [List.getElem?_map] at hgl
  rw [getD_eq_getElem rows (rows.length - 1) dCell hlt]
  have hsome : rows[rows.length - 1]? = some rows[rows.length - 1] :=
    List.getElem?_eq_getElem hlt
  rw [hsome] at hgl
  simpa using hgl

lemma write_leaf_cell_nonroot_full (t : Table) (pg ci : Nat) (eot : Bool)
    (leaf : Node) (rows : List LeafCell) (cell : LeafCell)
    (hpg : pg < PAGE_MAX_NUM) (hpg3 : pg ≠ 3)
    (hgd : t.pager.pages.getD pg none = some leaf)
    (habs : LeafAbs leaf rows) (hfull : rows.length = 13) (hci : ci ≤ 13)
    (hnr : leaf.is_root = false)
    (hnp : t.pager.n_pages = 3) (hgd3 : t.pager.pages.getD 3 none = none) :
    ∃ t', Cursor.write_leaf_cell ⟨pg, ci, eot⟩ cell t = .fatal panicUpdateParentMsg t' := by
  obtain ⟨hk, hlc, hnc, hle, hrc, hic⟩ := habs
  have hpgF : t.getPage 3 = .ok blankLeafNode { t with pager := { t.pager with n_pages := 4, pages := t.pager.pages.set 3 (some blankLeafNode) } } :=
    getPage_blank t 3 (by decide) hgd3 (by omega)
  obtain ⟨B2, C2, hLoopEq, hB2len, hC2len, hB2, hC2⟩ :=
    splitLoop_spec rows cell ci hfull hci 13 leaf
      { kind := .leaf, is_root := false, parent := -1, n_cells := 0, leaf_cells := some (List.replicate 13 none), right_child := none, internal_cells := none }
      (fillCells rows 13) (List.replicate 13 none) (by omega)
      (by rw [hlc]; rfl) (by rw [fillCells_length rows 13 (by omega)]) rfl (by simp)
      (fun s hs => getD_fill_lt rows 13 s dCell (by omega))
  unfold Cursor.write_leaf_cell
  rw [getPage_cached t pg leaf hpg hgd]
  show ∃ t', (if leaf.get_n_cells < LEAF_NODE_CELL_MAX_NUM then _ else _)
    = Res.fatal panicUpdateParentMsg t'
  rw [if_neg (by rw [Node.get_n_cells, hnc, hfull]; decide)]
  show ∃ t', Res.bind (t.getPage t.pager.get_new_page_index) _
    = Res.fatal panicUpdateParentMsg t'
  rw [show t.pager.get_new_page_index = 3 from by rw [Pager.get_new_page_index, hnp],
    hpgF]
  show ∃ t', (match ((t.pager.pages.set 3 (some blankLeafNode)).set 3
      (some blankLeafNode.become_leaf_node)).getD pg none with
    | none => Res.fatal panicUnwrapMsg ({ t with pager := { t.pager with n_pages := 4, pages := (t.pager.pages.set 3 (some blankLeafNode)).set 3 (some blankLeafNode.become_leaf_node) } } : Table)
    | some old_node =>
      match splitLoop ci cell LEAF_NODE_CELL_MAX_NUM old_node
          blankLeafNode.become_leaf_node with
      | .error e => Res.fatal e ({ t with pager := { t.pager with n_pages := 4, pages := (t.pager.pages.set 3 (some blankLeafNode)).set 3 (some blankLeafNode.become_leaf_node) } } : Table)
      | .ok (old_node, new_node_1) => _)
    = Res.fatal panicUpdateParentMsg t'
  rw [getD_set_ne _ 3 pg _ none (fun hc => hpg3 hc.symm),
    getD_set_ne _ 3 pg _ none (fun hc => hpg3 hc.symm), hgd]
  show ∃ t', (match splitLoop ci cell LEAF_NODE_CELL_MAX_NUM leaf
      blankLeafNode.become_leaf_node with
    | .error e => Res.fatal e ({ t with pager := { t.pager with n_pages := 4, pages := (t.pager.pages.set 3 (some blankLeafNode)).set 3 (some blankLeafNode.become_leaf_node) } } : Table)
    | .ok (old_node, new_node_1) => _)
    = Res.fatal panicUpdateParentMsg t'
  rw [show (LEAF_NODE_CELL_MAX_NUM : Nat) = 13 from rfl,
    show blankLeafNode.become_leaf_node
      = ({ kind := .leaf, is_root := false, parent := -1, n_cells := 0, leaf_cells := some (List.replicate 13 none), right_child := none, internal_cells := none } : Node) from rfl,
    hLoopEq]
  show ∃ t', (if ({ leaf with leaf_cells := some B2, n_cells := SPLIT_LEFT_LEAF_NODE_NUM } : Node).is_root = true then _ else _)
    = Res.fatal panicUpdateParentMsg t'
  rw [show ({ leaf with leaf_cells := some B2, n_cells := SPLIT_LEFT_LEAF_NODE_NUM } : Node).is_root = leaf.is_root from rfl, hnr]
  exact ⟨_, rfl⟩

lemma insert_nonpositive (t : Table) (id : Int) (name desc : List Nat) (h : id ≤ 0) :
    Table.insert t id name desc = .err ERR_NOT_POSITIVE_ID t := by
  unfold Table.insert
  rw [if_pos h]

lemma insert_name_too_long (t : Table) (id : Int) (name desc : List Nat)
    (h1 : ¬ id ≤ 0) (h2 : NAME_MAX_SIZE < name.length) :
    Table.insert t id name desc = .err ERR_NAME_TOO_LONG t := by
  unfold Table.insert
  rw [if_neg h1, if_pos h2]

lemma insert_desc_too_long (t : Table) (id : Int) (name desc : List Nat)
    (h1 : ¬ id ≤ 0) (h2 : ¬ NAME_MAX_SIZE < name.length)
    (h3 : DESCRIPTION_MAX_SIZE < desc.length) :
    Table.insert t id name desc = .err ERR_DESCRIPTION_TOO_LONG t := by
  unfold Table.insert
  rw [if_neg h1, if_neg h2, if_pos h3]

lemma getLast_map_insertIdx {α β : Type} (l : List α) (a : α) (p : Nat)
    (f : α → β) (hp : p < l.length) :
    ((l.insertIdx p a).map f).getLast? = (l.map f).getLast? := by
  have hd : (l.drop p).map f ≠ [] := by
    intro he
    have h1 : ((l.drop p).map f).length = 0 := by rw [he]; rfl
    rw [List.length_map, List.length_drop] at h1
    omega
  rw [insertIdx_eq_take_drop a p l (by omega), List.map_append, List.map_cons,
    List.getLast?_append_of_ne_nil _ (List.cons_ne_nil _ _),
    show f a :: (l.drop p).map f = [f a] ++ (l.drop p).map f from rfl,
    List.getLast?_append_of_ne_nil _ hd]
  conv_rhs => rw [← List.take_append_drop p l]
  rw [List.map_append, List.getLast?_append_of_ne_nil _ hd]

lemma insert_shapeB_reduce (t : Table) (root rightN leftN : Node)
    (rightRows leftRows : List LeafCell) (sep : Int)
    (h : ShapeB t root rightN leftN rightRows leftRows sep)
    (id : Int) (name desc : List Nat)
    (hid : 0 < id) (hname : name.length ≤ NAME_MAX_SIZE)
    (hdesc : desc.length ≤ DESCRIPTION_MAX_SIZE) :
    Table.insert t id name desc
      = Res.bind (Cursor.from_leaf_node t (if id ≤ sep then 2 else 1) id)
          (fun cursor t =>
            if cursor.cell_index < 1 then
              Res.bind (cursor.read_leaf_cell t) (fun cellOpt t =>
                match cellOpt with
                | none => Res.fatal panicUnwrapMsg t
                | some c =>
                  if id = c.key then Res.err (dupKeyMsg id) t
                  else cursor.write_leaf_cell { key := id, value := { id := id, name := padBuf name NAME_MAX_SIZE, description := padBuf desc DESCRIPTION_MAX_SIZE } } t)
            else cursor.write_leaf_cell { key := id, value := { id := id, name := padBuf name NAME_MAX_SIZE, description := padBuf desc DESCRIPTION_MAX_SIZE } } t) := by
  have hgd0 : t.pager.pages.getD 0 none = some root := by rw [h.2.2.2.1]; rfl
  unfold Table.insert
  rw [if_neg (by omega : ¬ id ≤ 0), if_neg (not_lt.mpr hname), if_neg (not_lt.mpr hdesc),
    h.1, getPage_cached t 0 root (by decide) hgd0]
  show Res.bind (Cursor.fromKey t id) _ = _
  rw [fromKey_shapeB t root rightN leftN rightRows leftRows sep h id]
  show Res.bind (Cursor.from_leaf_node t (if id ≤ sep then 2 else 1) id)
    (fun cursor t =>
      if cursor.cell_index < root.get_n_cells then _ else _) = _
  rw [Node.get_n_cells, h.2.2.2.2.2.2.2.1]

lemma shapeB_insert_left (t : Table) (root rightN leftN : Node)
    (rightRows leftRows : List LeafCell) (sep : Int)
    (h : ShapeB t root rightN leftN rightRows leftRows sep)
    (cell : LeafCell) (p : Nat) (hp : p < leftRows.length)
    (hlt : leftRows.length < LEAF_NODE_CELL_MAX_NUM)
    (hwc : WfLeafCell cell ∧ cell.value.id = cell.key ∧ 0 < cell.key)
    (hkle : cell.key ≤ sep)
    (hlo : ∀ j, j < p → (leftRows.getD j dCell).key ≤ cell.key)
    (hhi : ∀ j, p ≤ j → j < leftRows.length → cell.key ≤ (leftRows.getD j dCell).key) :
    ShapeB (t.setPage 2 { leftN with
        leaf_cells := some (fillCells (leftRows.insertIdx p cell) LEAF_NODE_CELL_MAX_NUM)
        n_cells := leftRows.length + 1 })
      root rightN
      { leftN with
        leaf_cells := some (fillCells (leftRows.insertIdx p cell) LEAF_NODE_CELL_MAX_NUM)
        n_cells := leftRows.length + 1 }
      rightRows (leftRows.insertIdx p cell) sep := by
  obtain ⟨h0, hfile, hnp, hpages, hkind, hroot, hpar, hnc, hlc, hrc, hic,
    habsR, hirR, hparR, habsL, hirL, hparL, h1L, h1R, hsortL, hsortR,
    hwfL, hwfR, hbndL, hbndR, hlast⟩ := h
  have hlen : (leftRows.insertIdx p cell).length = leftRows.length + 1 :=
    List.length_insertIdx p leftRows (by omega)
  have hlt13 : leftRows.length < 13 := hlt
  refine ⟨h0, hfile, hnp, ?_, hkind, hroot, hpar, hnc, hlc, hrc, hic,
    habsR, hirR, hparR, ?_, hirL, hparL, ?_, h1R, ?_, hsortR,
    ?_, hwfR, ?_, hbndR, ?_⟩
  · show t.pager.pages.set 2 _ = _
    rw [hpages]
    rfl
  · exact ⟨habsL.1, rfl, by rw [hlen], by rw [hlen]; exact hlt,
      habsL.2.2.2.2.1, habsL.2.2.2.2.2⟩
  · rw [hlen]; omega
  · exact sortedLe_insertIdx leftRows cell p (by omega) hsortL hlo hhi
  · exact rowsWf_insertIdx leftRows cell p (by omega) hwfL hwc
  · intro c hc
    rcases (List.mem_insertIdx (by omega)).mp hc with hc | hc
    · rw [hc]; exact hkle
    · exact hbndL c hc
  · rw [getLast_map_insertIdx leftRows cell p _ hp]
    exact hlast

lemma shapeB_insert_right (t : Table) (root rightN leftN : Node)
    (rightRows leftRows : List LeafCell) (sep : Int)
    (h : ShapeB t root rightN leftN rightRows leftRows sep)
    (cell : LeafCell) (p : Nat) (hp : p ≤ rightRows.length)
    (hlt : rightRows.length < LEAF_NODE_CELL_MAX_NUM)
    (hwc : WfLeafCell cell ∧ cell.value.id = cell.key ∧ 0 < cell.key)
    (hkgt : sep < cell.key)
    (hlo : ∀ j, j < p → (rightRows.getD j dCell).key ≤ cell.key)
    (hhi : ∀ j, p ≤ j → j < rightRows.length → cell.key ≤ (rightRows.getD j dCell).key) :
    ShapeB (t.setPage 1 { rightN with
        leaf_cells := some (fillCells (rightRows.insertIdx p cell) LEAF_NODE_CELL_MAX_NUM)
        n_cells := rightRows.length + 1 })
      root
      { rightN with
        leaf_cells := some (fillCells (rightRows.insertIdx p cell) LEAF_NODE_CELL_MAX_NUM)
        n_cells := rightRows.length + 1 }
      leftN (rightRows.insertIdx p cell) leftRows sep := by
  obtain ⟨h0, hfile, hnp, hpages, hkind, hroot, hpar, hnc, hlc, hrc, hic,
    habsR, hirR, hparR, habsL, hirL, hparL, h1L, h1R, hsortL, hsortR,
    hwfL, hwfR, hbndL, hbndR, hlast⟩ := h
  have hlen : (rightRows.insertIdx p cell).length = rightRows.length + 1 :=
    List.length_insertIdx p rightRows hp
  refine ⟨h0, hfile, hnp, ?_, hkind, hroot, hpar, hnc, hlc, hrc, hic,
    ?_, hirR, hparR, habsL, hirL, hparL, h1L, ?_, hsortL, ?_,
    hwfL, ?_, hbndL, ?_, hlast⟩
  · show t.pager.pages.set 1 _ = _
    rw [hpages]
    rfl
  · exact ⟨habsR.1, rfl, by rw [hlen], by rw [hlen]; exact hlt,
      habsR.2.2.2.2.1, habsR.2.2.2.2.2⟩
  · rw [hlen]; omega
  · exact sortedLe_insertIdx rightRows cell p hp hsortR hlo hhi
  · exact rowsWf_insertIdx rightRows cell p hp hwfR hwc
  · intro c hc
    rcases (List.mem_insertIdx hp).mp hc with hc | hc
    · rw [hc]; exact hkgt
    · exact hbndR c hc

lemma insert_shapeB (t : Table) (root rightN leftN : Node)
    (rightRows leftRows : List LeafCell) (sep : Int)
    (hS : ShapeB t root rightN leftN rightRows leftRows sep)
    (id : Int) (name desc : List Nat)
    (hv : ValidInput (id, name, desc)) :
    Table.insert t id name desc = .err (dupKeyMsg id) t ∨
    (∃ t', Table.insert t id name desc = .ok () t' ∧
      ∃ rightN' leftN' rightRows' leftRows',
        ShapeB t' root rightN' leftN' rightRows' leftRows' sep) ∨
    (∃ t', Table.insert t id name desc = .fatal panicUpdateParentMsg t') := by
  obtain ⟨hid, hid2, hname, hnb, hdesc, hdb⟩ := hv
  have hred := insert_shapeB_reduce t root rightN leftN rightRows leftRows sep hS
    id name desc hid hname hdesc
  have hS2 := hS
  obtain ⟨h0, hfile, hnp, hpages, hkind, hroot, hpar, hnc, hlc, hrc, hic,
    habsR, hirR, hparR, habsL, hirL, hparL, h1L, h1R, hsortL, hsortR,
    hwfL, hwfR, hbndL, hbndR, hlast⟩ := hS2
  have hgd1 : t.pager.pages.getD 1 none = some rightN := by rw [hpages]; rfl
  have hgd2 : t.pager.pages.getD 2 none = some leftN := by rw [hpages]; rfl
  have hgd3 : t.pager.pages.getD 3 none = none := by rw [hpages]; rfl
  have hwc : WfLeafCell ({ key := id, value := { id := id, name := padBuf name NAME_MAX_SIZE, description := padBuf desc DESCRIPTION_MAX_SIZE } } : LeafCell) ∧
      ({ key := id, value := { id := id, name := padBuf name NAME_MAX_SIZE, description := padBuf desc DESCRIPTION_MAX_SIZE } } : LeafCell).value.id
        = ({ key := id, value := { id := id, name := padBuf name NAME_MAX_SIZE, description := padBuf desc DESCRIPTION_MAX_SIZE } } : LeafCell).key ∧
      0 < ({ key := id, value := { id := id, name := padBuf name NAME_MAX_SIZE, description := padBuf desc DESCRIPTION_MAX_SIZE } } : LeafCell).key :=
    mkCellOf_wf (id, name, desc) ⟨hid, hid2, hname, hnb, hdesc, hdb⟩
  by_cases hks : id ≤ sep
  · rw [if_pos hks] at hred
    by_cases hpres : ∃ c ∈ leftRows, c.key = id
    · obtain ⟨c, hcm, hck⟩ := hpres
      obtain ⟨ip, hiplt, hipd⟩ := mem_getD leftRows c dCell hcm
      obtain ⟨i, hilt, hik, hfrom⟩ := from_leaf_node_present t 2 leftN leftRows id
        (by decide) hgd2 habsL hsortL ip hiplt (by rw [hipd, hck])
      by_cases hi1 : i < 1
      · left
        rw [hred, hfrom]
        show (if i < 1 then _ else _) = _
        rw [if_pos hi1]
        show Res.bind (Cursor.read_leaf_cell _ t) _ = _
        unfold Cursor.read_leaf_cell
        rw [getPage_cached t 2 leftN (by decide) hgd2]
        show (match leftN.read_leaf_cell i with
          | none => Res.fatal panicUnwrapMsg t
          | some c => _) = _
        rw [leafAbs_read_lt leftN leftRows habsL i hilt]
        show (if id = (leftRows.getD i dCell).key then _ else _) = _
        rw [if_pos hik.symm]
      · by_cases hfull : leftRows.length = 13
        · refine Or.inr (Or.inr ?_)
          obtain ⟨t', hw⟩ := write_leaf_cell_nonroot_full t 2 i false leftN leftRows
            { key := id, value := { id := id, name := padBuf name NAME_MAX_SIZE, description := padBuf desc DESCRIPTION_MAX_SIZE } }
            (by decide) (by decide) hgd2 habsL hfull (by omega) hirL hnp hgd3
          refine ⟨t', ?_⟩
          rw [hred, hfrom]
          show (if i < 1 then _ else _) = _
          rw [if_neg hi1]
          exact hw
        · have hlt : leftRows.length < LEAF_NODE_CELL_MAX_NUM := by
            have := habsL.2.2.2.1
            have h13 : leftRows.length ≤ 13 := this
            show leftRows.length < 13
            omega
          refine Or.inr (Or.inl ⟨_, ?_,
            rightN, _, rightRows, _,
            shapeB_insert_left t root rightN leftN rightRows leftRows sep hS
              { key := id, value := { id := id, name := padBuf name NAME_MAX_SIZE, description := padBuf desc DESCRIPTION_MAX_SIZE } }
              i hilt hlt hwc hks
              (fun j hj => by
                have h2 := pairwise_le_getD leftRows hsortL j i (by omega) hilt
                rw [hik] at h2
                exact h2)
              (fun j hij hjl => by
                have h2 := pairwise_le_getD leftRows hsortL i j hij hjl
                rw [hik] at h2
                exact h2)⟩)
          rw [hred, hfrom]
          show (if i < 1 then _ else _) = _
          rw [if_neg hi1]
          exact write_leaf_cell_nonfull t 2 i false leftN leftRows _
            (by decide) hgd2 habsL hlt (by omega)
    · have hnk : ∀ c ∈ leftRows, c.key ≠ id := by
        intro c hc he
        exact hpres ⟨c, hc, he⟩
      have hfrom := from_leaf_node_absent t 2 leftN leftRows id (by decide) hgd2
        habsL hsortL hnk
      have hsepd : (leftRows.getD (leftRows.length - 1) dCell).key = sep :=
        getLast_map_key leftRows h1L sep hlast
      have hcple : leftRows.countP (fun c => decide (c.key < id)) ≤ leftRows.length :=
        lb_le_length leftRows id
      have hcplt : leftRows.countP (fun c => decide (c.key < id)) < leftRows.length := by
        rcases Nat.lt_or_ge (leftRows.countP (fun c => decide (c.key < id)))
          leftRows.length with hltc | hgec
        · exact hltc
        · exfalso
          have h2 := sortedLe_countP_lo id leftRows hsortL (leftRows.length - 1)
            (by omega)
          rw [hsepd] at h2
          omega
      by_cases hcp1 : leftRows.countP (fun c => decide (c.key < id)) < 1
      · by_cases hfull : leftRows.length = 13
        · refine Or.inr (Or.inr ?_)
          obtain ⟨t', hw⟩ := write_leaf_cell_nonroot_full t 2
            (leftRows.countP (fun c => decide (c.key < id)))
            (decide (leftRows.countP (fun c => decide (c.key < id)) = leftRows.length))
            leftN leftRows
            { key := id, value := { id := id, name := padBuf name NAME_MAX_SIZE, description := padBuf desc DESCRIPTION_MAX_SIZE } }
            (by decide) (by decide) hgd2 habsL hfull (by omega) hirL hnp hgd3
          refine ⟨t', ?_⟩
          rw [hred, hfrom]
          show (if leftRows.countP (fun c => decide (c.key < id)) < 1 then _ else _) = _
          rw [if_pos hcp1]
          show Res.bind (Cursor.read_leaf_cell _ t) _ = _
          unfold Cursor.read_leaf_cell
          rw [getPage_cached t 2 leftN (by decide) hgd2]
          show (match leftN.read_leaf_cell (leftRows.countP (fun c => decide (c.key < id))) with
            | none => Res.fatal panicUnwrapMsg t
            | some c => _) = _
          rw [leafAbs_read_lt leftN leftRows habsL _ hcplt]
          show (if id = (leftRows.getD (leftRows.countP (fun c => decide (c.key < id))) dCell).key then _ else _) = _
          rw [if_neg (fun he => hnk _ (getD_mem leftRows _ dCell hcplt) he.symm)]
          exact hw
        · have hlt : leftRows.length < LEAF_NODE_CELL_MAX_NUM := by
            have h13 : leftRows.length ≤ 13 := habsL.2.2.2.1
            show leftRows.length < 13
            omega
          refine Or.inr (Or.inl ⟨_, ?_,
            rightN, _, rightRows, _,
            shapeB_insert_left t root rightN leftN rightRows leftRows sep hS
              { key := id, value := { id := id, name := padBuf name NAME_MAX_SIZE, description := padBuf desc DESCRIPTION_MAX_SIZE } }
              (leftRows.countP (fun c => decide (c.key < id))) hcplt hlt hwc hks
              (fun j hj => le_of_lt (sortedLe_countP_lo id leftRows hsortL j hj))
              (fun j hij hjl => le_of_lt (sortedLe_countP_hi id leftRows hsortL hnk j hij hjl))⟩)
          rw [hred, hfrom]
          show (if leftRows.countP (fun c => decide (c.key < id)) < 1 then _ else _) = _
          rw [if_pos hcp1]
          show Res.bind (Cursor.read_leaf_cell _ t) _ = _
          unfold Cursor.read_leaf_cell
          rw [getPage_cached t 2 leftN (by decide) hgd2]
          show (match leftN.read_leaf_cell (leftRows.countP (fun c => decide (c.key < id))) with
            | none => Res.fatal panicUnwrapMsg t
            | some c => _) = _
          rw [leafAbs_read_lt leftN leftRows habsL _ hcplt]
          show (if id = (leftRows.getD (leftRows.countP (fun c => decide (c.key < id))) dCell).key then _ else _) = _
          rw [if_neg (fun he => hnk _ (getD_mem leftRows _ dCell hcplt) he.symm)]
          exact write_leaf_cell_nonfull t 2 _ _ leftN leftRows _
            (by decide) hgd2 habsL hlt hcple
      · by_cases hfull : leftRows.length = 13
        · refine Or.inr (Or.inr ?_)
          obtain ⟨t', hw⟩ := write_leaf_cell_nonroot_full t 2
            (leftRows.countP (fun c => decide (c.key < id)))
            (decide (leftRows.countP (fun c => decide (c.key < id)) = leftRows.length))
            leftN leftRows
            { key := id, value := { id := id, name := padBuf name NAME_MAX_SIZE, description := padBuf desc DESCRIPTION_MAX_SIZE } }
            (by decide) (by decide) hgd2 habsL hfull (by omega) hirL hnp hgd3
          refine ⟨t', ?_⟩
          rw [hred, hfrom]
          show (if leftRows.countP (fun c => decide (c.key < id)) < 1 then _ else _) = _
          rw [if_neg hcp1]
          exact hw
        · have hlt : leftRows.length < LEAF_NODE_CELL_MAX_NUM := by
            have h13 : leftRows.length ≤ 13 := habsL.2.2.2.1
            show leftRows.length < 13
            omega
          refine Or.inr (Or.inl ⟨_, ?_,
            rightN, _, rightRows, _,
            shapeB_insert_left t root rightN leftN rightRows leftRows sep hS
              { key := id, value := { id := id, name := padBuf name NAME_MAX_SIZE, description := padBuf desc DESCRIPTION_MAX_SIZE } }
              (leftRows.countP (fun c => decide (c.key < id))) hcplt hlt hwc hks
              (fun j hj => le_of_lt (sortedLe_countP_lo id leftRows hsortL j hj))
              (fun j hij hjl => le_of_lt (sortedLe_countP_hi id leftRows hsortL hnk j hij hjl))⟩)
          rw [hred, hfrom]
          show (if leftRows.countP (fun c => decide (c.key < id)) < 1 then _ else _) = _
          rw [if_neg hcp1]
          exact write_leaf_cell_nonfull t 2 _ _ leftN leftRows _
            (by decide) hgd2 habsL hlt hcple
  · rw [if_neg hks] at hred
    have hgtk : sep < id := by omega
    by_cases hpres : ∃ c ∈ rightRows, c.key = id
    · obtain ⟨c, hcm, hck⟩ := hpres
      obtain ⟨ip, hiplt, hipd⟩ := mem_getD rightRows c dCell hcm
      obtain ⟨i, hilt, hik, hfrom⟩ := from_leaf_node_present t 1 rightN rightRows id
        (by decide) hgd1 habsR hsortR ip hiplt (by rw [hipd, hck])
      by_cases hi1 : i < 1
      · left
        rw [hred, hfrom]
        show (if i < 1 then _ else _) = _
        rw [if_pos hi1]
        show Res.bind (Cursor.read_leaf_cell _ t) _ = _
        unfold Cursor.read_leaf_cell
        rw [getPage_cached t 1 rightN (by decide) hgd1]
        show (match rightN.read_leaf_cell i with
          | none => Res.fatal panicUnwrapMsg t
          | some c => _) = _
        rw [leafAbs_read_lt rightN rightRows habsR i hilt]
        show (if id = (rightRows.getD i dCell).key then _ else _) = _
        rw [if_pos hik.symm]
      · by_cases hfull : rightRows.length = 13
        · refine Or.inr (Or.inr ?_)
          obtain ⟨t', hw⟩ := write_leaf_cell_nonroot_full t 1 i false rightN rightRows
            { key := id, value := { id := id, name := padBuf name NAME_MAX_SIZE, description := padBuf desc DESCRIPTION_MAX_SIZE } }
            (by decide) (by decide) hgd1 habsR hfull (by omega) hirR hnp hgd3
          refine ⟨t', ?_⟩
          rw [hred, hfrom]
          show (if i < 1 then _ else _) = _
          rw [if_neg hi1]
          exact hw
        · have hlt : rightRows.length < LEAF_NODE_CELL_MAX_NUM := by
            have h13 : rightRows.length ≤ 13 := habsR.2.2.2.1
            show rightRows.length < 13
            omega
          refine Or.inr (Or.inl ⟨_, ?_,
            _, leftN, _, leftRows,
            shapeB_insert_right t root rightN leftN rightRows leftRows sep hS
              { key := id, value := { id := id, name := padBuf name NAME_MAX_SIZE, description := padBuf desc DESCRIPTION_MAX_SIZE } }
              i (by omega) hlt hwc hgtk
              (fun j hj => by
                have h2 := pairwise_le_getD rightRows hsortR j i (by omega) hilt
                rw [hik] at h2
                exact h2)
              (fun j hij hjl => by
                have h2 := pairwise_le_getD rightRows hsortR i j hij hjl
                rw [hik] at h2
                exact h2)⟩)
          rw [hred, hfrom]
          show (if i < 1 then _ else _) = _
          rw [if_neg hi1]
          exact write_leaf_cell_nonfull t 1 i false rightN rightRows _
            (by decide) hgd1 habsR hlt (by omega)
    · have hnk : ∀ c ∈ rightRows, c.key ≠ id := by
        intro c hc he
        exact hpres ⟨c, hc, he⟩
      have hfrom := from_leaf_node_absent t 1 rightN rightRows id (by decide) hgd1
        habsR hsortR hnk
      have hcple : rightRows.countP (fun c => decide (c.key < id)) ≤ rightRows.length :=
        lb_le_length rightRows id
      by_cases hcp1 : rightRows.countP (fun c => decide (c.key < id)) < 1
      · have hcplt : rightRows.countP (fun c => decide (c.key < id)) < rightRows.length := by
          omega
        by_cases hfull : rightRows.length = 13
        · refine Or.inr (Or.inr ?_)
          obtain ⟨t', hw⟩ := write_leaf_cell_nonroot_full t 1
            (rightRows.countP (fun c => decide (c.key < id)))
            (decide (rightRows.countP (fun c => decide (c.key < id)) = rightRows.length))
            rightN rightRows
            { key := id, value := { id := id, name := padBuf name NAME_MAX_SIZE, description := padBuf desc DESCRIPTION_MAX_SIZE } }
            (by decide) (by decide) hgd1 habsR hfull (by omega) hirR hnp hgd3
          refine ⟨t', ?_⟩
          rw [hred, hfrom]
          show (if rightRows.countP (fun c => decide (c.key < id)) < 1 then _ else _) = _
          rw [if_pos hcp1]
          show Res.bind (Cursor.read_leaf_cell _ t) _ = _
          unfold Cursor.read_leaf_cell
          rw [getPage_cached t 1 rightN (by decide) hgd1]
          show (match rightN.read_leaf_cell (rightRows.countP (fun c => decide (c.key < id))) with
            | none => Res.fatal panicUnwrapMsg t
            | some c => _) = _
          rw [leafAbs_read_lt rightN rightRows habsR _ hcplt]
          show (if id = (rightRows.getD (rightRows.countP (fun c => decide (c.key < id))) dCell).key then _ else _) = _
          rw [if_neg (fun he => hnk _ (getD_mem rightRows _ dCell hcplt) he.symm)]
          exact hw
        · have hlt : rightRows.length < LEAF_NODE_CELL_MAX_NUM := by
            have h13 : rightRows.length ≤ 13 := habsR.2.2.2.1
            show rightRows.length < 13
            omega
          refine Or.inr (Or.inl ⟨_, ?_,
            _, leftN, _, leftRows,
            shapeB_insert_right t root rightN leftN rightRows leftRows sep hS
              { key := id, value := { id := id, name := padBuf name NAME_MAX_SIZE, description := padBuf desc DESCRIPTION_MAX_SIZE } }
              (rightRows.countP (fun c => decide (c.key < id))) hcple hlt hwc hgtk
              (fun j hj => le_of_lt (sortedLe_countP_lo id rightRows hsortR j hj))
              (fun j hij hjl => le_of_lt (sortedLe_countP_hi id rightRows hsortR hnk j hij hjl))⟩)
          rw [hred, hfrom]
          show (if rightRows.countP (fun c => decide (c.key < id)) < 1 then _ else _) = _
          rw [if_pos hcp1]
          show Res.bind (Cursor.read_leaf_cell _ t) _ = _
          unfold Cursor.read_leaf_cell
          rw [getPage_cached t 1 rightN (by decide) hgd1]
          show (match rightN.read_leaf_cell (rightRows.countP (fun c => decide (c.key < id))) with
            | none => Res.fatal panicUnwrapMsg t
            | some c => _) = _
          rw [leafAbs_read_lt rightN rightRows habsR _ hcplt]
          show (if id = (rightRows.getD (rightRows.countP (fun c => decide (c.key < id))) dCell).key then _ else _) = _
          rw [if_neg (fun he => hnk _ (getD_mem rightRows _ dCell hcplt) he.symm)]
          exact write_leaf_cell_nonfull t 1 _ _ rightN rightRows _
            (by decide) hgd1 habsR hlt hcple
      · by_cases hfull : rightRows.length = 13
        · refine Or.inr (Or.inr ?_)
          obtain ⟨t', hw⟩ := write_leaf_cell_nonroot_full t 1
            (rightRows.countP (fun c => decide (c.key < id)))
            (decide (rightRows.countP (fun c => decide (c.key < id)) = rightRows.length))
            rightN rightRows
            { key := id, value := { id := id, name := padBuf name NAME_MAX_SIZE, description := padBuf desc DESCRIPTION_MAX_SIZE } }
            (by decide) (by decide) hgd1 habsR hfull (by omega) hirR hnp hgd3
          refine ⟨t', ?_⟩
          rw [hred, hfrom]
          show (if rightRows.countP (fun c => decide (c.key < id)) < 1 then _ else _) = _
          rw [if_neg hcp1]
          exact hw
        · have hlt : rightRows.length < LEAF_NODE_CELL_MAX_NUM := by
            have h13 : rightRows.length ≤ 13 := habsR.2.2.2.1
            show rightRows.length < 13
            omega
          refine Or.inr (Or.inl ⟨_, ?_,
            _, leftN, _, leftRows,
            shapeB_insert_right t root rightN leftN rightRows leftRows sep hS
              { key := id, value := { id := id, name := padBuf name NAME_MAX_SIZE, description := padBuf desc DESCRIPTION_MAX_SIZE } }
              (rightRows.countP (fun c => decide (c.key < id))) hcple hlt hwc hgtk
              (fun j hj => le_of_lt (sortedLe_countP_lo id rightRows hsortR j hj))
              (fun j hij hjl => le_of_lt (sortedLe_countP_hi id rightRows hsortR hnk j hij hjl))⟩)
          rw [hred, hfrom]
          show (if rightRows.countP (fun c => decide (c.key < id)) < 1 then _ else _) = _
          rw [if_neg hcp1]
          exact write_leaf_cell_nonfull t 1 _ _ rightN rightRows _
            (by decide) hgd1 habsR hlt hcple

lemma dupKeyMsg_ne_table_full (id : Int) : dupKeyMsg id ≠ ERR_TABLE_FULL := by
  intro he
  have h2 : (dupKeyMsg id).data.getD 7 'x' = ERR_TABLE_FULL.data.getD 7 'x' := by
    rw [he]
  have h3 : (dupKeyMsg id).data.getD 7 'x' = 'k' := by
    show (("ERROR: key \x27" ++ toString id ++ "\x27 already exist.").data).getD 7 'x' = 'k'
    rw [String.data_append, String.data_append, List.append_assoc,
      List.getD_append _ _ 'x' 7 (by decide)]
    decide
  rw [h3] at h2
  exact absurd h2.symm (by decide)

lemma insert_total (t : Table) (id : Int) (name desc : List Nat)
    (hG : GInv t) (hlo : -(2 ^ 63) ≤ id) (hhi : id < 2 ^ 63)
    (hnb : ∀ b ∈ name, b < 256) (hdb : ∀ b ∈ desc, b < 256) :
    (∃ m, Table.insert t id name desc = .err m t ∧ m ≠ ERR_TABLE_FULL) ∨
    (∃ t', Table.insert t id name desc = .ok () t' ∧ GInv t') ∨
    (∃ m t', Table.insert t id name desc = .fatal m t') := by
  by_cases h1 : id ≤ 0
  · exact Or.inl ⟨_, insert_nonpositive t id name desc h1, by decide⟩
  by_cases h2 : NAME_MAX_SIZE < name.length
  · exact Or.inl ⟨_, insert_name_too_long t id name desc h1 h2, by decide⟩
  by_cases h3 : DESCRIPTION_MAX_SIZE < desc.length
  · exact Or.inl ⟨_, insert_desc_too_long t id name desc h1 h2 h3, by decide⟩
  have hv : ValidInput (id, name, desc) :=
    ⟨by omega, hhi, not_lt.mp h2, hnb, not_lt.mp h3, hdb⟩
  rcases hG with ⟨root, rows, hA⟩ | ⟨root, rightN, leftN, rR, lR, sep, hB⟩
  · by_cases hpres : ∃ c ∈ rows, c.key = id
    · exact Or.inl ⟨_, insert_shapeA_dup t root rows id name desc hA
        (not_lt.mp h2) (not_lt.mp h3) hpres, dupKeyMsg_ne_table_full id⟩
    · have hnk : ∀ c ∈ rows, c.key ≠ id := fun c hc he => hpres ⟨c, hc, he⟩
      by_cases hfull : rows.length = LEAF_NODE_CELL_MAX_NUM
      · obtain ⟨t', root', rN, lN, hok, hB'⟩ :=
          insert_shapeA_full t root rows (id, name, desc) hA hv hnk hfull
        exact Or.inr (Or.inl ⟨t', hok, Or.inr ⟨root', rN, lN, _, _, _, hB'⟩⟩)
      · have hle13 : rows.length ≤ 13 := hA.2.2.2.2.1.2.2.2.1
        have hlt : rows.length < LEAF_NODE_CELL_MAX_NUM := by
          have hne13 : rows.length ≠ 13 := hfull
          show rows.length < 13
          omega
        obtain ⟨t', root', hok, hA'⟩ :=
          insert_shapeA_new t root rows (id, name, desc) hA hv hnk hlt
        exact Or.inr (Or.inl ⟨t', hok, Or.inl ⟨root', _, hA'⟩⟩)
  · rcases insert_shapeB t root rightN leftN rR lR sep hB id name desc hv with
      herr | ⟨t', hok, rN', lN', rR', lR', hB'⟩ | ⟨t', hf⟩
    · exact Or.inl ⟨_, herr, dupKeyMsg_ne_table_full id⟩
    · exact Or.inr (Or.inl ⟨t', hok, Or.inr ⟨root, rN', lN', rR', lR', sep, hB'⟩⟩)
    · exact Or.inr (Or.inr ⟨_, t', hf⟩)

lemma reachable_ginv (t : Table) (h : Reachable t) : GInv t := by
  induction h with
  | init => exact Or.inl ⟨_, _, shapeA_fresh⟩
  | step_ok t id name desc t' hr hlo hhi hnb hdb hins ih =>
    rcases insert_total t id name desc ih hlo hhi hnb hdb with
      ⟨m, he, _⟩ | ⟨t'', hok, hg⟩ | ⟨m, t'', hf⟩
    · rw [hins] at he
      exact Res.noConfusion he
    · rw [hins] at hok
      injection hok with h1 h2
      rw [← h2] at hg
      exact hg
    · rw [hins] at hf
      exact Res.noConfusion hf
  | step_err t id name desc m t' hr hlo hhi hnb hdb hins ih =>
    rcases insert_total t id name desc ih hlo hhi hnb hdb with
      ⟨m2, he, _⟩ | ⟨t'', hok, hg⟩ | ⟨m2, t'', hf⟩
    · rw [hins] at he
      injection he with h1 h2
      rw [← h2] at ih
      exact ih
    · rw [hins] at hok
      exact Res.noConfusion hok
    · rw [hins] at hf
      exact Res.noConfusion hf

lemma insert_err_of_reachable (t : Table) (id : Int) (name desc : List Nat)
    (m : String) (t' : Table) (hr : Reachable t)
    (hlo : -(2 ^ 63) ≤ id) (hhi : id < 2 ^ 63)
    (hnb : ∀ b ∈ name, b < 256) (hdb : ∀ b ∈ desc, b < 256)
    (he : Table.insert t id name desc = .err m t') :
    m ≠ ERR_TABLE_FULL ∧ t' = t := by
  have hg := reachable_ginv t hr
  rcases insert_total t id name desc hg hlo hhi hnb hdb with
    ⟨m2, he2, hne⟩ | ⟨t2, hok, _⟩ | ⟨m2, t2, hf⟩
  · rw [he] at he2
    injection he2 with h1 h2
    rw [h1]
    exact ⟨hne, h2⟩
  · rw [he] at hok
    exact Res.noConfusion hok
  · rw [he] at hf
    exact Res.noConfusion hf


lemma populatedNode_of_leafAbs (n : Node) (rows : List LeafCell)
    (habs : LeafAbs n rows) : PopulatedNode n := by
  unfold PopulatedNode
  rw [habs.1]
  intro i hi
  rw [leafAbs_read_lt n rows habs i (by rw [← habs.2.2.1]; exact hi)]
  exact Option.some_ne_none _

lemma ginv_populated (t : Table) (h : GInv t) : PopulatedPager t.pager := by
  rcases h with ⟨root, rows, hA⟩ | ⟨root, rightN, leftN, rR, lR, sep, hB⟩
  · obtain ⟨h0, hfile, hnp, hpages, habs, hroot, hpar, hsort, hwf⟩ := hA
    intro i n hn
    rw [hpages] at hn
    rcases i with _ | j
    · injection hn with hn
      rw [← hn]
      exact populatedNode_of_leafAbs root rows habs
    · rw [show (some root :: List.replicate 63 none).getD (j + 1) none
        = (List.replicate 63 (none : Option Node)).getD j none from rfl,
        getD_replicate_none] at hn
      exact Option.noConfusion hn
  · obtain ⟨h0, hfile, hnp, hpages, hkind, hroot, hpar, hnc, hlc, hrc, hic,
      habsR, hirR, hparR, habsL, hirL, hparL, h1L, h1R, hsortL, hsortR,
      hwfL, hwfR, hbndL, hbndR, hlast⟩ := hB
    intro i n hn
    rw [hpages] at hn
    rcases i with _ | _ | _ | j
    · injection hn with hn
      rw [← hn]
      unfold PopulatedNode
      rw [hkind]
      intro i hi
      have hi0 : i = 0 := by
        rw [hnc] at hi
        omega
      subst hi0
      rw [show root.read_internal_cell 0
          = ((root.internal_cells).getD []).getD 0 none from rfl, hic,
        Option.getD_some,
        getD_fill_lt [{ child := 2, key := sep }] INTERNAL_NODE_CELL_MAX_NUM 0 dICell
          Nat.one_pos]
      exact Option.some_ne_none _
    · injection hn with hn
      rw [← hn]
      exact populatedNode_of_leafAbs rightN rR habsR
    · injection hn with hn
      rw [← hn]
      exact populatedNode_of_leafAbs leftN lR habsL
    · rw [show (some root :: some rightN :: some leftN ::
          List.replicate 61 none).getD (j + 3) none
          = (List.replicate 61 (none : Option Node)).getD j none from rfl,
        getD_replicate_none] at hn
      exact Option.noConfusion hn

lemma get_max_key_ok (n : Node) (h : PopulatedNode n) (h1 : 1 ≤ n.n_cells) :
    ∃ k, n.get_max_key = .ok k := by
  unfold Node.get_max_key
  rw [if_neg (by rw [Node.get_n_cells]; omega)]
  rcases hk : n.kind with _ | _
  · have h2 : n.read_internal_cell (n.n_cells - 1) ≠ none := by
      have h3 : ∀ i, i < n.n_cells → n.read_internal_cell i ≠ none := by
        have h4 := h
        unfold PopulatedNode at h4
        rw [hk] at h4
        exact h4
      exact h3 (n.n_cells - 1) (by omega)
    rcases hc : n.read_internal_cell (n.n_cells - 1) with _ | c
    · exact absurd hc h2
    · refine ⟨c.key, ?_⟩
      show (match n.read_internal_cell (n.get_n_cells - 1) with
        | some c => Except.ok c.key
        | none => Except.error panicUnwrapMsg) = _
      rw [show n.get_n_cells = n.n_cells from rfl, hc]
  · have h2 : n.read_leaf_cell (n.n_cells - 1) ≠ none := by
      have h3 : ∀ i, i < n.n_cells → n.read_leaf_cell i ≠ none := by
        have h4 := h
        unfold PopulatedNode at h4
        rw [hk] at h4
        exact h4
      exact h3 (n.n_cells - 1) (by omega)
    rcases hc : n.read_leaf_cell (n.n_cells - 1) with _ | c
    · exact absurd hc h2
    · refine ⟨c.key, ?_⟩
      show (match n.read_leaf_cell (n.get_n_cells - 1) with
        | some c => Except.ok c.key
        | none => Except.error panicUnwrapMsg) = _
      rw [show n.get_n_cells = n.n_cells from rfl, hc]

lemma readLeafCells_length (file : List Nat) : ∀ (k off : Nat),
    (readLeafCells file off k).length = k
  | 0, _ => rfl
  | k + 1, off => by
    show (readLeafCells file (off + LEAF_NODE_CELL_SIZE) k).length + 1 = k + 1
    rw [readLeafCells_length file k (off + LEAF_NODE_CELL_SIZE)]

lemma readInternalCells_length (file : List Nat) : ∀ (k off : Nat),
    (readInternalCells file off k).length = k
  | 0, _ => rfl
  | k + 1, off => by
    show (readInternalCells file (off + INTERNAL_NODE_CELL_SIZE) k).length + 1 = k + 1
    rw [readInternalCells_length file k (off + INTERNAL_NODE_CELL_SIZE)]

lemma read_at_populated (file : List Nat) (off : Nat) (n : Node)
    (hok : Node.read_at file off = .ok n)
    (hcap : n.kind = .leaf → n.n_cells ≤ LEAF_NODE_CELL_MAX_NUM)
    (hcapI : n.kind = .internal → n.n_cells ≤ INTERNAL_NODE_CELL_MAX_NUM) :
    PopulatedNode n := by
  unfold Node.read_at at hok
  rcases hfu : NodeKind.from_u8 (leToNat (readBuf file off NODE_KIND_SIZE)) with e | kind
  · rw [hfu] at hok
    exact Except.noConfusion hok
  · rw [hfu] at hok
    rcases kind with _ | _
    · injection hok with hok
      have hkind : n.kind = .internal := by rw [← hok]
      have hcells : n.internal_cells = some (fillCells
          (readInternalCells file (off + 14)
            (min (decU32 (readBuf file (off + 6) NODE_N_CELLS_SIZE)) INTERNAL_NODE_CELL_MAX_NUM))
          INTERNAL_NODE_CELL_MAX_NUM) := by rw [← hok]
      have hncl : n.n_cells = decU32 (readBuf file (off + 6) NODE_N_CELLS_SIZE) := by
        rw [← hok]
      unfold PopulatedNode
      rw [hkind]
      intro i hi
      rw [show n.read_internal_cell i = ((n.internal_cells).getD []).getD i none from rfl,
        hcells, Option.getD_some,
        getD_fill_lt _ _ i dICell (by
          rw [readInternalCells_length]
          have hle : n.n_cells ≤ INTERNAL_NODE_CELL_MAX_NUM := hcapI hkind
          have hle340 : n.n_cells ≤ 340 := hle
          rw [hncl] at hi hle340
          omega)]
      exact Option.some_ne_none _
    · injection hok with hok
      have hkind : n.kind = .leaf := by rw [← hok]
      have hcells : n.leaf_cells = some (fillCells
          (readLeafCells file (off + 10)
            (min (decU32 (readBuf file (off + 6) NODE_N_CELLS_SIZE)) LEAF_NODE_CELL_MAX_NUM))
          LEAF_NODE_CELL_MAX_NUM) := by rw [← hok]
      have hncl : n.n_cells = decU32 (readBuf file (off + 6) NODE_N_CELLS_SIZE) := by
        rw [← hok]
      unfold PopulatedNode
      rw [hkind]
      intro i hi
      rw [show n.read_leaf_cell i = ((n.leaf_cells).getD []).getD i none from rfl,
        hcells, Option.getD_some,
        getD_fill_lt _ _ i dCell (by
          rw [readLeafCells_length]
          have := hcap hkind
          rw [hncl] at hi
          have hle13 : n.n_cells ≤ 13 := hcap hkind
          rw [hncl] at hle13
          omega)]
      exact Option.some_ne_none _

lemma insertAll_reachable : ∀ (inps : List (Int × List Nat × List Nat)) (t t' : Table),
    Reachable t →
    (∀ i ∈ inps, -(2 ^ 63) ≤ i.1 ∧ i.1 < 2 ^ 63 ∧
      (∀ b ∈ i.2.1, b < 256) ∧ (∀ b ∈ i.2.2, b < 256)) →
    insertAll t inps = .ok () t' → Reachable t'
  | [], t, t', hr, _, h => by
    injection h with h1 h2
    rw [← h2]
    exact hr
  | (id, name, desc) :: rest, t, t', hr, hv, h => by
    have hun : insertAll t ((id, name, desc) :: rest)
        = (match Table.insert t id name desc with
          | .ok _ u => insertAll u rest
          | .err e u => .err e u
          | .fatal e u => .fatal e u) := rfl
    rcases hres : Table.insert t id name desc with ⟨v, t2⟩ | ⟨e, t2⟩ | ⟨e, t2⟩
    · rw [hun, hres] at h
      have hv0 := hv (id, name, desc) (List.mem_cons_self _ _)
      cases v
      have hr2 : Reachable t2 := Reachable.step_ok t id name desc t2 hr
        hv0.1 hv0.2.1 hv0.2.2.1 hv0.2.2.2 hres
      exact insertAll_reachable rest t2 t' hr2
        (fun i hi => hv i (List.mem_cons_of_mem _ hi)) h
    · rw [hun, hres] at h
      exact absurd h (by simp)
    · rw [hun, hres] at h
      exact absurd h (by simp)

/-- C1: the claim is false after a root split.  In the reachable state reached
by inserting keys 1..14 (state `t1`, a split tree), key 5 is present in the
table, yet a second `insert` of id 5 returns `Ok` and appends a duplicate row
(page 2 grows from 7 to 8 cells) instead of failing with the duplicate-key
error: the post-split duplicate check compares the leaf cursor index against
the ROOT node cell count (1), so only index 0 is ever checked. -/
theorem duplicate_insert_after_split_accepted :
    ∃ t1 t2, Reachable t1 ∧ KeyIn t1.pager 0 5 ∧
      Table.insert t1 5 [] [] = .ok () t2 ∧
      (∃ n2, t2.pager.pages.getD 2 none = some n2 ∧ n2.n_cells = 8) := by
  obtain ⟨t1, root, rightN, leftN, rR, lR, sep, hall, hB, hl7, hr7, hperm⟩ :=
    insertAll14_shapeB inps14 rfl (by simp only [ValidInput]; decide) (by decide)
  have hS2 := hB
  obtain ⟨h0, hfile, hnp, hpages, hkind, hroot, hpar, hnc, hlc, hrc, hic,
    habsR, hirR, hparR, habsL, hirL, hparL, h1L, h1R, hsortL, hsortR,
    hwfL, hwfR, hbndL, hbndR, hlast⟩ := hS2
  have hlecat : (lR ++ rR).Pairwise (fun a b => a.key ≤ b.key) :=
    List.pairwise_append.mpr ⟨hsortL, hsortR,
      fun a ha b hb => le_trans (hbndL a ha) (le_of_lt (hbndR b hb))⟩
  have hnecat : (lR ++ rR).Pairwise (fun a b => a.key ≠ b.key) := by
    have hmap : (inps14.map mkCellOf).Pairwise (fun a b => a.key ≠ b.key) :=
      List.pairwise_map.mpr (by decide)
    exact (hperm.pairwise_iff (fun h => Ne.symm h)).mpr hmap
  have hltcat : (lR ++ rR).Pairwise (fun a b => a.key < b.key) :=
    (hlecat.and hnecat).imp (fun h => lt_of_le_of_ne h.1 h.2)
  have hl14lt : (inps14.map mkCellOf).Pairwise (fun a b => a.key < b.key) :=
    List.pairwise_map.mpr (by decide)
  haveI : IsAntisymm LeafCell (fun a b => a.key < b.key) :=
    ⟨fun a b h1 h2 => absurd (lt_trans h1 h2) (lt_irrefl _)⟩
  have hcat : lR ++ rR = inps14.map mkCellOf :=
    List.eq_of_perm_of_sorted hperm hltcat hl14lt
  have hlR : lR = (inps14.map mkCellOf).take 7 := by
    have h1 : (lR ++ rR).take lR.length = lR := List.take_left lR rR
    rw [hcat, hl7] at h1
    exact h1.symm
  have hsep7 : sep = 7 := by
    rw [hlR] at hlast
    have h2 : ((((inps14.map mkCellOf).take 7).map (fun c => c.key)).getLast?)
        = some (7 : Int) := rfl
    rw [h2] at hlast
    injection hlast with h3
    exact h3.symm
  have hkey4 : (lR.getD 4 dCell).key = 5 := by rw [hlR]; rfl
  have h4lt : 4 < lR.length := by rw [hl7]; decide
  have hgd0 : t1.pager.pages.getD 0 none = some root := by rw [hpages]; rfl
  have hgd2 : t1.pager.pages.getD 2 none = some leftN := by rw [hpages]; rfl
  have hred := insert_shapeB_reduce t1 root rightN leftN rR lR sep hB 5 [] []
    (by decide) (by decide) (by decide)
  rw [if_pos (show (5 : Int) ≤ sep by rw [hsep7]; decide)] at hred
  obtain ⟨i, hilt, hik, hfrom⟩ := from_leaf_node_present t1 2 leftN lR 5
    (by decide) hgd2 habsL hsortL 4 h4lt hkey4
  have hi1 : ¬ i < 1 := by
    intro hl
    have hi0 : i = 0 := by omega
    rw [hi0, hlR] at hik
    exact absurd hik (by decide)
  have hlt : lR.length < LEAF_NODE_CELL_MAX_NUM := by
    rw [hl7]
    decide
  have hr1 : Reachable t1 :=
    insertAll_reachable inps14 freshTable t1 Reachable.init (by decide) hall
  have hkeyin : KeyIn t1.pager 0 5 := by
    refine KeyIn.via_cell 0 root 0 { child := 2, key := sep } 5 hgd0 hkind ?_ ?_ ?_
    · rw [show root.read_internal_cell 0
          = ((root.internal_cells).getD []).getD 0 none from rfl, hic,
        Option.getD_some, getD_fill_lt [{ child := 2, key := sep }]
          INTERNAL_NODE_CELL_MAX_NUM 0 dICell Nat.one_pos]
      rfl
    · rw [hnc]
      decide
    · show KeyIn t1.pager (i32AsUsize (2 : Int)) 5
      rw [show i32AsUsize (2 : Int) = 2 from rfl]
      exact KeyIn.here 2 leftN i (lR.getD i dCell) 5 hgd2
        (leafAbs_read_lt leftN lR habsL i hilt)
        (by rw [habsL.2.2.1]; exact hilt) hik
  refine ⟨t1, t1.setPage 2 { leftN with leaf_cells := some (fillCells (lR.insertIdx i { key := 5, value := { id := 5, name := padBuf [] NAME_MAX_SIZE, description := padBuf [] DESCRIPTION_MAX_SIZE } }) LEAF_NODE_CELL_MAX_NUM), n_cells := lR.length + 1 }, hr1, hkeyin, ?_, ?_⟩
  · rw [hred, hfrom]
    show (if i < 1 then _ else _) = _
    rw [if_neg hi1]
    exact write_leaf_cell_nonfull t1 2 i false leftN lR _ (by decide) hgd2 habsL hlt
      (by omega)
  · refine ⟨{ leftN with leaf_cells := some (fillCells (lR.insertIdx i { key := 5, value := { id := 5, name := padBuf [] NAME_MAX_SIZE, description := padBuf [] DESCRIPTION_MAX_SIZE } }) LEAF_NODE_CELL_MAX_NUM), n_cells := lR.length + 1 }, ?_, ?_⟩
    · show (t1.pager.pages.set 2 _).getD 2 none = _
      rw [hpages]
      rfl
    · show lR.length + 1 = 8
      rw [hl7]

/-- C7: `get_page` rejects any page index at or beyond the 64-page cap with
the table-full error and leaves the pager untouched; moreover in every
reachable session state no insert ever reaches such an index, so every failed
insert returns with the table unchanged and its message is never the
table-full error (the only split that fits before the unimplemented
non-root-split panic uses pages 1 and 2). -/
theorem insert_never_table_full :
    (∀ (p : Pager) (i : Nat), PAGE_MAX_NUM ≤ i → p.get_page i = (.error ERR_TABLE_FULL, p)) ∧
    (∀ (t : Table) (id : Int) (name desc : List Nat) (m : String) (t' : Table), Reachable t →
      -(2 ^ 63) ≤ id → id < 2 ^ 63 →
      (∀ b ∈ name, b < 256) → (∀ b ∈ desc, b < 256) →
      Table.insert t id name desc = .err m t' → t' = t ∧ m ≠ ERR_TABLE_FULL) := by
  constructor
  · intro p i hi
    unfold Pager.get_page
    rw [if_pos hi]
  · intro t id name desc m t' hr hlo hhi hnb hdb he
    obtain ⟨h1, h2⟩ := insert_err_of_reachable t id name desc m t' hr hlo hhi hnb hdb he
    exact ⟨h2, h1⟩

/-- Witness for C7 at concrete inputs: the cap error at page 64, and a failed
insert (id 0) on the fresh table leaving it unchanged. -/
theorem insert_never_table_full_witness :
    emptyPager.get_page 64 = (.error ERR_TABLE_FULL, emptyPager) ∧
    (freshTable = freshTable ∧ ERR_NOT_POSITIVE_ID ≠ ERR_TABLE_FULL) :=
  ⟨insert_never_table_full.1 emptyPager 64 (by decide),
    insert_never_table_full.2 freshTable 0 [] [] ERR_NOT_POSITIVE_ID freshTable Reachable.init
      (by decide) (by decide) (fun b hb => absurd hb (List.not_mem_nil b))
      (fun b hb => absurd hb (List.not_mem_nil b)) rfl⟩

/-- C10: populated-slot invariant.  Every reachable state has a pager in which
each cached node keeps its first `n_cells` buffer slots populated;
`become_leaf_node`/`become_internal_node` reset to populated (empty) nodes; a
node decoded from the file whose `n_cells` fits its buffer is populated; and
on populated nodes cell reads below `n_cells` never hit an empty slot and
`get_max_key` succeeds whenever `n_cells ≥ 1`. -/
theorem populated_prefix_invariant :
    (∀ (t : Table), Reachable t → PopulatedPager t.pager) ∧
    (∀ (n : Node), PopulatedNode n.become_leaf_node ∧ PopulatedNode n.become_internal_node) ∧
    (∀ (file : List Nat) (off : Nat) (n : Node), Node.read_at file off = .ok n →
      (n.kind = .leaf → n.n_cells ≤ LEAF_NODE_CELL_MAX_NUM) →
      (n.kind = .internal → n.n_cells ≤ INTERNAL_NODE_CELL_MAX_NUM) →
      PopulatedNode n) ∧
    (∀ (n : Node) (i : Nat), PopulatedNode n → n.kind = .leaf → i < n.n_cells →
      n.read_leaf_cell i ≠ none) ∧
    (∀ (n : Node), PopulatedNode n → 1 ≤ n.n_cells → ∃ k, n.get_max_key = .ok k) := by
  refine ⟨fun t hr => ginv_populated t (reachable_ginv t hr), fun n => ⟨?_, ?_⟩,
    read_at_populated, ?_, get_max_key_ok⟩
  · unfold PopulatedNode
    rw [show n.become_leaf_node.kind = NodeKind.leaf from rfl]
    intro i hi
    exact absurd hi (by
      rw [show n.become_leaf_node.n_cells = 0 from rfl]
      omega)
  · unfold PopulatedNode
    rw [show n.become_internal_node.kind = NodeKind.internal from rfl]
    intro i hi
    exact absurd hi (by
      rw [show n.become_internal_node.n_cells = 0 from rfl]
      omega)
  · intro n i hp hk hi
    have h3 : ∀ j, j < n.n_cells → n.read_leaf_cell j ≠ none := by
      have h4 := hp
      unfold PopulatedNode at h4
      rw [hk] at h4
      exact h4
    exact h3 i hi

/-- Witness for C10 at concrete inputs: the fresh table, and `get_max_key` on
a one-cell leaf. -/
theorem populated_prefix_invariant_witness :
    PopulatedPager freshTable.pager ∧
    (∃ k, ({ kind := .leaf, is_root := true, parent := -1, n_cells := 1, leaf_cells := some (fillCells [dCell] LEAF_NODE_CELL_MAX_NUM), right_child := none, internal_cells := none } : Node).get_max_key = .ok k) :=
  ⟨populated_prefix_invariant.1 freshTable Reachable.init,
    populated_prefix_invariant.2.2.2.2 _ (by
      unfold PopulatedNode
      rw [show ({ kind := .leaf, is_root := true, parent := -1, n_cells := 1, leaf_cells := some (fillCells [dCell] LEAF_NODE_CELL_MAX_NUM), right_child := none, internal_cells := none } : Node).kind = NodeKind.leaf from rfl]
      intro i hi
      have hi0 : i = 0 := by
        have h1 : ({ kind := .leaf, is_root := true, parent := -1, n_cells := 1, leaf_cells := some (fillCells [dCell] LEAF_NODE_CELL_MAX_NUM), right_child := none, internal_cells := none } : Node).n_cells = 1 := rfl
        omega
      subst hi0
      decide) (by decide)⟩

lemma countP_ge_of_prefix {α : Type} (P : α → Bool) (d : α) : ∀ (l : List α) (k : Nat),
    k ≤ l.length → (∀ j, j < k → P (l.getD j d) = true) → k ≤ l.countP P
  | _, 0, _, _ => Nat.zero_le _
  | [], k + 1, hk, _ => by simp at hk
  | a :: l, k + 1, hk, h1 => by
    have ha : P a = true := by simpa [List.getD] using h1 0 (by omega)
    have := countP_ge_of_prefix P d l k (by simpa using hk)
      (fun j hj => by simpa [List.getD] using h1 (j + 1) (by omega))
    simp [List.countP_cons, ha]
    omega

lemma countP_le_of_suffix {α : Type} (P : α → Bool) (d : α) : ∀ (l : List α) (k : Nat),
    (∀ j, k ≤ j → j < l.length → P (l.getD j d) = false) → l.countP P ≤ k
  | [], k, _ => by simp
  | a :: l, 0, h2 => by
    have ha : P a = false := by simpa [List.getD] using h2 0 (by omega) (by simp)
    have := countP_le_of_suffix P d l 0
      (fun j hj hj' => by simpa [List.getD] using h2 (j + 1) (by omega) (by simpa using hj'))
    have hcons : (a :: l).countP P = l.countP P := by simp [List.countP_cons, ha]
    rw [hcons]
    exact this
  | a :: l, k + 1, h2 => by
    have := countP_le_of_suffix P d l k
      (fun j hj hj' => by simpa [List.getD] using h2 (j + 1) (by omega) (by simpa using hj'))
    by_cases ha : P a
    · have hcons : (a :: l).countP P = l.countP P + 1 := by simp [List.countP_cons, ha]
      rw [hcons]
      omega
    · have hcons : (a :: l).countP P = l.countP P := by
        simp [List.countP_cons, ha]
      rw [hcons]
      omega

lemma icell_read_lt (n : Node) (cells : List InternalCell)
    (hic : n.internal_cells = some (fillCells cells INTERNAL_NODE_CELL_MAX_NUM)) :
    ∀ i, i < cells.length → n.read_internal_cell i = some (cells.getD i dICell) := by
  intro i hi
  rw [show n.read_internal_cell i = ((n.internal_cells).getD []).getD i none from rfl,
    hic, Option.getD_some]
  exact getD_fill_lt cells _ i dICell hi

lemma icell_read_ge (n : Node) (cells : List InternalCell)
    (hic : n.internal_cells = some (fillCells cells INTERNAL_NODE_CELL_MAX_NUM)) :
    ∀ i, cells.length ≤ i → n.read_internal_cell i = none := by
  intro i hi
  rw [show n.read_internal_cell i = ((n.internal_cells).getD []).getD i none from rfl,
    hic, Option.getD_some]
  exact getD_fill_ge cells _ i hi

lemma seps_mono (cells : List InternalCell)
    (hadj : ∀ i, i + 1 < cells.length →
      (cells.getD i dICell).key < (cells.getD (i + 1) dICell).key) :
    ∀ i j, i ≤ j → j < cells.length →
      (cells.getD i dICell).key ≤ (cells.getD j dICell).key := by
  have hchain : ∀ d i, i + d < cells.length →
      (cells.getD i dICell).key ≤ (cells.getD (i + d) dICell).key := by
    intro d
    induction d with
    | zero => intro i _; exact le_refl _
    | succ d ih =>
      intro i h
      exact le_trans (ih i (by omega))
        (by
          have := hadj (i + d) (by omega)
          rw [show i + (d + 1) = i + d + 1 from rfl]
          exact le_of_lt this)
  intro i j hij hj
  have := hchain (j - i) i (by omega)
  rw [show i + (j - i) = j from by omega] at this
  exact this

lemma icell_countP_lo (cells : List InternalCell) (key : Int)
    (hsort : ∀ i j, i ≤ j → j < cells.length →
      (cells.getD i dICell).key ≤ (cells.getD j dICell).key) :
    ∀ j, j < cells.countP (fun c => decide (c.key < key)) →
      (cells.getD j dICell).key < key := by
  intro j hj
  by_contra hc
  have hkle : key ≤ (cells.getD j dICell).key := by omega
  have hcple : cells.countP (fun c => decide (c.key < key)) ≤ j :=
    countP_le_of_suffix _ dICell cells j (fun j2 hj2 hj2l => by
      simp only [decide_eq_false_iff_not, not_lt]
      exact le_trans hkle (hsort j j2 hj2 hj2l))
  omega

lemma icell_countP_hi (cells : List InternalCell) (key : Int)
    (hsort : ∀ i j, i ≤ j → j < cells.length →
      (cells.getD i dICell).key ≤ (cells.getD j dICell).key) :
    ∀ j, cells.countP (fun c => decide (c.key < key)) ≤ j → j < cells.length →
      key ≤ (cells.getD j dICell).key := by
  intro j hj hjl
  by_contra hc
  have hklt : (cells.getD j dICell).key < key := by omega
  have hge : j + 1 ≤ cells.countP (fun c => decide (c.key < key)) :=
    countP_ge_of_prefix _ dICell cells (j + 1) (by omega) (fun j2 hj2 => by
      simp only [decide_eq_true_eq]
      exact lt_of_le_of_lt (hsort j2 j (by omega) hjl) hklt)
  omega

lemma rows_le_mx (rows : List LeafCell) (mx : Int)
    (hsort : RowsSortedLe rows)
    (hlast : (rows.map (fun c => c.key)).getLast? = some mx) :
    ∀ c ∈ rows, c.key ≤ mx := by
  intro c hc
  have h1 : 1 ≤ rows.length := by
    rcases rows with _ | ⟨a, l⟩
    · exact absurd hc (List.not_mem_nil c)
    · simp
  have hmx := getLast_map_key rows h1 mx hlast
  obtain ⟨j, hj, hgd⟩ := mem_getD rows c dCell hc
  rw [← hgd, ← hmx]
  exact pairwise_le_getD rows hsort j (rows.length - 1) (by omega) (by omega)

lemma keyin_leaf_iff (p : Pager) (page : Nat) (n : Node) (rows : List LeafCell)
    (key : Int) (hn : p.pages.getD page none = some n) (habs : LeafAbs n rows) :
    (KeyIn p page key ↔ ∃ c ∈ rows, c.key = key) := by
  constructor
  · intro hki
    cases hki with
    | here page n0 i c key hn0 hrd hi hck =>
      rw [hn] at hn0
      have hnn : n0 = n := (Option.some.inj hn0).symm
      subst hnn
      have hil : i < rows.length := by rw [← habs.2.2.1]; exact hi
      rw [leafAbs_read_lt n0 rows habs i hil] at hrd
      have hcg : c = rows.getD i dCell := Option.some.inj hrd.symm
      exact ⟨rows.getD i dCell, getD_mem rows i dCell hil, by rw [← hcg]; exact hck⟩
    | via_cell page n0 i c key hn0 hkind hrd hi hrec =>
      rw [hn] at hn0
      have hnn : n0 = n := (Option.some.inj hn0).symm
      subst hnn
      rw [habs.1] at hkind
      exact NodeKind.noConfusion hkind
    | via_right page n0 rc key hn0 hkind hrc hrec =>
      rw [hn] at hn0
      have hnn : n0 = n := (Option.some.inj hn0).symm
      subst hnn
      rw [habs.1] at hkind
      exact NodeKind.noConfusion hkind
  · intro ⟨c, hc, hck⟩
    obtain ⟨j, hj, hgd⟩ := mem_getD rows c dCell hc
    exact KeyIn.here page n j (rows.getD j dCell) key hn
      (leafAbs_read_lt n rows habs j hj)
      (by rw [habs.2.2.1]; exact hj) (by rw [hgd]; exact hck)

lemma wfsub_lo_lt_mx (p : Pager) {page h : Nat} {lo : Option Int} {mx : Int}
    (hwf : WfSub p page h lo mx) : OptLt lo mx := by
  induction hwf with
  | leaf page h n rows lo mx hpg hn habs hsort hne hb hlast =>
    have h1 : 1 ≤ rows.length := by
      rcases rows with _ | ⟨a, l⟩
      · exact absurd rfl hne
      · simp
    have hmx := getLast_map_key rows h1 mx hlast
    have h2 := hb (rows.getD (rows.length - 1) dCell)
      (getD_mem rows (rows.length - 1) dCell (by omega))
    rw [hmx] at h2
    exact h2
  | internal page h n cells rc lo mx hpg hn hkind hlcn hic hnc hcne hcle hrc hch
      hright ihch ihright =>
    have hpos : 0 < cells.length := by
      rcases cells with _ | ⟨a, l⟩
      · exact absurd rfl hcne
      · simp
    have hadj : ∀ i, i + 1 < cells.length →
        (cells.getD i dICell).key < (cells.getD (i + 1) dICell).key := by
      intro i hi
      have h2 := ihch (i + 1) hi
      rw [if_neg (by omega : ¬ i + 1 = 0), show i + 1 - 1 = i from rfl] at h2
      exact h2
    have hmono := seps_mono cells hadj
    have hlast : (cells.getD (cells.length - 1) dICell).key < mx := ihright
    have h0 : OptLt lo ((cells.getD 0 dICell).key) := by
      have h2 := ihch 0 hpos
      rw [if_pos rfl] at h2
      exact h2
    rcases lo with _ | lo0
    · exact trivial
    · show lo0 < mx
      have h00 : lo0 < (cells.getD 0 dICell).key := h0
      have h01 : (cells.getD 0 dICell).key ≤ (cells.getD (cells.length - 1) dICell).key :=
        hmono 0 (cells.length - 1) (by omega) (by omega)
      omega

lemma wfsub_keyin_bounds (p : Pager) {page h : Nat} {lo : Option Int} {mx : Int}
    (hwf : WfSub p page h lo mx) : ∀ key, KeyIn p page key → OptLt lo key ∧ key ≤ mx := by
  induction hwf with
  | leaf page h n rows lo mx hpg hn habs hsort hne hb hlast =>
    intro key hki
    obtain ⟨c, hc, hck⟩ := (keyin_leaf_iff p page n rows key hn habs).mp hki
    refine ⟨?_, ?_⟩
    · rw [← hck]
      exact hb c hc
    · rw [← hck]
      exact rows_le_mx rows mx (rowsSortedLt_le rows hsort) hlast c hc
  | internal page h n cells rc lo mx hpg hn hkind hlcn hic hnc hcne hcle hrc hch
      hright ihch ihright =>
    intro key hki
    have hpos : 0 < cells.length := by
      rcases cells with _ | ⟨a, l⟩
      · exact absurd rfl hcne
      · simp
    have hadj : ∀ i, i + 1 < cells.length →
        (cells.getD i dICell).key < (cells.getD (i + 1) dICell).key := by
      intro i hi
      have h2 := wfsub_lo_lt_mx p (hch (i + 1) hi)
      rw [if_neg (by omega : ¬ i + 1 = 0), show i + 1 - 1 = i from rfl] at h2
      exact h2
    have hmono := seps_mono cells hadj
    have hlastlt : (cells.getD (cells.length - 1) dICell).key < mx :=
      wfsub_lo_lt_mx p hright
    have h0 : OptLt lo ((cells.getD 0 dICell).key) := by
      have h2 := wfsub_lo_lt_mx p (hch 0 hpos)
      rw [if_pos rfl] at h2
      exact h2
    cases hki with
    | here _ n0 i c _ hn0 hrd hi hck =>
      rw [hn] at hn0
      have hnn : n0 = n := (Option.some.inj hn0).symm
      subst hnn
      have hnone : n0.read_leaf_cell i = none := by
        rw [show n0.read_leaf_cell i = ((n0.leaf_cells).getD []).getD i none from rfl,
          hlcn]
        rfl
      rw [hnone] at hrd
      exact Option.noConfusion hrd
    | via_cell _ n0 i c _ hn0 hkind0 hrd hi hrec =>
      rw [hn] at hn0
      have hnn : n0 = n := (Option.some.inj hn0).symm
      subst hnn
      have hil : i < cells.length := by rw [← hnc]; exact hi
      rw [icell_read_lt n0 cells hic i hil] at hrd
      have hcg : c = cells.getD i dICell := Option.some.inj hrd.symm
      rw [hcg] at hrec
      have hbnd := ihch i hil key hrec
      refine ⟨?_, ?_⟩
      · rcases lo with _ | lo0
        · exact trivial
        · show lo0 < key
          by_cases hi0 : i = 0
          · have h2 := hbnd.1
            rw [hi0, if_pos rfl] at h2
            exact h2
          · have h2 := hbnd.1
            rw [if_neg hi0] at h2
            have h3 : (cells.getD (i - 1) dICell).key < key := h2
            have h00 : lo0 < (cells.getD 0 dICell).key := h0
            have h01 : (cells.getD 0 dICell).key ≤ (cells.getD (i - 1) dICell).key :=
              hmono 0 (i - 1) (by omega) (by omega)
            omega
      · have h2 := hbnd.2
        have h3 : (cells.getD i dICell).key ≤ (cells.getD (cells.length - 1) dICell).key :=
          hmono i (cells.length - 1) (by omega) (by omega)
        omega
    | via_right _ n0 rc0 _ hn0 hkind0 hrc0 hrec =>
      rw [hn] at hn0
      have hnn : n0 = n := (Option.some.inj hn0).symm
      subst hnn
      rw [hrc] at hrc0
      have hrr : rc0 = rc := Option.some.inj hrc0.symm
      subst hrr
      have hbnd := ihright key hrec
      refine ⟨?_, hbnd.2⟩
      rcases lo with _ | lo0
      · exact trivial
      · show lo0 < key
        have h2 : (cells.getD (cells.length - 1) dICell).key < key := hbnd.1
        have h00 : lo0 < (cells.getD 0 dICell).key := h0
        have h01 : (cells.getD 0 dICell).key ≤ (cells.getD (cells.length - 1) dICell).key :=
          hmono 0 (cells.length - 1) (by omega) (by omega)
        omega

lemma from_leaf_node_slot (t : Table) (pg : Nat) (n : Node) (rows : List LeafCell)
    (key : Int) (hpg : pg < PAGE_MAX_NUM)
    (hn : t.pager.pages.getD pg none = some n)
    (habs : LeafAbs n rows) (hsort : RowsSortedLt rows) :
    Cursor.from_leaf_node t pg key = .ok
      { page_index := pg
        cell_index := rows.countP (fun c => decide (c.key < key))
        end_of_table := if ∃ c ∈ rows, c.key = key then false
          else decide (rows.countP (fun c => decide (c.key < key)) = rows.length) } t ∧
    ((∃ c ∈ rows, c.key = key) →
      (rows.getD (rows.countP (fun c => decide (c.key < key))) dCell).key = key) := by
  by_cases hpres : ∃ c ∈ rows, c.key = key
  · obtain ⟨c, hc, hck⟩ := id hpres
    obtain ⟨ip, hiplt, hipd⟩ := mem_getD rows c dCell hc
    obtain ⟨i, hilt, hik, hfrom⟩ := from_leaf_node_present t pg n rows key hpg hn habs
      (rowsSortedLt_le rows hsort) ip hiplt (by rw [hipd, hck])
    have hcp : rows.countP (fun c => decide (c.key < key)) = i :=
      countP_eq_of_split _ dCell rows i (le_of_lt hilt)
        (fun j hj => by
          have h2 := pairwise_lt_getD rows hsort j i hj hilt
          rw [hik] at h2
          simpa using h2)
        (fun j hij hjl => by
          rcases Nat.eq_or_lt_of_le hij with he | hlt2
          · rw [← he, hik]
            simp
          · have h2 := pairwise_lt_getD rows hsort i j hlt2 hjl
            rw [hik] at h2
            simpa using not_lt.mpr (le_of_lt h2))
    refine ⟨?_, fun _ => by rw [hcp]; exact hik⟩
    rw [hfrom, if_pos hpres, hcp]
  · have hnk : ∀ c ∈ rows, c.key ≠ key := fun c hc he => hpres ⟨c, hc, he⟩
    refine ⟨?_, fun hp => absurd hp hpres⟩
    rw [from_leaf_node_absent t pg n rows key hpg hn habs
      (rowsSortedLt_le rows hsort) hnk, if_neg hpres]

set_option maxHeartbeats 2000000 in
lemma fromNode_wfsub (t : Table) {page h : Nat} {lo : Option Int} {mx : Int}
    (hwf : WfSub t.pager page h lo mx) : ∀ (key : Int) (fuel : Nat), h < fuel →
    ∃ pg n rows,
      t.pager.pages.getD pg none = some n ∧ LeafAbs n rows ∧ RowsSortedLt rows ∧
      ((∃ c ∈ rows, c.key = key) ↔ KeyIn t.pager page key) ∧
      ((∃ c ∈ rows, c.key = key) →
        (rows.getD (rows.countP (fun c => decide (c.key < key))) dCell).key = key) ∧
      Cursor.fromNode fuel t page key = .ok { page_index := pg, cell_index := rows.countP (fun c => decide (c.key < key)), end_of_table := if ∃ c ∈ rows, c.key = key then false else decide (rows.countP (fun c => decide (c.key < key)) = rows.length) } t := by
  induction hwf with
  | leaf page h n rows lo mx hpg hn habs hsort hne hb hlast =>
    intro key fuel hf
    rcases fuel with _ | f
    · omega
    refine ⟨page, n, rows, hn, habs, hsort,
      (keyin_leaf_iff t.pager page n rows key hn habs).symm,
      (from_leaf_node_slot t page n rows key hpg hn habs hsort).2, ?_⟩
    show (t.getPageF page).bind _ = _
    rw [getPageF_cached t page n hpg hn]
    show (match n.kind with
      | NodeKind.leaf => Cursor.from_leaf_node t page key
      | NodeKind.internal =>
        match internalBinSearch n key 0 n.get_n_cells with
        | Except.error e => Res.fatal e t
        | Except.ok slot =>
          match n.get_child_index slot with
          | Except.error e => Res.fatal e t
          | Except.ok child_index => Cursor.fromNode f t child_index key) = _
    rw [habs.1]
    exact (from_leaf_node_slot t page n rows key hpg hn habs hsort).1
  | internal page h n cells rc lo mx hpg hn hkind hlcn hic hnc hcne hcle hrc hch
      hright ihch ihright =>
    intro key fuel hf
    rcases fuel with _ | f
    · omega
    have hpos : 0 < cells.length := by
      rcases cells with _ | ⟨a, l⟩
      · exact absurd rfl hcne
      · simp
    have hadj : ∀ i, i + 1 < cells.length →
        (cells.getD i dICell).key < (cells.getD (i + 1) dICell).key := by
      intro i hi
      have h2 := wfsub_lo_lt_mx t.pager (hch (i + 1) hi)
      rw [if_neg (by omega : ¬ i + 1 = 0), show i + 1 - 1 = i from rfl] at h2
      exact h2
    have hmono := seps_mono cells hadj
    have hrd := icell_read_lt n cells hic
    have hbs := internalBinSearch_spec n cells key hrd hmono
    have hsle : cells.countP (fun c => decide (c.key < key)) ≤ cells.length :=
      List.countP_le_length _
    by_cases hsk : cells.countP (fun c => decide (c.key < key)) = cells.length
    · have hgci : n.get_child_index (cells.countP (fun c => decide (c.key < key)))
          = .ok (i32AsUsize rc) := by
        unfold Node.get_child_index
        rw [hkind]
        show (if n.get_n_cells < cells.countP (fun c => decide (c.key < key)) then _
          else _) = _
        rw [Node.get_n_cells, hnc, if_neg (by omega), if_pos hsk]
        show (match n.right_child with
          | some rc => Except.ok (i32AsUsize rc)
          | none => Except.error panicUnwrapMsg) = _
        rw [hrc]
      obtain ⟨pg, nf, rows, hn2, habs2, hsort2, hiff, hpoint, heq⟩ :=
        ihright key f (by omega)
      refine ⟨pg, nf, rows, hn2, habs2, hsort2, ?_, hpoint, ?_⟩
      · rw [hiff]
        constructor
        · intro hki
          exact KeyIn.via_right page n rc key hn hkind hrc hki
        · intro hki
          cases hki with
          | here _ n0 i c _ hn0 hrd0 hi0 hck0 =>
            rw [hn] at hn0
            have hnn : n0 = n := (Option.some.inj hn0).symm
            subst hnn
            have hnone : n0.read_leaf_cell i = none := by
              rw [show n0.read_leaf_cell i
                = ((n0.leaf_cells).getD []).getD i none from rfl, hlcn]
              rfl
            rw [hnone] at hrd0
            exact Option.noConfusion hrd0
          | via_cell _ n0 i c _ hn0 hk0 hrd0 hi0 hrec =>
            rw [hn] at hn0
            have hnn : n0 = n := (Option.some.inj hn0).symm
            subst hnn
            have hil : i < cells.length := by rw [← hnc]; exact hi0
            rw [hrd i hil] at hrd0
            have hcg : c = cells.getD i dICell := Option.some.inj hrd0.symm
            rw [hcg] at hrec
            have hbnd := wfsub_keyin_bounds t.pager (hch i hil) key hrec
            have hlt2 : (cells.getD i dICell).key < key :=
              icell_countP_lo cells key hmono i (by omega)
            have hle2 : key ≤ (cells.getD i dICell).key := hbnd.2
            omega
          | via_right _ n0 rc0 _ hn0 hk0 hrc0 hrec =>
            rw [hn] at hn0
            have hnn : n0 = n := (Option.some.inj hn0).symm
            subst hnn
            rw [hrc] at hrc0
            have hrr : rc0 = rc := Option.some.inj hrc0.symm
            subst hrr
            exact hrec
      · show (t.getPageF page).bind _ = _
        rw [getPageF_cached t page n hpg hn]
        show (match n.kind with
          | NodeKind.leaf => Cursor.from_leaf_node t page key
          | NodeKind.internal =>
            match internalBinSearch n key 0 n.get_n_cells with
            | Except.error e => Res.fatal e t
            | Except.ok slot =>
              match n.get_child_index slot with
              | Except.error e => Res.fatal e t
              | Except.ok child_index => Cursor.fromNode f t child_index key) = _
        rw [hkind]
        show (match internalBinSearch n key 0 n.get_n_cells with
          | Except.error e => Res.fatal e t
          | Except.ok slot =>
            match n.get_child_index slot with
            | Except.error e => Res.fatal e t
            | Except.ok child_index => Cursor.fromNode f t child_index key) = _
        rw [Node.get_n_cells, hnc, hbs]
        show (match n.get_child_index (cells.countP (fun c => decide (c.key < key))) with
          | Except.error e => Res.fatal e t
          | Except.ok child_index => Cursor.fromNode f t child_index key) = _
        rw [hgci]
        exact heq
    · have hslt : cells.countP (fun c => decide (c.key < key)) < cells.length := by
        omega
      have hgci : n.get_child_index (cells.countP (fun c => decide (c.key < key)))
          = .ok (i32AsUsize ((cells.getD
            (cells.countP (fun c => decide (c.key < key))) dICell).child)) := by
        unfold Node.get_child_index
        rw [hkind]
        show (if n.get_n_cells < cells.countP (fun c => decide (c.key < key)) then _
          else _) = _
        rw [Node.get_n_cells, hnc, if_neg (by omega), if_neg hsk]
        show (match n.read_internal_cell
            (cells.countP (fun c => decide (c.key < key))) with
          | some c => Except.ok (i32AsUsize c.child)
          | none => Except.error panicUnwrapMsg) = _
        rw [hrd _ hslt]
      obtain ⟨pg, nf, rows, hn2, habs2, hsort2, hiff, hpoint, heq⟩ :=
        ihch (cells.countP (fun c => decide (c.key < key))) hslt key f (by omega)
      refine ⟨pg, nf, rows, hn2, habs2, hsort2, ?_, hpoint, ?_⟩
      · rw [hiff]
        constructor
        · intro hki
          exact KeyIn.via_cell page n (cells.countP (fun c => decide (c.key < key)))
            (cells.getD (cells.countP (fun c => decide (c.key < key))) dICell) key hn
            hkind (hrd _ hslt) (by rw [hnc]; exact hslt) hki
        · intro hki
          cases hki with
          | here _ n0 i c _ hn0 hrd0 hi0 hck0 =>
            rw [hn] at hn0
            have hnn : n0 = n := (Option.some.inj hn0).symm
            subst hnn
            have hnone : n0.read_leaf_cell i = none := by
              rw [show n0.read_leaf_cell i
                = ((n0.leaf_cells).getD []).getD i none from rfl, hlcn]
              rfl
            rw [hnone] at hrd0
            exact Option.noConfusion hrd0
          | via_cell _ n0 i c _ hn0 hk0 hrd0 hi0 hrec =>
            rw [hn] at hn0
            have hnn : n0 = n := (Option.some.inj hn0).symm
            subst hnn
            have hil : i < cells.length := by rw [← hnc]; exact hi0
            rw [hrd i hil] at hrd0
            have hcg : c = cells.getD i dICell := Option.some.inj hrd0.symm
            rw [hcg] at hrec
            rcases Nat.lt_trichotomy i (cells.countP (fun c => decide (c.key < key)))
              with hi2 | hi2 | hi2
            · exfalso
              have hbnd := wfsub_keyin_bounds t.pager (hch i hil) key hrec
              have hlt3 : (cells.getD i dICell).key < key :=
                icell_countP_lo cells key hmono i hi2
              have hle3 : key ≤ (cells.getD i dICell).key := hbnd.2
              omega
            · rw [← hi2]
              exact hrec
            · exfalso
              have hbnd := wfsub_keyin_bounds t.pager (hch i hil) key hrec
              have h2 := hbnd.1
              rw [if_neg (by omega : ¬ i = 0)] at h2
              have h3 : (cells.getD (i - 1) dICell).key < key := h2
              have h4 : key ≤ (cells.getD (i - 1) dICell).key :=
                icell_countP_hi cells key hmono (i - 1) (by omega) (by omega)
              omega
          | via_right _ n0 rc0 _ hn0 hk0 hrc0 hrec =>
            rw [hn] at hn0
            have hnn : n0 = n := (Option.some.inj hn0).symm
            subst hnn
            rw [hrc] at hrc0
            have hrr : rc0 = rc := Option.some.inj hrc0.symm
            subst hrr
            exfalso
            have hbnd := wfsub_keyin_bounds t.pager hright key hrec
            have h2 : (cells.getD (cells.length - 1) dICell).key < key := hbnd.1
            have h3 : key ≤ (cells.getD (cells.length - 1) dICell).key :=
              icell_countP_hi cells key hmono (cells.length - 1) (by omega) (by omega)
            omega
      · show (t.getPageF page).bind _ = _
        rw [getPageF_cached t page n hpg hn]
        show (match n.kind with
          | NodeKind.leaf => Cursor.from_leaf_node t page key
          | NodeKind.internal =>
            match internalBinSearch n key 0 n.get_n_cells with
            | Except.error e => Res.fatal e t
            | Except.ok slot =>
              match n.get_child_index slot with
              | Except.error e => Res.fatal e t
              | Except.ok child_index => Cursor.fromNode f t child_index key) = _
        rw [hkind]
        show (match internalBinSearch n key 0 n.get_n_cells with
          | Except.error e => Res.fatal e t
          | Except.ok slot =>
            match n.get_child_index slot with
            | Except.error e => Res.fatal e t
            | Except.ok child_index => Cursor.fromNode f t child_index key) = _
        rw [Node.get_n_cells, hnc, hbs]
        show (match n.get_child_index (cells.countP (fun c => decide (c.key < key))) with
          | Except.error e => Res.fatal e t
          | Except.ok child_index => Cursor.fromNode f t child_index key) = _
        rw [hgci]
        exact heq

/-- C4: on any table satisfying the structural tree invariants (`WfTable`),
`Cursor::from` descends to a leaf and binary-searches it: the cursor's cell
index is the number of leaf keys below the search key (the ordered insertion
slot), `end_of_table` is false when the key is present in the table (and then
the cursor points at the cell holding it) and otherwise equals
`slot = n_cells`; and at every internal node the search picks the smallest
slot whose separator is at least the key, falling to the right child (slot
`n_cells`) when every separator is smaller. -/
theorem cursor_from_descends_to_slot (t : Table) (key : Int) (hwf : WfTable t) :
    (∃ pg n rows,
      t.pager.pages.getD pg none = some n ∧ LeafAbs n rows ∧ RowsSortedLt rows ∧
      ((∃ c ∈ rows, c.key = key) ↔ KeyIn t.pager 0 key) ∧
      ((∃ c ∈ rows, c.key = key) →
        (rows.getD (rows.countP (fun c => decide (c.key < key))) dCell).key = key) ∧
      Cursor.fromKey t key = .ok { page_index := pg, cell_index := rows.countP (fun c => decide (c.key < key)), end_of_table := if ∃ c ∈ rows, c.key = key then false else decide (rows.countP (fun c => decide (c.key < key)) = rows.length) } t ∧
      n.n_cells = rows.length) ∧
    (∀ (n2 : Node) (cells : List InternalCell),
      (∀ i j, i ≤ j → j < cells.length →
        (cells.getD i dICell).key ≤ (cells.getD j dICell).key) →
      (∀ i, i < cells.length → n2.read_internal_cell i = some (cells.getD i dICell)) →
      internalBinSearch n2 key 0 cells.length
          = .ok (cells.countP (fun c => decide (c.key < key))) ∧
      (∀ j, j < cells.countP (fun c => decide (c.key < key)) →
        (cells.getD j dICell).key < key) ∧
      (∀ j, cells.countP (fun c => decide (c.key < key)) ≤ j → j < cells.length →
        key ≤ (cells.getD j dICell).key)) := by
  refine ⟨?_, fun n2 cells hsort hrd =>
    ⟨internalBinSearch_spec n2 cells key hrd hsort,
      icell_countP_lo cells key hsort, icell_countP_hi cells key hsort⟩⟩
  obtain ⟨h0, hroot⟩ := hwf
  rcases hroot with ⟨n, rows, hn, habs, hsort⟩ | ⟨h, mx, hlt, hwfs⟩
  · refine ⟨0, n, rows, hn, habs, hsort,
      (keyin_leaf_iff t.pager 0 n rows key hn habs).symm,
      (from_leaf_node_slot t 0 n rows key (by decide) hn habs hsort).2, ?_, habs.2.2.1⟩
    rw [fromKey_leaf_root t n key h0 hn habs.1]
    exact (from_leaf_node_slot t 0 n rows key (by decide) hn habs hsort).1
  · obtain ⟨pg, n, rows, hn, habs, hsort2, hiff, hpoint, heq⟩ :=
      fromNode_wfsub t hwfs key PAGE_MAX_NUM hlt
    refine ⟨pg, n, rows, hn, habs, hsort2, hiff, hpoint, ?_, habs.2.2.1⟩
    show Cursor.fromNode PAGE_MAX_NUM t t.root_node_index key = _
    rw [h0]
    exact heq

/-- Witness for C4 at a concrete input: the fresh table (an empty leaf root)
and key 5. -/
theorem cursor_from_descends_to_slot_witness :
    (∃ pg n rows,
      freshTable.pager.pages.getD pg none = some n ∧ LeafAbs n rows ∧ RowsSortedLt rows ∧
      ((∃ c ∈ rows, c.key = (5 : Int)) ↔ KeyIn freshTable.pager 0 5) ∧
      ((∃ c ∈ rows, c.key = (5 : Int)) →
        (rows.getD (rows.countP (fun c => decide (c.key < (5 : Int)))) dCell).key = 5) ∧
      Cursor.fromKey freshTable 5 = .ok { page_index := pg, cell_index := rows.countP (fun c => decide (c.key < (5 : Int))), end_of_table := if ∃ c ∈ rows, c.key = (5 : Int) then false else decide (rows.countP (fun c => decide (c.key < (5 : Int))) = rows.length) } freshTable ∧
      n.n_cells = rows.length) ∧
    (∀ (n2 : Node) (cells : List InternalCell),
      (∀ i j, i ≤ j → j < cells.length →
        (cells.getD i dICell).key ≤ (cells.getD j dICell).key) →
      (∀ i, i < cells.length → n2.read_internal_cell i = some (cells.getD i dICell)) →
      internalBinSearch n2 (5 : Int) 0 cells.length
          = .ok (cells.countP (fun c => decide (c.key < (5 : Int)))) ∧
      (∀ j, j < cells.countP (fun c => decide (c.key < (5 : Int))) →
        (cells.getD j dICell).key < 5) ∧
      (∀ j, cells.countP (fun c => decide (c.key < (5 : Int))) ≤ j → j < cells.length →
        (5 : Int) ≤ (cells.getD j dICell).key)) :=
  cursor_from_descends_to_slot freshTable 5 ⟨rfl, Or.inl ⟨{ kind := .leaf, is_root := true, parent := NOT_EXIST, n_cells := 0, leaf_cells := some (fillCells [] LEAF_NODE_CELL_MAX_NUM), right_child := none, internal_cells := none }, [], by decide, ⟨rfl, rfl, rfl, by decide, rfl, rfl⟩, List.Pairwise.nil⟩⟩
